import Mathlib

/-! The MIDI event router of `patcher/src/sbmidi_router.c`

A shallow embedding of the router (`sbmidi.h`, `sbmidi_router.c`) and proofs about it.

Conventions of the embedding.

* A rule list (`rule->next` chain ending in `NULL`) is a `List`; the head of the list is
  `router->rules`.  Unlinking a rule is dropping it from the list, prepending is `::`.
  A rule is owned by one list at a time (a rule is not added twice), so the chain has no cycle.
* The two handlers are external callbacks whose return values the router ignores.  A call is
  recorded, with the event it received, in the list of `handler_call`s.
* Mutexes are not modelled: every operation here runs its locked section as one step.
* Router and rule pointers passed to an operation are valid; `router->midi_device` may be `NULL`
  (`none`), and reading `->channels` through it is the fault `null_midi_device`.
* `int` values are mathematical integers (`Int`); `unsigned` fields are `Nat`.  The conversions
  the code performs between them (`int` to `unsigned int` in the parameter windows, `int` to
  `unsigned char` when the new event is filled in) are written out with `%`.
* A `double` multiplier is held exactly, as a dyadic rational.  The router model computes
  `(int)(v * mul + 0.5)` with `mul_round`, which takes the product and the sum exactly and
  truncates toward zero.  `mul_round_double` is the same expression in double arithmetic, the
  product and the sum each rounded to the nearest `double`.  The two agree where the product and
  the sum are doubles and the result is within `int` (`mul_round_double_exact`), as when
  `2 * v * |num| + 2 ^ exp2 < 2 ^ 53` for the multiplier `num / 2 ^ exp2`
  (`round_to_double_exact`).
* Where a cast or a sum would leave the range of `int` the C behaviour is undefined;
  `mul_round` gives the mathematical value there and `mul_round_double` gives `none`.
-/

namespace sbmidi

/-! ## Constants of `sbmidi.h` -/

abbrev SUCCESS : Int := 0
abbrev FAILURE : Int := -1

abbrev NOTE_OFF : Nat := 0x80
abbrev NOTE_ON : Nat := 0x90
abbrev KEY_PRESSURE : Nat := 0xa0
abbrev CONTROL_CHANGE : Nat := 0xb0
abbrev PROGRAM_CHANGE : Nat := 0xc0
abbrev CHANNEL_PRESSURE : Nat := 0xd0
abbrev PITCH_BEND : Nat := 0xe0
abbrev MIDI_SYSEX : Nat := 0xf0
abbrev MIDI_SYNC : Nat := 0xf8
abbrev MIDI_START : Nat := 0xfa
abbrev MIDI_CONTINUE : Nat := 0xfb
abbrev MIDI_STOP : Nat := 0xfc
abbrev MIDI_SYSTEM_RESET : Nat := 0xff

abbrev SUSTAIN_SWITCH : Int := 0x40
abbrev SOSTENUTO_SWITCH : Int := 0x42

/-! ## Data model -/

/-- A finite C double, held exactly as the dyadic rational `num / 2 ^ exp2`.
So `1.0` is `⟨1, 0⟩`, `129.0` is `⟨129, 0⟩`, `0.5` is `⟨1, 1⟩` and `-1.0` is `⟨-1, 0⟩`. -/
structure double where
  num : Int
  exp2 : Nat
deriving DecidableEq, Repr

/-- A finite C `float`, held exactly as a dyadic rational like a `double`; the conversion of a
`float` to `double` keeps the value.  The setters of a rule take their multiplier as `float`:
the value the caller writes is converted at the call, and what the function stores in the
`double` field is the `float` it received. -/
abbrev float := double

/-- The event record `struct sbmidi_event`: `type` and `channel` are `unsigned char`, `param1` and
`param2` are `unsigned int`.  The link, sysex pointer and delta time play no part in routing. -/
structure sbmidi_event where
  type : Nat
  channel : Nat
  param1 : Nat
  param2 : Nat
deriving DecidableEq, Repr

/-- The rule record `struct sbmidi_router_rule`, without its `next` link. -/
structure sbmidi_router_rule where
  type : Nat
  newtype : Nat
  chan_min : Int
  chan_max : Int
  chan_mul : double
  chan_add : Int
  par1_min : Int
  par1_max : Int
  par1_mul : double
  par1_add : Int
  par2_min : Int
  par2_max : Int
  par2_mul : double
  par2_add : Int
  pending_events : Int
  keys_cc : Fin 128 → Int
  waiting : Bool
  custom_id : Int
deriving DecidableEq

/-- The router record `struct sbmidi_router`: the live rule list, the list of rules to free and
the output device, of which only `channels` is read (`none` is a `NULL` device). -/
structure sbmidi_router where
  rules : List sbmidi_router_rule
  free_rules : List sbmidi_router_rule
  midi_device : Option Int
deriving DecidableEq

/-- One call of a handler, with the event value it was handed. -/
inductive handler_call where
  | custom_handler (event : sbmidi_event) (custom_id : Int)
  | fluid_handler (event : sbmidi_event)
deriving DecidableEq, Repr

/-- The ways `sbmidi_router_handle_midi_event` can leave defined behaviour. -/
inductive fault where
  | null_midi_device
  | keys_cc_bounds
  | null_router
deriving DecidableEq, Repr

deriving instance DecidableEq for Except

/-! ## Rule construction -/

/-- The record that `new_sbmidi_router_rule` fills in: zeroed by `memset`, then the three
`max` fields, the three multipliers and `custom_id` are set. -/
def unity_rule : sbmidi_router_rule :=
  { type := 0, newtype := 0
    chan_min := 0, chan_max := 999999, chan_mul := ⟨1, 0⟩, chan_add := 0
    par1_min := 0, par1_max := 999999, par1_mul := ⟨1, 0⟩, par1_add := 0
    par2_min := 0, par2_max := 999999, par2_mul := ⟨1, 0⟩, par2_add := 0
    pending_events := 0, keys_cc := fun _ => 0, waiting := false
    custom_id := -1 }

/-- The function `new_sbmidi_router_rule`; `mem` tells whether `malloc` succeeds. -/
def new_sbmidi_router_rule (mem : Bool) : Option sbmidi_router_rule :=
  if mem then some unity_rule else none

/-- The function `sbmidi_router_rule_set_chan`: the multiplier is a `float` parameter, stored in
the `double` field of the rule. -/
def sbmidi_router_rule_set_chan (rule : sbmidi_router_rule) (min max : Int) (mul : float)
    (add : Int) : sbmidi_router_rule :=
  { rule with chan_min := min, chan_max := max, chan_mul := mul, chan_add := add }

/-- The function `sbmidi_router_rule_set_param1`: the multiplier is a `float` parameter, stored in
the `double` field of the rule. -/
def sbmidi_router_rule_set_param1 (rule : sbmidi_router_rule) (min max : Int) (mul : float)
    (add : Int) : sbmidi_router_rule :=
  { rule with par1_min := min, par1_max := max, par1_mul := mul, par1_add := add }

/-- The function `sbmidi_router_rule_set_param2`: the multiplier is a `float` parameter, stored in
the `double` field of the rule. -/
def sbmidi_router_rule_set_param2 (rule : sbmidi_router_rule) (min max : Int) (mul : float)
    (add : Int) : sbmidi_router_rule :=
  { rule with par2_min := min, par2_max := max, par2_mul := mul, par2_add := add }

def sbmidi_router_rule_set_custom (rule : sbmidi_router_rule) (id : Int) : sbmidi_router_rule :=
  { rule with custom_id := id }

def sbmidi_router_rule_set_type (rule : sbmidi_router_rule) (type : Nat) : sbmidi_router_rule :=
  { rule with type := type }

def sbmidi_router_rule_set_newtype (rule : sbmidi_router_rule) (type : Nat) :
    sbmidi_router_rule :=
  { rule with newtype := type }

/-! ## Router construction and rule mutation -/

/-- What a rule mutation hands back: the status, the router afterwards and the rules it passed
to `free`, in the order they were freed. -/
structure mutation_result where
  ret : Int
  router : sbmidi_router
  freed : List sbmidi_router_rule
deriving DecidableEq

/-- The function `new_sbmidi_router`: the record is zeroed (`memset`), so both `free_rules` and
`midi_device` start as `NULL`.  `mem` and `mem_rule` tell whether the two allocations succeed. -/
def new_sbmidi_router (mem mem_rule : Bool) : Option sbmidi_router :=
  if mem then
    match new_sbmidi_router_rule mem_rule with
    | some rule => some { rules := [rule], free_rules := [], midi_device := none }
    | none => none
  else none

/-- The function `delete_sbmidi_router`, as the list of rules it frees: it walks `router->rules`
only. -/
def delete_sbmidi_router (router : sbmidi_router) : List sbmidi_router_rule :=
  router.rules

/-- The function `sbmidi_router_set_midi_device`: a `NULL` device leaves the router as it is. -/
def sbmidi_router_set_midi_device (router : sbmidi_router) (midi_device : Option Int) :
    sbmidi_router :=
  match midi_device with
  | none => router
  | some channels => { router with midi_device := some channels }

/-- The scan loop of `sbmidi_router_default_rules` over the rule chain, threading `del_rules`:
a rule without pending events is unlinked and prepended to the delete list, any other rule is
marked waiting and stays.  Returns the remaining chain and the delete list. -/
def default_rules_loop :
    List sbmidi_router_rule → List sbmidi_router_rule →
      List sbmidi_router_rule × List sbmidi_router_rule
  | [], del_rules => ([], del_rules)
  | rule :: next_rule, del_rules =>
    if rule.pending_events = 0 then
      default_rules_loop next_rule (rule :: del_rules)
    else
      let rest := default_rules_loop next_rule del_rules
      ({ rule with waiting := true } :: rest.1, rest.2)

/-- The function `sbmidi_router_default_rules`; `mem` tells whether the new default rule can be
allocated. -/
def sbmidi_router_default_rules (mem : Bool) (router : sbmidi_router) : mutation_result :=
  match new_sbmidi_router_rule mem with
  | none => { ret := FAILURE, router := router, freed := [] }
  | some new_rules =>
    let scan := default_rules_loop router.rules []
    { ret := SUCCESS
      router := { router with rules := new_rules :: scan.1 }
      freed := scan.2 }

/-- The scan loop of `sbmidi_router_clear_rules`, written out in the source a second time. -/
def clear_rules_loop :
    List sbmidi_router_rule → List sbmidi_router_rule →
      List sbmidi_router_rule × List sbmidi_router_rule
  | [], del_rules => ([], del_rules)
  | rule :: next_rule, del_rules =>
    if rule.pending_events = 0 then
      clear_rules_loop next_rule (rule :: del_rules)
    else
      let rest := clear_rules_loop next_rule del_rules
      ({ rule with waiting := true } :: rest.1, rest.2)

/-- The function `sbmidi_router_clear_rules`. -/
def sbmidi_router_clear_rules (router : sbmidi_router) : mutation_result :=
  let scan := clear_rules_loop router.rules []
  { ret := SUCCESS
    router := { router with rules := scan.1 }
    freed := scan.2 }

/-- The function `sbmidi_router_add_rule`: the free list is taken over and freed, the rule is
prepended. -/
def sbmidi_router_add_rule (router : sbmidi_router) (rule : sbmidi_router_rule) :
    mutation_result :=
  { ret := SUCCESS
    router := { router with free_rules := [], rules := rule :: router.rules }
    freed := router.free_rules }

/-! ## Event handling -/

/-- Conversion of an `int` to `unsigned int` (32 bits), as done by the usual arithmetic
conversions when an `int` is compared with an `unsigned int`, and by assignment. -/
def to_unsigned (i : Int) : Nat := (i % 4294967296).toNat

/-- Conversion of an `int` to `unsigned char`. -/
def to_uchar (i : Int) : Nat := (i % 256).toNat

/-- The expression `(int)(v * mul + 0.5)` with the product and the sum taken exactly: the
integer part, toward zero, of `v * mul + 1/2`.  It is the value the code computes whenever the
product and the sum are doubles and the result is within `int`; `mul_round_double` below is the
expression with the rounding of double arithmetic. -/
def mul_round (v : Nat) (mul : double) : Int :=
  Int.tdiv (2 * (v : Int) * mul.num + ((2 ^ mul.exp2 : Nat) : Int))
    ((2 ^ (mul.exp2 + 1) : Nat) : Int)

/-- How many low bits of `a` have to go for what is left to be below `2 ^ precision`; `fuel`
bounds the count and `a` itself is always enough. -/
def excess_bits (precision : Nat) : Nat → Nat → Nat
  | 0, _ => 0
  | fuel + 1, a => if a < 2 ^ precision then 0 else excess_bits precision fuel (a / 2) + 1

/-- Rounding of a dyadic rational to the nearest number of a binary floating-point format with
`precision` significant bits, least subnormal `2 ^ -quantum` and largest exponent `emax`, ties
to even (the default rounding of the arithmetic of `float` and `double`).  The result keeps the
denominator of `x`; `none` is the overflow to an infinity. -/
def round_binary (precision quantum emax : Nat) (x : double) : Option double :=
  let a := x.num.natAbs
  let shift := max (excess_bits precision a a) (x.exp2 - quantum)
  let q := a / 2 ^ shift
  let r := a % 2 ^ shift
  let q1 := if 2 * r > 2 ^ shift ∨ (2 * r = 2 ^ shift ∧ q % 2 = 1) then q + 1 else q
  if (q1 * 2 ^ shift) >>> (emax + x.exp2) ≠ 0 then none
  else some ⟨x.num.sign * ((q1 * 2 ^ shift : Nat) : Int), x.exp2⟩

/-- Rounding to `double`: 53 significant bits, subnormals down to `2 ^ -1074`, overflow from
`2 ^ 1024`.  A dyadic rational is a `double` when this leaves it as it is. -/
def round_to_double (x : double) : Option double := round_binary 53 1074 1024 x

/-- Rounding to `float`: 24 significant bits, subnormals down to `2 ^ -149`, overflow from
`2 ^ 128`.  A dyadic rational is a `float` when this leaves it as it is. -/
def round_to_float (x : double) : Option float := round_binary 24 149 128 x

/-- The expression `(int)(v * mul + 0.5)` as double arithmetic computes it: `v` (an
`unsigned char` or `unsigned int`) is converted to `double` without change, the product is
rounded to `double`, so is the sum with `0.5` (evaluation in the precision of `double`, the
two operations not contracted into one), and the cast truncates toward zero.  `none` is
undefined behaviour: the value to convert is infinite or its integer part is outside `int`. -/
def mul_round_double (v : Nat) (mul : double) : Option Int :=
  match round_to_double ⟨(v : Int) * mul.num, mul.exp2⟩ with
  | none => none
  | some product =>
    match round_to_double
        ⟨2 * product.num + ((2 ^ product.exp2 : Nat) : Int), product.exp2 + 1⟩ with
    | none => none
    | some sum =>
      if -2147483648 ≤ Int.tdiv sum.num ((2 ^ sum.exp2 : Nat) : Int) ∧
          Int.tdiv sum.num ((2 ^ sum.exp2 : Nat) : Int) ≤ 2147483647 then
        some (Int.tdiv sum.num ((2 ^ sum.exp2 : Nat) : Int))
      else none

/-- The classification at the head of `sbmidi_router_handle_midi_event`: `some true` for the
types with two parameters, `some false` for those with one, `none` for a non-voice message. -/
def event_haspar2 (type : Nat) : Option Bool :=
  if type = NOTE_ON ∨ type = NOTE_OFF ∨ type = CONTROL_CHANGE ∨ type = KEY_PRESSURE then
    some true
  else if type = PROGRAM_CHANGE ∨ type = PITCH_BEND ∨ type = CHANNEL_PRESSURE then
    some false
  else none

/-- The channel match check; `true` is the `continue`.  The `unsigned char` channel is promoted
to `int`, so the comparisons are those of integers. -/
def chan_window_skip (rule : sbmidi_router_rule) (event : sbmidi_event) : Bool :=
  if rule.chan_min > rule.chan_max then
    decide ((event.channel : Int) > rule.chan_max ∧ (event.channel : Int) < rule.chan_min)
  else
    decide ((event.channel : Int) > rule.chan_max ∨ (event.channel : Int) < rule.chan_min)

/-- The match check of a parameter against a window; `true` is the `continue`.  The value is an
`unsigned int`, so each bound is converted to `unsigned int` before it is compared with it, while
`min > max` compares two `int`s. -/
def param_window_skip (min max : Int) (value : Nat) : Bool :=
  if min > max then
    decide (value > to_unsigned max ∧ value < to_unsigned min)
  else
    decide (value > to_unsigned max ∨ value < to_unsigned min)

/-- The parameter math: the pair `(par1, par2)`.  Where the source leaves `par2` unset (the new
type has no second parameter) it is never read afterwards, and stands as `0` here. -/
def param_math (rule : sbmidi_router_rule) (event : sbmidi_event)
    (event_haspar2 newtype_haspar2 : Bool) : Int × Int :=
  if event_haspar2 then
    if newtype_haspar2 then
      (rule.par1_add + mul_round event.param1 rule.par1_mul,
        rule.par2_add + mul_round event.param2 rule.par2_mul)
    else
      (rule.par2_add + mul_round event.param2 rule.par2_mul, 0)
  else
    if !newtype_haspar2 then
      (rule.par1_add + mul_round event.param1 rule.par1_mul, 0)
    else
      (rule.par2_min, rule.par1_add + mul_round event.param1 rule.par1_mul)

/-- The range policy on `par1`: `none` is the `continue` for an out-of-range control or program
change, otherwise the clamped value. -/
def par1_range (newtype : Nat) (par1 : Int) : Option Int :=
  if newtype = CONTROL_CHANGE ∨ newtype = PROGRAM_CHANGE then
    if par1 < 0 ∨ par1 > 127 then none else some par1
  else if newtype = PITCH_BEND then
    let par1 := if par1 < 0 then 0 else par1
    some (if par1 > 16383 then 16383 else par1)
  else
    let par1 := if par1 < 0 then 0 else par1
    some (if par1 > 127 then 127 else par1)

/-- The range policy on `par2`, applied when the new type has a second parameter. -/
def par2_range (newtype_haspar2 : Bool) (par2 : Int) : Int :=
  if newtype_haspar2 then
    let par2 := if par2 < 0 then 0 else par2
    if par2 > 127 then 127 else par2
  else par2

/-- The subscript of `keys_cc[par1]`: defined for `0 .. 127` only. -/
def keys_index (par1 : Int) : Option (Fin 128) :=
  if h : 0 ≤ par1 ∧ par1 < 128 then some ⟨par1.toNat, by omega⟩ else none

/-- The held-state block.  `some (rule, unlink)` goes on to send the event, with the rule as
updated and `unlink` telling that it was moved to the free list; `none` is the `continue` of a
waiting rule. -/
def held_state (rule : sbmidi_router_rule) (newtype : Nat) (par1 par2 : Int) :
    Except fault (Option (sbmidi_router_rule × Bool)) :=
  if (newtype = NOTE_ON ∧ par2 > 0) ∨
      (newtype = CONTROL_CHANGE ∧ (par1 = SUSTAIN_SWITCH ∨ par1 = SOSTENUTO_SWITCH) ∧
        par2 ≥ 64) then
    match keys_index par1 with
    | none => .error .keys_cc_bounds
    | some i =>
      if rule.keys_cc i = 0 then
        .ok (some ({ rule with
          keys_cc := Function.update rule.keys_cc i 1
          pending_events := rule.pending_events + 1 }, false))
      else .ok (some (rule, false))
  else if (newtype = NOTE_ON ∧ par2 = 0) ∨
      (newtype = CONTROL_CHANGE ∧ (par1 = SUSTAIN_SWITCH ∨ par1 = SOSTENUTO_SWITCH) ∧
        par2 < 64) then
    match keys_index par1 with
    | none => .error .keys_cc_bounds
    | some i =>
      if rule.keys_cc i > 0 then
        if rule.waiting = true ∧ rule.pending_events - 1 = 0 then
          .ok (some ({ rule with
            keys_cc := Function.update rule.keys_cc i 0
            pending_events := rule.pending_events - 1 }, true))
        else
          .ok (some ({ rule with
            keys_cc := Function.update rule.keys_cc i 0
            pending_events := rule.pending_events - 1 }, false))
      else .ok (some (rule, false))
  else if rule.waiting = true then .ok none
  else .ok (some (rule, false))

/-- What one pass of the rule loop does with its rule. -/
inductive rule_step where
  | skip
  | custom (custom_id : Int)
  | send (rule : sbmidi_router_rule) (unlink : Bool) (new_event : sbmidi_event)
deriving DecidableEq

/-- The channel math: the local `chan`. -/
def new_chan (rule : sbmidi_router_rule) (event : sbmidi_event) : Int :=
  rule.chan_add + mul_round event.channel rule.chan_mul

/-- The local `newtype`: the type of the rule if it names one, else the type of the event. -/
def new_type (rule : sbmidi_router_rule) (event : sbmidi_event) : Nat :=
  if rule.newtype ≠ 0 then rule.newtype else event.type

/-- The local `newtype_haspar2`. -/
def newtype_haspar2 (newtype : Nat) : Bool :=
  if newtype = PITCH_BEND ∨ newtype = PROGRAM_CHANGE ∨ newtype = CHANNEL_PRESSURE then false
  else true

/-- The body of the rule loop of `sbmidi_router_handle_midi_event`, for one rule.
`skip` is a `continue` that left the rule alone, `custom` the call of the custom handler
with the event as it stands, `send` the call of the fluid handler with the new event.
In `chan < 0 || chan >= router->midi_device->channels` the device is read only when the
first test fails. -/
def handle_midi_event_rule (midi_device : Option Int) (event : sbmidi_event)
    (event_haspar2 : Bool) (rule : sbmidi_router_rule) : Except fault rule_step :=
  if rule.type ≠ 0 ∧ rule.type ≠ event.type then .ok .skip
  else if chan_window_skip rule event then .ok .skip
  else if param_window_skip rule.par1_min rule.par1_max event.param1 then .ok .skip
  else if event_haspar2 && param_window_skip rule.par2_min rule.par2_max event.param2 then
    .ok .skip
  else if rule.custom_id > -1 then .ok (.custom rule.custom_id)
  else if new_chan rule event < 0 then .ok .skip
  else
    match midi_device with
    | none => .error .null_midi_device
    | some channels =>
      if new_chan rule event ≥ channels then .ok .skip
      else
        match par1_range (new_type rule event)
            (param_math rule event event_haspar2 (newtype_haspar2 (new_type rule event))).1 with
        | none => .ok .skip
        | some par1 =>
          match held_state rule (new_type rule event) par1
              (par2_range (newtype_haspar2 (new_type rule event))
                (param_math rule event event_haspar2
                  (newtype_haspar2 (new_type rule event))).2) with
          | .error f => .error f
          | .ok none => .ok .skip
          | .ok (some (rule1, unlink)) =>
            .ok (.send rule1 unlink
              { type := new_type rule event % 256
                channel := to_uchar (new_chan rule event)
                param1 := to_unsigned par1
                param2 :=
                  if newtype_haspar2 (new_type rule event) then
                    to_unsigned (par2_range (newtype_haspar2 (new_type rule event))
                      (param_math rule event event_haspar2
                        (newtype_haspar2 (new_type rule event))).2)
                  else 0 })

/-- The rule loop of `sbmidi_router_handle_midi_event`, from `rule` to the end of the chain,
threading `router->free_rules`.  Returns the live chain as the loop leaves it, the free list and
the handler calls in the order they were made. -/
def handle_midi_event_loop (midi_device : Option Int) (event : sbmidi_event)
    (event_haspar2 : Bool) :
    List sbmidi_router_rule → List sbmidi_router_rule →
      Except fault (List sbmidi_router_rule × List sbmidi_router_rule × List handler_call)
  | [], free_rules => .ok ([], free_rules, [])
  | rule :: next_rule, free_rules =>
    match handle_midi_event_rule midi_device event event_haspar2 rule with
    | .error f => .error f
    | .ok .skip =>
      match handle_midi_event_loop midi_device event event_haspar2 next_rule free_rules with
      | .error f => .error f
      | .ok (rules, free, calls) => .ok (rule :: rules, free, calls)
    | .ok (.custom custom_id) =>
      match handle_midi_event_loop midi_device event event_haspar2 next_rule free_rules with
      | .error f => .error f
      | .ok (rules, free, calls) =>
        .ok (rule :: rules, free, .custom_handler event custom_id :: calls)
    | .ok (.send rule1 false new_event) =>
      match handle_midi_event_loop midi_device event event_haspar2 next_rule free_rules with
      | .error f => .error f
      | .ok (rules, free, calls) => .ok (rule1 :: rules, free, .fluid_handler new_event :: calls)
    | .ok (.send rule1 true new_event) =>
      match handle_midi_event_loop midi_device event event_haspar2 next_rule
          (rule1 :: free_rules) with
      | .error f => .error f
      | .ok (rules, free, calls) => .ok (rules, free, .fluid_handler new_event :: calls)

/-- What `sbmidi_router_handle_midi_event` leaves behind: the status, the router, the handler
calls in order, and the event record of the caller (a note-off is rewritten in place). -/
structure handle_result where
  ret : Int
  router : sbmidi_router
  calls : List handler_call
  event : sbmidi_event
deriving DecidableEq

/-- The note-off rewrite at the head of `sbmidi_router_handle_midi_event`. -/
def note_off_rewrite (event : sbmidi_event) : sbmidi_event :=
  if event.type = NOTE_OFF then { event with type := NOTE_ON, param2 := 0 } else event

/-- The function `sbmidi_router_handle_midi_event`. -/
def sbmidi_router_handle_midi_event (router : sbmidi_router) (event : sbmidi_event) :
    Except fault handle_result :=
  let event := note_off_rewrite event
  match event_haspar2 event.type with
  | none =>
    .ok { ret := SUCCESS, router := router
          calls := [.custom_handler event (-1), .fluid_handler event], event := event }
  | some haspar2 =>
    match handle_midi_event_loop router.midi_device event haspar2 router.rules
        router.free_rules with
    | .error f => .error f
    | .ok (rules, free, calls) =>
      .ok { ret := SUCCESS, router := { router with rules := rules, free_rules := free }
            calls := calls, event := event }

/-! ## Entry through a router pointer that may be `NULL`

The operations above take a valid router.  The definitions below add what each function does
with its pointer arguments on entry: `none` is `NULL`, and the router that comes back is the
one behind the pointer afterwards.  Using a `NULL` router is the fault `null_router`. -/

/-- The entry of `sbmidi_router_default_rules`: the new rule is allocated and tested first, then
`router->rules_mutex` and `router->rules` are used with no test of `router`. -/
def sbmidi_router_default_rules_ptr (mem : Bool) (router : Option sbmidi_router) :
    Except fault (Int × Option sbmidi_router) :=
  match new_sbmidi_router_rule mem with
  | none => .ok (FAILURE, router)
  | some _ =>
    match router with
    | none => .error .null_router
    | some r => .ok ((sbmidi_router_default_rules mem r).ret,
        some (sbmidi_router_default_rules mem r).router)

/-- The entry of `sbmidi_router_clear_rules`: `if(router == NULL) return FAILURE;`. -/
def sbmidi_router_clear_rules_ptr (router : Option sbmidi_router) :
    Except fault (Int × Option sbmidi_router) :=
  match router with
  | none => .ok (FAILURE, none)
  | some r => .ok ((sbmidi_router_clear_rules r).ret, some (sbmidi_router_clear_rules r).router)

/-- The entry of `sbmidi_router_add_rule`: `if(router == NULL) return FAILURE;` and then
`if(rule == NULL) return FAILURE;`. -/
def sbmidi_router_add_rule_ptr (router : Option sbmidi_router)
    (rule : Option sbmidi_router_rule) : Except fault (Int × Option sbmidi_router) :=
  match router with
  | none => .ok (FAILURE, none)
  | some r =>
    match rule with
    | none => .ok (FAILURE, some r)
    | some new_rule =>
      .ok ((sbmidi_router_add_rule r new_rule).ret, some (sbmidi_router_add_rule r new_rule).router)

/-- The entry of `sbmidi_router_handle_midi_event`: `data` is cast to a router and
`router->rules_mutex` is locked with no test of the pointer. -/
def sbmidi_router_handle_midi_event_ptr (data : Option sbmidi_router) (event : sbmidi_event) :
    Except fault handle_result :=
  match data with
  | none => .error .null_router
  | some router => sbmidi_router_handle_midi_event router event

/-- The handler calls one pass of the rule loop makes. -/
def step_calls (event : sbmidi_event) : rule_step → List handler_call
  | .skip => []
  | .custom custom_id => [.custom_handler event custom_id]
  | .send _ _ new_event => [.fluid_handler new_event]

/-- The live chain one pass of the rule loop leaves in place of its rule. -/
def step_rules (rule : sbmidi_router_rule) : rule_step → List sbmidi_router_rule
  | .skip => [rule]
  | .custom _ => [rule]
  | .send rule1 false _ => [rule1]
  | .send _ true _ => []

/-- The rules one pass of the rule loop prepends to the free list. -/
def step_free : rule_step → List sbmidi_router_rule
  | .send rule1 true _ => [rule1]
  | _ => []

/-! ## The value of a multiplier -/

/-- The rational number a `double` stands for. -/
def double.value (d : double) : ℚ := (d.num : ℚ) / 2 ^ d.exp2

/-! ## The input driver (`sbmidi_alsa.c`) -/

/-- The types of sequencer event that `sbmidi_alsaseq_run` tells apart (`SND_SEQ_EVENT_...` of
the ALSA library); `OTHER` stands for every other type. -/
inductive snd_seq_event_type where
  | NOTEON
  | NOTEOFF
  | KEYPRESS
  | CONTROLLER
  | PITCHBEND
  | PGMCHANGE
  | CHANPRESS
  | SYSEX
  | PORT_START
  | START
  | CONTINUE
  | STOP
  | CLOCK
  | RESET
  | OTHER
deriving DecidableEq, Repr

/-- The fields of the sequencer event `snd_seq_event_t` of the ALSA library that the driver
reads: `dest.port`, the members of `data.note` and of `data.control`, and `data.ext.len`.
`data.control.value` is a signed `int`, the others are unsigned. -/
structure snd_seq_event where
  type : snd_seq_event_type
  dest_port : Nat
  note_channel : Nat
  note_note : Nat
  note_velocity : Nat
  control_channel : Nat
  control_param : Nat
  control_value : Int
  ext_len : Nat
deriving DecidableEq, Repr

/-- One turn of the event loop of `sbmidi_alsaseq_run`, from `evt.type = 0` on: the local record
`evt` as the turn leaves it, and whether it was handed to `sbmidi_router_handle_midi_event`.
The record is not cleared between turns, so a field the turn does not assign keeps the value it
had.  `evt.channel` is an `unsigned char`, `evt.param1` and `evt.param2` are `unsigned int`. -/
def sbmidi_alsaseq_run_event (evt : sbmidi_event) (seq_ev : snd_seq_event) :
    sbmidi_event × Bool :=
  match seq_ev.type with
  | .NOTEON =>
    ({ type := NOTE_ON, channel := to_uchar (seq_ev.dest_port * 16 + seq_ev.note_channel)
       param1 := seq_ev.note_note, param2 := seq_ev.note_velocity }, true)
  | .NOTEOFF =>
    ({ type := NOTE_OFF, channel := to_uchar (seq_ev.dest_port * 16 + seq_ev.note_channel)
       param1 := seq_ev.note_note, param2 := seq_ev.note_velocity }, true)
  | .KEYPRESS =>
    ({ type := KEY_PRESSURE, channel := to_uchar (seq_ev.dest_port * 16 + seq_ev.note_channel)
       param1 := seq_ev.note_note, param2 := seq_ev.note_velocity }, true)
  | .CONTROLLER =>
    ({ type := CONTROL_CHANGE
       channel := to_uchar (seq_ev.dest_port * 16 + seq_ev.control_channel)
       param1 := seq_ev.control_param, param2 := to_unsigned seq_ev.control_value }, true)
  | .PITCHBEND =>
    ({ evt with
       type := PITCH_BEND
       channel := to_uchar (seq_ev.dest_port * 16 + seq_ev.control_channel)
       param1 := to_unsigned (seq_ev.control_value + 8192) }, true)
  | .PGMCHANGE =>
    ({ evt with
       type := PROGRAM_CHANGE
       channel := to_uchar (seq_ev.dest_port * 16 + seq_ev.control_channel)
       param1 := to_unsigned seq_ev.control_value }, true)
  | .CHANPRESS =>
    ({ evt with
       type := CHANNEL_PRESSURE
       channel := to_uchar (seq_ev.dest_port * 16 + seq_ev.control_channel)
       param1 := to_unsigned seq_ev.control_value }, true)
  | .SYSEX =>
    if seq_ev.ext_len < 2 then ({ evt with type := 0 }, false)
    else
      ({ evt with
         type := MIDI_SYSEX, param1 := to_unsigned ((seq_ev.ext_len : Int) - 2), param2 := 0 },
        true)
  | .PORT_START => ({ evt with type := 0 }, false)
  | .START => ({ evt with type := MIDI_START }, true)
  | .CONTINUE => ({ evt with type := MIDI_CONTINUE }, true)
  | .STOP => ({ evt with type := MIDI_STOP }, true)
  | .CLOCK => ({ evt with type := MIDI_SYNC }, true)
  | .RESET => ({ evt with type := MIDI_SYSTEM_RESET }, true)
  | .OTHER => ({ evt with type := 0 }, false)

/-! ## Reachable states -/

/-- A rule as a client can build it: `new_sbmidi_router_rule` followed by setters. -/
inductive built_rule : sbmidi_router_rule → Prop where
  | new : built_rule unity_rule
  | set_chan (rule min max mul add) :
      built_rule rule → built_rule (sbmidi_router_rule_set_chan rule min max mul add)
  | set_param1 (rule min max mul add) :
      built_rule rule → built_rule (sbmidi_router_rule_set_param1 rule min max mul add)
  | set_param2 (rule min max mul add) :
      built_rule rule → built_rule (sbmidi_router_rule_set_param2 rule min max mul add)
  | set_custom (rule id) : built_rule rule → built_rule (sbmidi_router_rule_set_custom rule id)
  | set_type (rule type) : built_rule rule → built_rule (sbmidi_router_rule_set_type rule type)
  | set_newtype (rule type) :
      built_rule rule → built_rule (sbmidi_router_rule_set_newtype rule type)

/-- The router states a client can reach: from `new_sbmidi_router`, by the public operations. -/
inductive reachable : sbmidi_router → Prop where
  | new (mem mem_rule router) : new_sbmidi_router mem mem_rule = some router → reachable router
  | set_midi_device (router midi_device) :
      reachable router → reachable (sbmidi_router_set_midi_device router midi_device)
  | add_rule (router rule) :
      reachable router → built_rule rule → reachable (sbmidi_router_add_rule router rule).router
  | default_rules (mem router) :
      reachable router → reachable (sbmidi_router_default_rules mem router).router
  | clear_rules (router) : reachable router → reachable (sbmidi_router_clear_rules router).router
  | handle_midi_event (router event result) :
      reachable router → sbmidi_router_handle_midi_event router event = .ok result →
        reachable result.router

/-- The number of entries of `keys_cc` that are set. -/
def keys_cc_count (rule : sbmidi_router_rule) : Nat :=
  (Finset.univ.filter (fun i => rule.keys_cc i ≠ 0)).card

/-- The held-state counter invariant of one rule. -/
def held_inv (rule : sbmidi_router_rule) : Prop :=
  rule.pending_events = (keys_cc_count rule : Int) ∧
    (∀ i, rule.keys_cc i = 0 ∨ rule.keys_cc i = 1) ∧ 0 ≤ rule.pending_events

/-- What the reachable states keep true of a live rule, besides the counter invariant: a waiting
rule has a pending event, and a custom rule has none and is not waiting. -/
def waiting_inv (rule : sbmidi_router_rule) : Prop :=
  held_inv rule ∧ (rule.waiting = true → 0 < rule.pending_events) ∧
    (0 ≤ rule.custom_id → rule.pending_events = 0 ∧ rule.waiting = false)

/-! ## Proofs: the scan loops of rule mutation -/

theorem default_rules_loop_fst (rules del_rules : List sbmidi_router_rule) :
    (default_rules_loop rules del_rules).1 =
      (rules.filter (fun r => decide (r.pending_events ≠ 0))).map
        (fun r => { r with waiting := true }) := by
  induction rules generalizing del_rules with
  | nil => rfl
  | cons rule next ih =>
    by_cases h : rule.pending_events = 0
    · simp [default_rules_loop, h, ih]
    · simp [default_rules_loop, h, ih]

theorem clear_rules_loop_fst (rules del_rules : List sbmidi_router_rule) :
    (clear_rules_loop rules del_rules).1 =
      (rules.filter (fun r => decide (r.pending_events ≠ 0))).map
        (fun r => { r with waiting := true }) := by
  induction rules generalizing del_rules with
  | nil => rfl
  | cons rule next ih =>
    by_cases h : rule.pending_events = 0
    · simp [clear_rules_loop, h, ih]
    · simp [clear_rules_loop, h, ih]

theorem filter_pending_pos (rules : List sbmidi_router_rule)
    (h : ∀ r ∈ rules, 0 ≤ r.pending_events) :
    rules.filter (fun r => decide (r.pending_events ≠ 0)) =
      rules.filter (fun r => decide (0 < r.pending_events)) := by
  apply List.filter_congr
  intro r hr
  have := h r hr
  simp only [decide_eq_decide]
  omega

theorem default_rules_loop_snd (rules del_rules : List sbmidi_router_rule) :
    (default_rules_loop rules del_rules).2 =
      (rules.filter (fun r => decide (r.pending_events = 0))).reverse ++ del_rules := by
  induction rules generalizing del_rules with
  | nil => rfl
  | cons rule next ih =>
    by_cases h : rule.pending_events = 0
    · simp [default_rules_loop, h, ih]
    · simp [default_rules_loop, h, ih]

theorem clear_rules_loop_snd (rules del_rules : List sbmidi_router_rule) :
    (clear_rules_loop rules del_rules).2 =
      (rules.filter (fun r => decide (r.pending_events = 0))).reverse ++ del_rules := by
  induction rules generalizing del_rules with
  | nil => rfl
  | cons rule next ih =>
    by_cases h : rule.pending_events = 0
    · simp [clear_rules_loop, h, ih]
    · simp [clear_rules_loop, h, ih]

/-! ## The rule loop -/

theorem loop_cons (dev : Option Int) (event : sbmidi_event) (hp2 : Bool)
    (rule : sbmidi_router_rule) (next free : List sbmidi_router_rule) :
    handle_midi_event_loop dev event hp2 (rule :: next) free =
      match handle_midi_event_rule dev event hp2 rule with
      | .error f => .error f
      | .ok step =>
        match handle_midi_event_loop dev event hp2 next (step_free step ++ free) with
        | .error f => .error f
        | .ok (rules, free1, calls) =>
          .ok (step_rules rule step ++ rules, free1, step_calls event step ++ calls) := by
  rw [handle_midi_event_loop]
  cases h : handle_midi_event_rule dev event hp2 rule with
  | error f => rfl
  | ok step =>
    cases step with
    | skip => simp [step_free, step_rules, step_calls]
    | custom id => simp [step_free, step_rules, step_calls]
    | send rule1 unlink ev =>
      cases unlink <;> simp [step_free, step_rules, step_calls]

theorem loop_free (dev : Option Int) (event : sbmidi_event) (hp2 : Bool)
    (rules free : List sbmidi_router_rule) :
    handle_midi_event_loop dev event hp2 rules free =
      match handle_midi_event_loop dev event hp2 rules [] with
      | .error f => .error f
      | .ok (live, free1, calls) => .ok (live, free1 ++ free, calls) := by
  induction rules generalizing free with
  | nil => simp [handle_midi_event_loop]
  | cons rule next ih =>
    rw [loop_cons, loop_cons dev event hp2 rule next []]
    cases h : handle_midi_event_rule dev event hp2 rule with
    | error f => rfl
    | ok step =>
      simp only [List.append_nil]
      rw [ih (step_free step ++ free), ih (step_free step)]
      cases h2 : handle_midi_event_loop dev event hp2 next [] with
      | error f => rfl
      | ok res =>
        obtain ⟨live, free1, calls⟩ := res
        simp [List.append_assoc]

/-! ## Claims on rule mutation -/

/-- C7: after a successful `sbmidi_router_default_rules` (the default rule could be allocated),
on a router whose counters are not negative, the live list is the fresh default rule followed
by the previous rules that had `pending_events > 0`, in their order, each marked waiting and
otherwise as it was; the rules without pending events are the ones freed; `free_rules` and the
device are as before, and the status is `SUCCESS`.  The call succeeds exactly when the
allocation does. -/
theorem default_rules_postcondition (router : sbmidi_router)
    (hpending : ∀ r ∈ router.rules, 0 ≤ r.pending_events) :
    sbmidi_router_default_rules true router =
        { ret := SUCCESS
          router :=
            { rules := unity_rule ::
                (router.rules.filter (fun r => decide (0 < r.pending_events))).map
                  (fun r => { r with waiting := true })
              free_rules := router.free_rules
              midi_device := router.midi_device }
          freed := (router.rules.filter (fun r => decide (r.pending_events = 0))).reverse } ∧
      new_sbmidi_router_rule true = some unity_rule ∧
      unity_rule.waiting = false ∧ unity_rule.pending_events = 0 ∧
      (∀ mem, (sbmidi_router_default_rules mem router).ret = SUCCESS ↔ mem = true) := by
  refine ⟨?_, rfl, rfl, rfl, ?_⟩
  · simp only [sbmidi_router_default_rules, new_sbmidi_router_rule, if_true,
      default_rules_loop_fst, default_rules_loop_snd, filter_pending_pos _ hpending,
      List.append_nil]
  · intro mem
    cases mem <;> simp [sbmidi_router_default_rules, new_sbmidi_router_rule]

theorem default_rules_postcondition_witness :
    (∀ r ∈ (sbmidi_router.mk
          [{ unity_rule with keys_cc := Function.update (fun _ => 0) 72 1, pending_events := 1 },
            unity_rule] [] (some 16)).rules, 0 ≤ r.pending_events) ∧
      (sbmidi_router_default_rules true
          ⟨[{ unity_rule with keys_cc := Function.update (fun _ => 0) 72 1, pending_events := 1 },
            unity_rule], [], some 16⟩).router.rules =
        [unity_rule,
          { unity_rule with
            keys_cc := Function.update (fun _ => 0) 72 1, pending_events := 1
            waiting := true }] :=
  ⟨by simp [unity_rule],
    congrArg (fun m => m.router.rules)
      (default_rules_postcondition
        ⟨[{ unity_rule with keys_cc := Function.update (fun _ => 0) 72 1, pending_events := 1 },
          unity_rule], [], some 16⟩
        (by simp [unity_rule])).1⟩

/-- C8: from any router state, the live list that `sbmidi_router_default_rules` leaves is the
fresh default rule followed by the live list that `sbmidi_router_clear_rules` leaves; both free
the same rules; `sbmidi_router_clear_rules` returns `SUCCESS` and leaves `free_rules` and the
device as they were. -/
theorem clear_rules_same_bookkeeping (router : sbmidi_router) :
    (sbmidi_router_default_rules true router).router.rules =
        unity_rule :: (sbmidi_router_clear_rules router).router.rules ∧
      (sbmidi_router_default_rules true router).freed =
        (sbmidi_router_clear_rules router).freed ∧
      (sbmidi_router_clear_rules router).ret = SUCCESS ∧
      (sbmidi_router_clear_rules router).router.free_rules = router.free_rules ∧
      (sbmidi_router_clear_rules router).router.midi_device = router.midi_device := by
  simp [sbmidi_router_default_rules, sbmidi_router_clear_rules, new_sbmidi_router_rule,
    default_rules_loop_fst, clear_rules_loop_fst, default_rules_loop_snd, clear_rules_loop_snd]

/-- C9: `sbmidi_router_add_rule` returns `SUCCESS`, puts the rule in front of the previous live
list, which is otherwise untouched, empties `free_rules` (its rules are the ones freed) and
keeps the device.  The added rule is evaluated first: for a voice event, the handler calls of
`sbmidi_router_handle_midi_event` on the new router are the calls the loop body makes for the
added rule, followed by the calls made on the router as it was. -/
theorem add_rule_postcondition (router : sbmidi_router) (rule : sbmidi_router_rule) :
    sbmidi_router_add_rule router rule =
        { ret := SUCCESS
          router :=
            { rules := rule :: router.rules, free_rules := []
              midi_device := router.midi_device }
          freed := router.free_rules } ∧
      ∀ event haspar2 result,
        event_haspar2 (note_off_rewrite event).type = some haspar2 →
        sbmidi_router_handle_midi_event (sbmidi_router_add_rule router rule).router event =
          .ok result →
        ∃ step before,
          handle_midi_event_rule router.midi_device (note_off_rewrite event) haspar2 rule =
            .ok step ∧
          sbmidi_router_handle_midi_event router event = .ok before ∧
          result.calls = step_calls (note_off_rewrite event) step ++ before.calls := by
  refine ⟨rfl, ?_⟩
  intro event haspar2 result hvoice hres
  simp only [sbmidi_router_handle_midi_event, sbmidi_router_add_rule, hvoice] at hres ⊢
  rw [loop_cons] at hres
  cases hstep : handle_midi_event_rule router.midi_device (note_off_rewrite event) haspar2 rule
    with
  | error f => simp [hstep] at hres
  | ok step =>
    rw [hstep] at hres
    simp only [List.append_nil] at hres
    rw [loop_free] at hres
    rw [loop_free router.midi_device (note_off_rewrite event) haspar2 router.rules
      router.free_rules]
    cases hloop : handle_midi_event_loop router.midi_device (note_off_rewrite event) haspar2
      router.rules [] with
    | error f => simp [hloop] at hres
    | ok res =>
      obtain ⟨live, free1, calls⟩ := res
      rw [hloop] at hres
      simp only [Except.ok.injEq] at hres
      subst hres
      exact ⟨step, _, rfl, rfl, rfl⟩

theorem add_rule_postcondition_witness :
    ∃ step before,
      handle_midi_event_rule (some 16) (note_off_rewrite ⟨NOTE_ON, 0, 60, 100⟩) true
          (sbmidi_router_rule_set_chan unity_rule 0 0 ⟨1, 0⟩ 5) = .ok step ∧
        sbmidi_router_handle_midi_event ⟨[unity_rule], [], some 16⟩ ⟨NOTE_ON, 0, 60, 100⟩ =
          .ok before ∧
        [handler_call.fluid_handler ⟨NOTE_ON, 5, 60, 100⟩,
            handler_call.fluid_handler ⟨NOTE_ON, 0, 60, 100⟩] =
          step_calls (note_off_rewrite ⟨NOTE_ON, 0, 60, 100⟩) step ++ before.calls :=
  (add_rule_postcondition ⟨[unity_rule], [], some 16⟩
      (sbmidi_router_rule_set_chan unity_rule 0 0 ⟨1, 0⟩ 5)).2
    ⟨NOTE_ON, 0, 60, 100⟩ true
    { ret := SUCCESS
      router :=
        { rules :=
            [{ sbmidi_router_rule_set_chan unity_rule 0 0 ⟨1, 0⟩ 5 with
                keys_cc := Function.update (fun _ => 0) 60 1, pending_events := 1 },
              { unity_rule with
                keys_cc := Function.update (fun _ => 0) 60 1, pending_events := 1 }]
          free_rules := [], midi_device := some 16 }
      calls := [.fluid_handler ⟨NOTE_ON, 5, 60, 100⟩, .fluid_handler ⟨NOTE_ON, 0, 60, 100⟩]
      event := ⟨NOTE_ON, 0, 60, 100⟩ }
    (by decide) (by rfl)

/-! ## Claims on event handling -/

/-- C2: note-off canonicalization.  From any router state, handling `NOTE_OFF(c, n, v)` gives
the same outcome as handling `NOTE_ON(c, n, 0)`: the same fault if there is one, and otherwise
the same status, the same router (rule list, free list, every held state), the same handler
calls in the same order, and the same event record left with the caller. -/
theorem note_off_canonicalization (router : sbmidi_router) (c n v : Nat) :
    sbmidi_router_handle_midi_event router ⟨NOTE_OFF, c, n, v⟩ =
      sbmidi_router_handle_midi_event router ⟨NOTE_ON, c, n, 0⟩ := by
  simp [sbmidi_router_handle_midi_event, note_off_rewrite]

/-- C10: the channel match check of the rule loop lets an event through exactly when
`chan_min <= chan_max` and the channel lies in `[chan_min, chan_max]`, or `chan_min > chan_max`
and the channel is `<= chan_max` or `>= chan_min`.  With `chan_min = 10`, `chan_max = 5` on an
otherwise default rule, `NOTE_ON` on channels 5 and 11 is forwarded and on channel 6 is not. -/
theorem channel_window (rule : sbmidi_router_rule) (event : sbmidi_event) :
    (chan_window_skip rule event = false ↔
        (rule.chan_min ≤ rule.chan_max ∧ rule.chan_min ≤ (event.channel : Int) ∧
            (event.channel : Int) ≤ rule.chan_max) ∨
          (rule.chan_min > rule.chan_max ∧
            ((event.channel : Int) ≤ rule.chan_max ∨ (event.channel : Int) ≥ rule.chan_min))) ∧
      (sbmidi_router_handle_midi_event
          ⟨[sbmidi_router_rule_set_chan unity_rule 10 5 ⟨1, 0⟩ 0], [], some 16⟩
          ⟨NOTE_ON, 5, 60, 100⟩).map (fun r => r.calls) =
        .ok [.fluid_handler ⟨NOTE_ON, 5, 60, 100⟩] ∧
      (sbmidi_router_handle_midi_event
          ⟨[sbmidi_router_rule_set_chan unity_rule 10 5 ⟨1, 0⟩ 0], [], some 16⟩
          ⟨NOTE_ON, 11, 60, 100⟩).map (fun r => r.calls) =
        .ok [.fluid_handler ⟨NOTE_ON, 11, 60, 100⟩] ∧
      (sbmidi_router_handle_midi_event
          ⟨[sbmidi_router_rule_set_chan unity_rule 10 5 ⟨1, 0⟩ 0], [], some 16⟩
          ⟨NOTE_ON, 6, 60, 100⟩).map (fun r => r.calls) = .ok [] := by
  refine ⟨?_, by decide, by decide, by decide⟩
  unfold chan_window_skip
  split <;> simp <;> omega


theorem count_update_set (k : Fin 128 → Int) (i : Fin 128) (h : k i = 0) :
    (Finset.univ.filter (fun j => Function.update k i 1 j ≠ 0)).card =
      (Finset.univ.filter (fun j => k j ≠ 0)).card + 1 := by
  have hne : i ∉ Finset.univ.filter (fun j => k j ≠ 0) := by simp [h]
  rw [← Finset.card_insert_of_not_mem hne]
  congr 1
  ext j
  by_cases hj : j = i
  · subst hj; simp
  · simp [Function.update_apply, hj]

theorem count_update_clear (k : Fin 128 → Int) (i : Fin 128) (h : k i ≠ 0) :
    (Finset.univ.filter (fun j => Function.update k i 0 j ≠ 0)).card =
      (Finset.univ.filter (fun j => k j ≠ 0)).card - 1 := by
  have hmem : i ∈ Finset.univ.filter (fun j => k j ≠ 0) := by simp [h]
  rw [← Finset.card_erase_of_mem hmem]
  congr 1
  ext j
  by_cases hj : j = i
  · subst hj; simp
  · simp [Function.update_apply, hj]

theorem count_pos (k : Fin 128 → Int) (i : Fin 128) (h : k i ≠ 0) :
    0 < (Finset.univ.filter (fun j => k j ≠ 0)).card :=
  Finset.card_pos.mpr ⟨i, by simp [h]⟩

theorem held_inv_set (rule : sbmidi_router_rule) (i : Fin 128) (h : rule.keys_cc i = 0)
    (hinv : held_inv rule) :
    held_inv { rule with
      keys_cc := Function.update rule.keys_cc i 1
      pending_events := rule.pending_events + 1 } := by
  obtain ⟨hcount, hbit, hpos⟩ := hinv
  refine ⟨?_, ?_, ?_⟩
  · simp only [keys_cc_count] at hcount ⊢
    rw [count_update_set _ _ h, hcount]
    push_cast
    rfl
  · intro j
    by_cases hj : j = i
    · subst hj; simp
    · simpa [Function.update_apply, hj] using hbit j
  · show 0 ≤ rule.pending_events + 1
    omega

theorem held_inv_clear (rule : sbmidi_router_rule) (i : Fin 128) (h : rule.keys_cc i > 0)
    (hinv : held_inv rule) :
    held_inv { rule with
      keys_cc := Function.update rule.keys_cc i 0
      pending_events := rule.pending_events - 1 } := by
  obtain ⟨hcount, hbit, hpos⟩ := hinv
  have hne : rule.keys_cc i ≠ 0 := by omega
  have hc := count_pos rule.keys_cc i hne
  simp only [keys_cc_count] at hcount
  refine ⟨?_, ?_, ?_⟩
  · simp only [keys_cc_count]
    rw [count_update_clear _ _ hne, hcount]
    omega
  · intro j
    by_cases hj : j = i
    · subst hj; simp
    · simpa [Function.update_apply, hj] using hbit j
  · show 0 ≤ rule.pending_events - 1
    omega

/-- The held-state block keeps the counter invariant, never changes a field other than
`keys_cc` and `pending_events`, and unlinks only a waiting rule whose counter reached zero. -/
theorem held_state_inv (rule rule1 : sbmidi_router_rule) (newtype : Nat) (par1 par2 : Int)
    (unlink : Bool) (h : held_state rule newtype par1 par2 = .ok (some (rule1, unlink)))
    (hinv : held_inv rule) :
    held_inv rule1 ∧ rule1.waiting = rule.waiting ∧ rule1.custom_id = rule.custom_id ∧
      (unlink = true → rule1.waiting = true ∧ rule1.pending_events = 0) := by
  unfold held_state at h
  split at h
  · split at h
    · simp at h
    · split at h
      · simp only [Except.ok.injEq, Option.some.injEq, Prod.mk.injEq] at h
        obtain ⟨rfl, rfl⟩ := h
        exact ⟨held_inv_set _ _ (by assumption) hinv, rfl, rfl, by simp⟩
      · simp only [Except.ok.injEq, Option.some.injEq, Prod.mk.injEq] at h
        obtain ⟨rfl, rfl⟩ := h
        exact ⟨hinv, rfl, rfl, by simp⟩
  · split at h
    · split at h
      · simp at h
      · split at h
        · split at h
          · simp only [Except.ok.injEq, Option.some.injEq, Prod.mk.injEq] at h
            obtain ⟨rfl, rfl⟩ := h
            rename_i hw
            exact ⟨held_inv_clear _ _ (by assumption) hinv, rfl, rfl, fun _ => hw⟩
          · simp only [Except.ok.injEq, Option.some.injEq, Prod.mk.injEq] at h
            obtain ⟨rfl, rfl⟩ := h
            exact ⟨held_inv_clear _ _ (by assumption) hinv, rfl, rfl, by simp⟩
        · simp only [Except.ok.injEq, Option.some.injEq, Prod.mk.injEq] at h
          obtain ⟨rfl, rfl⟩ := h
          exact ⟨hinv, rfl, rfl, by simp⟩
    · split at h
      · simp at h
      · simp only [Except.ok.injEq, Option.some.injEq, Prod.mk.injEq] at h
        obtain ⟨rfl, rfl⟩ := h
        exact ⟨hinv, rfl, rfl, by simp⟩

/-- When the loop body sends an event, every gate was passed, the device is set, and the rule
and the event it leaves are those of the held-state block and of the parameter math. -/
theorem rule_body_send_inv (dev : Option Int) (event : sbmidi_event) (hp2 : Bool)
    (rule rule1 : sbmidi_router_rule) (unlink : Bool) (ev : sbmidi_event)
    (h : handle_midi_event_rule dev event hp2 rule = .ok (.send rule1 unlink ev)) :
    (rule.type = 0 ∨ rule.type = event.type) ∧
      chan_window_skip rule event = false ∧
      param_window_skip rule.par1_min rule.par1_max event.param1 = false ∧
      (hp2 = true → param_window_skip rule.par2_min rule.par2_max event.param2 = false) ∧
      rule.custom_id ≤ -1 ∧
      ∃ channels par1,
        dev = some channels ∧ 0 ≤ new_chan rule event ∧ new_chan rule event < channels ∧
        par1_range (new_type rule event)
          (param_math rule event hp2 (newtype_haspar2 (new_type rule event))).1 = some par1 ∧
        held_state rule (new_type rule event) par1
          (par2_range (newtype_haspar2 (new_type rule event))
            (param_math rule event hp2 (newtype_haspar2 (new_type rule event))).2) =
          .ok (some (rule1, unlink)) ∧
        ev =
          { type := new_type rule event % 256
            channel := to_uchar (new_chan rule event)
            param1 := to_unsigned par1
            param2 :=
              if newtype_haspar2 (new_type rule event) then
                to_unsigned (par2_range (newtype_haspar2 (new_type rule event))
                  (param_math rule event hp2 (newtype_haspar2 (new_type rule event))).2)
              else 0 } := by
  unfold handle_midi_event_rule at h
  split at h
  · simp at h
  rename_i h1
  split at h
  · simp at h
  rename_i h2
  split at h
  · simp at h
  rename_i h3
  split at h
  · simp at h
  rename_i h4
  split at h
  · simp at h
  rename_i h5
  split at h
  · simp at h
  rename_i h5a
  split at h
  · simp at h
  · split at h
    · simp at h
    rename_i h6
    split at h
    · simp at h
    · rename_i par1 hpar1
      split at h
      · simp at h
      · simp at h
      · rename_i hs
        simp only [Except.ok.injEq, rule_step.send.injEq] at h
        obtain ⟨rfl, rfl, rfl⟩ := h
        refine ⟨by omega, by simpa using h2, by simpa using h3, ?_, by omega, _, par1, rfl,
          by omega, by omega, hpar1, hs, rfl⟩
        intro hp
        subst hp
        simpa using h4

/-- When the loop body sends an event, the rule it leaves came out of the held-state block. -/
theorem rule_send_held_state (dev : Option Int) (event : sbmidi_event) (hp2 : Bool)
    (rule rule1 : sbmidi_router_rule) (unlink : Bool) (ev : sbmidi_event)
    (h : handle_midi_event_rule dev event hp2 rule = .ok (.send rule1 unlink ev)) :
    ∃ newtype par1 par2, held_state rule newtype par1 par2 = .ok (some (rule1, unlink)) := by
  obtain ⟨-, -, -, -, -, channels, par1, -, -, -, -, hs, -⟩ :=
    rule_body_send_inv dev event hp2 rule rule1 unlink ev h
  exact ⟨_, _, _, hs⟩

theorem rule_step_inv (dev : Option Int) (event : sbmidi_event) (hp2 : Bool)
    (rule rule1 : sbmidi_router_rule) (unlink : Bool) (ev : sbmidi_event)
    (h : handle_midi_event_rule dev event hp2 rule = .ok (.send rule1 unlink ev))
    (hinv : held_inv rule) :
    held_inv rule1 ∧ rule1.waiting = rule.waiting ∧ rule1.custom_id = rule.custom_id ∧
      (unlink = true → rule1.waiting = true ∧ rule1.pending_events = 0) := by
  obtain ⟨newtype, par1, par2, hs⟩ := rule_send_held_state dev event hp2 rule rule1 unlink ev h
  exact held_state_inv rule rule1 newtype par1 par2 unlink hs hinv

/-- An invariant `P` of live rules and `Q` of freed rules that every pass of the loop body
respects is kept by the whole rule loop. -/
theorem loop_inv (P Q : sbmidi_router_rule → Prop) (dev : Option Int) (event : sbmidi_event)
    (hp2 : Bool)
    (hstep : ∀ rule rule1 unlink ev, P rule →
      handle_midi_event_rule dev event hp2 rule = .ok (.send rule1 unlink ev) →
      (unlink = false → P rule1) ∧ (unlink = true → Q rule1))
    (rules free live free1 : List sbmidi_router_rule) (calls : List handler_call)
    (hlive : ∀ r ∈ rules, P r) (hfree : ∀ r ∈ free, Q r)
    (h : handle_midi_event_loop dev event hp2 rules free = .ok (live, free1, calls)) :
    (∀ r ∈ live, P r) ∧ (∀ r ∈ free1, Q r) := by
  induction rules generalizing free live free1 calls with
  | nil =>
    simp only [handle_midi_event_loop, Except.ok.injEq, Prod.mk.injEq] at h
    obtain ⟨rfl, rfl, -⟩ := h
    exact ⟨by simp, hfree⟩
  | cons rule next ih =>
    rw [loop_cons] at h
    have hrule : P rule := hlive rule (List.mem_cons_self _ _)
    have hnext : ∀ r ∈ next, P r := fun r hr => hlive r (List.mem_cons_of_mem _ hr)
    cases hb : handle_midi_event_rule dev event hp2 rule with
    | error f => simp [hb] at h
    | ok step =>
      rw [hb] at h
      simp only at h
      cases hl : handle_midi_event_loop dev event hp2 next (step_free step ++ free) with
      | error f => simp [hl] at h
      | ok res =>
        obtain ⟨live2, free2, calls2⟩ := res
        rw [hl] at h
        simp only [Except.ok.injEq, Prod.mk.injEq] at h
        obtain ⟨rfl, rfl, -⟩ := h
        have hfree2 : ∀ r ∈ step_free step ++ free, Q r := by
          intro r hr
          rcases List.mem_append.mp hr with hr | hr
          · cases step with
            | skip => simp [step_free] at hr
            | custom id => simp [step_free] at hr
            | send rule1 unlink ev =>
              cases unlink with
              | false => simp [step_free] at hr
              | true =>
                simp only [step_free, List.mem_singleton] at hr
                subst hr
                exact (hstep rule r true ev hrule hb).2 rfl
          · exact hfree r hr
        obtain ⟨h1, h2⟩ := ih _ _ _ _ hnext hfree2 hl
        refine ⟨?_, h2⟩
        intro r hr
        rcases List.mem_append.mp hr with hr | hr
        · cases step with
          | skip => simp only [step_rules, List.mem_singleton] at hr; subst hr; exact hrule
          | custom id => simp only [step_rules, List.mem_singleton] at hr; subst hr; exact hrule
          | send rule1 unlink ev =>
            cases unlink with
            | true => simp [step_rules] at hr
            | false =>
              simp only [step_rules, List.mem_singleton] at hr
              subst hr
              exact (hstep rule r false ev hrule hb).1 rfl
        · exact h1 r hr

/-! ## Invariants of the reachable states -/

theorem held_inv_congr (r1 r2 : sbmidi_router_rule) (hk : r2.keys_cc = r1.keys_cc)
    (hp : r2.pending_events = r1.pending_events) (h : held_inv r1) : held_inv r2 := by
  unfold held_inv keys_cc_count at *
  rw [hk, hp]
  exact h

theorem held_inv_unity : held_inv unity_rule := by
  refine ⟨?_, ?_, ?_⟩
  · simp [keys_cc_count, unity_rule]
  · intro i; left; rfl
  · simp [unity_rule]

/-- A rule fresh from the setters holds nothing and is not waiting. -/
theorem built_rule_fresh (rule : sbmidi_router_rule) (h : built_rule rule) :
    rule.keys_cc = unity_rule.keys_cc ∧ rule.pending_events = 0 ∧ rule.waiting = false := by
  induction h with
  | new => exact ⟨rfl, rfl, rfl⟩
  | set_chan rule min max mul add _ ih => exact ih
  | set_param1 rule min max mul add _ ih => exact ih
  | set_param2 rule min max mul add _ ih => exact ih
  | set_custom rule id _ ih => exact ih
  | set_type rule type _ ih => exact ih
  | set_newtype rule type _ ih => exact ih

/-- The invariant carried along the reachable states: every live rule satisfies the counter
invariant, and every rule of the free list does too, has no pending event and is waiting. -/
theorem reachable_inv (router : sbmidi_router) (h : reachable router) :
    (∀ r ∈ router.rules, held_inv r) ∧
      (∀ r ∈ router.free_rules, held_inv r ∧ r.pending_events = 0 ∧ r.waiting = true) := by
  induction h with
  | new mem mem_rule router hnew =>
    cases mem <;> cases mem_rule <;>
      simp [new_sbmidi_router, new_sbmidi_router_rule] at hnew
    subst hnew
    exact ⟨by simpa using held_inv_unity, by simp⟩
  | set_midi_device router midi_device _ ih =>
    cases midi_device with
    | none => exact ih
    | some channels => exact ih
  | add_rule router rule _ hb ih =>
    obtain ⟨hk, hp, -⟩ := built_rule_fresh rule hb
    refine ⟨?_, by simp [sbmidi_router_add_rule]⟩
    intro r hr
    simp only [sbmidi_router_add_rule, List.mem_cons] at hr
    rcases hr with rfl | hr
    · exact held_inv_congr unity_rule r hk hp held_inv_unity
    · exact ih.1 r hr
  | default_rules mem router _ ih =>
    cases mem with
    | false => exact ih
    | true =>
      refine ⟨?_, ih.2⟩
      intro r hr
      simp only [sbmidi_router_default_rules, new_sbmidi_router_rule, if_true,
        default_rules_loop_fst, List.mem_cons, List.mem_map, List.mem_filter] at hr
      rcases hr with rfl | ⟨r0, ⟨hr0, -⟩, rfl⟩
      · exact held_inv_unity
      · exact held_inv_congr r0 _ rfl rfl (ih.1 r0 hr0)
  | clear_rules router _ ih =>
    refine ⟨?_, ih.2⟩
    intro r hr
    simp only [sbmidi_router_clear_rules, clear_rules_loop_fst, List.mem_map,
      List.mem_filter] at hr
    obtain ⟨r0, ⟨hr0, -⟩, rfl⟩ := hr
    exact held_inv_congr r0 _ rfl rfl (ih.1 r0 hr0)
  | handle_midi_event router event result _ hres ih =>
    unfold sbmidi_router_handle_midi_event at hres
    simp only at hres
    split at hres
    · simp only [Except.ok.injEq] at hres
      subst hres
      exact ih
    · split at hres
      · simp at hres
      · rename_i hloop
        simp only [Except.ok.injEq] at hres
        subst hres
        exact loop_inv held_inv
          (fun r => held_inv r ∧ r.pending_events = 0 ∧ r.waiting = true) _ _ _
          (fun rule rule1 unlink ev hP hb => by
            obtain ⟨h1, -, -, h4⟩ := rule_step_inv _ _ _ rule rule1 unlink ev hb hP
            exact ⟨fun _ => h1, fun hu => ⟨h1, (h4 hu).2, (h4 hu).1⟩⟩)
          _ _ _ _ _ ih.1 ih.2 hloop

/-- C5: the held-state counter invariant.  In every router state reachable from
`new_sbmidi_router` by `sbmidi_router_set_midi_device`, `sbmidi_router_add_rule` (of a rule
built by `new_sbmidi_router_rule` and the setters), `sbmidi_router_default_rules`,
`sbmidi_router_clear_rules` and `sbmidi_router_handle_midi_event`, every rule of the live list
and of `free_rules` has `pending_events` equal to the number of indices `i` with
`keys_cc[i] != 0`, every `keys_cc[i]` is `0` or `1`, and `pending_events >= 0`. -/
theorem held_state_counter_invariant (router : sbmidi_router) (h : reachable router) :
    ∀ r ∈ router.rules ++ router.free_rules,
      r.pending_events = ((Finset.univ.filter (fun i => r.keys_cc i ≠ 0)).card : Int) ∧
        (∀ i, r.keys_cc i = 0 ∨ r.keys_cc i = 1) ∧ 0 ≤ r.pending_events := by
  intro r hr
  rcases List.mem_append.mp hr with hr | hr
  · exact (reachable_inv router h).1 r hr
  · exact ((reachable_inv router h).2 r hr).1

/-- C6: the free-list invariant.  In every reachable router state, every rule of `free_rules`
has `pending_events == 0` and is waiting. -/
theorem free_list_invariant (router : sbmidi_router) (h : reachable router) :
    ∀ r ∈ router.free_rules, r.pending_events = 0 ∧ r.waiting = true := by
  intro r hr
  exact ((reachable_inv router h).2 r hr).2

/-- The state after: new router, device of 16 channels, `NOTE_ON(0, 72, 100)`. -/
theorem reachable_note_held :
    reachable
      ⟨[{ unity_rule with keys_cc := Function.update (fun _ => 0) 72 1, pending_events := 1 }],
        [], some 16⟩ :=
  reachable.handle_midi_event (sbmidi_router_set_midi_device ⟨[unity_rule], [], none⟩ (some 16))
    ⟨NOTE_ON, 0, 72, 100⟩
    { ret := SUCCESS
      router :=
        ⟨[{ unity_rule with
            keys_cc := Function.update (fun _ => 0) 72 1, pending_events := 1 }],
          [], some 16⟩
      calls := [.fluid_handler ⟨NOTE_ON, 0, 72, 100⟩]
      event := ⟨NOTE_ON, 0, 72, 100⟩ }
    (reachable.set_midi_device _ _ (reachable.new true true _ rfl)) (by rfl)

/-- The state after: the above, `sbmidi_router_clear_rules`, then `NOTE_OFF(0, 72, 64)`. -/
theorem reachable_note_released :
    reachable
      ⟨[], [{ unity_rule with
          keys_cc := Function.update (Function.update (fun _ => 0) 72 1) 72 0
          pending_events := 0, waiting := true }], some 16⟩ :=
  reachable.handle_midi_event
    (sbmidi_router_clear_rules
      ⟨[{ unity_rule with keys_cc := Function.update (fun _ => 0) 72 1, pending_events := 1 }],
        [], some 16⟩).router
    ⟨NOTE_OFF, 0, 72, 64⟩
    { ret := SUCCESS
      router :=
        ⟨[], [{ unity_rule with
            keys_cc := Function.update (Function.update (fun _ => 0) 72 1) 72 0
            pending_events := 0, waiting := true }], some 16⟩
      calls := [.fluid_handler ⟨NOTE_ON, 0, 72, 0⟩]
      event := ⟨NOTE_ON, 0, 72, 0⟩ }
    (reachable.clear_rules _ reachable_note_held) (by rfl)

theorem held_state_counter_invariant_witness :
    reachable
        ⟨[{ unity_rule with
            keys_cc := Function.update (fun _ => 0) 72 1, pending_events := 1 }],
          [], some 16⟩ ∧
      ∀ r ∈ [{ unity_rule with
            keys_cc := Function.update (fun _ => 0) 72 1, pending_events := 1 }] ++ [],
        r.pending_events = ((Finset.univ.filter (fun i => r.keys_cc i ≠ 0)).card : Int) ∧
          (∀ i, r.keys_cc i = 0 ∨ r.keys_cc i = 1) ∧ 0 ≤ r.pending_events :=
  ⟨reachable_note_held, held_state_counter_invariant _ reachable_note_held⟩

theorem free_list_invariant_witness :
    reachable
        ⟨[], [{ unity_rule with
            keys_cc := Function.update (Function.update (fun _ => 0) 72 1) 72 0
            pending_events := 0, waiting := true }], some 16⟩ ∧
      ∀ r ∈ [{ unity_rule with
            keys_cc := Function.update (Function.update (fun _ => 0) 72 1) 72 0
            pending_events := 0, waiting := true }],
        r.pending_events = 0 ∧ r.waiting = true :=
  ⟨reachable_note_released, free_list_invariant _ reachable_note_released⟩

/-! ## The unity rule -/

theorem mul_round_one (v : Nat) : mul_round v ⟨1, 0⟩ = (v : Int) := by
  simp only [mul_round, pow_zero, zero_add, pow_one, mul_one, Nat.cast_one, Nat.cast_ofNat]
  rw [Int.tdiv_eq_ediv (by omega) (by omega)]
  omega

theorem to_unsigned_natCast (v : Nat) (h : v < 4294967296) : to_unsigned (v : Int) = v := by
  unfold to_unsigned
  omega

theorem to_uchar_natCast (v : Nat) (h : v < 256) : to_uchar (v : Int) = v := by
  unfold to_uchar
  omega

/-- On a rule that is not waiting the held-state block goes on to send the event and does not
unlink the rule, whenever the subscript is within `keys_cc`. -/
theorem held_state_not_waiting (rule : sbmidi_router_rule) (newtype : Nat) (par1 par2 : Int)
    (hw : rule.waiting = false) (hidx : 0 ≤ par1 ∧ par1 < 128) :
    ∃ rule1, held_state rule newtype par1 par2 = .ok (some (rule1, false)) := by
  unfold held_state
  simp only [keys_index, hidx, and_self, dite_true, hw, Bool.false_eq_true, false_and,
    if_false]
  split_ifs <;> exact ⟨_, rfl⟩

/-- The loop body, once every gate is passed: the value it sends. -/
theorem rule_body_send (channels : Int) (event : sbmidi_event) (hp2 : Bool)
    (rule rule1 : sbmidi_router_rule) (unlink : Bool) (par1 : Int)
    (htype : rule.type = 0 ∨ rule.type = event.type)
    (hchan : chan_window_skip rule event = false)
    (hwin1 : param_window_skip rule.par1_min rule.par1_max event.param1 = false)
    (hwin2 : hp2 = true → param_window_skip rule.par2_min rule.par2_max event.param2 = false)
    (hcustom : rule.custom_id ≤ -1)
    (hdev : 0 ≤ new_chan rule event ∧ new_chan rule event < channels)
    (hpar1 : par1_range (new_type rule event)
      (param_math rule event hp2 (newtype_haspar2 (new_type rule event))).1 = some par1)
    (hheld : held_state rule (new_type rule event) par1
      (par2_range (newtype_haspar2 (new_type rule event))
        (param_math rule event hp2 (newtype_haspar2 (new_type rule event))).2) =
      .ok (some (rule1, unlink))) :
    handle_midi_event_rule (some channels) event hp2 rule =
      .ok (.send rule1 unlink
        { type := new_type rule event % 256
          channel := to_uchar (new_chan rule event)
          param1 := to_unsigned par1
          param2 :=
            if newtype_haspar2 (new_type rule event) then
              to_unsigned (par2_range (newtype_haspar2 (new_type rule event))
                (param_math rule event hp2 (newtype_haspar2 (new_type rule event))).2)
            else 0 }) := by
  unfold handle_midi_event_rule
  have h1 : ¬ (rule.type ≠ 0 ∧ rule.type ≠ event.type) := by
    rcases htype with h | h <;> simp [h]
  have h2 : ¬ (rule.custom_id > -1) := by omega
  have h3 : ¬ (new_chan rule event < 0) := by omega
  have h3a : ¬ (new_chan rule event ≥ channels) := by omega
  have h4 : (hp2 && param_window_skip rule.par2_min rule.par2_max event.param2) = false := by
    cases hp2 with
    | false => rfl
    | true => simpa using hwin2 rfl
  simp only [h1, hchan, hwin1, h4, h2, h3, h3a, if_false, hpar1, hheld, Bool.false_eq_true]

theorem par1_range_id (newtype : Nat) (p : Int) (h0 : 0 ≤ p)
    (h : p ≤ (if newtype = PITCH_BEND then 16383 else 127)) :
    par1_range newtype p = some p := by
  unfold par1_range
  by_cases hpb : newtype = PITCH_BEND
  · subst hpb
    simp only [if_true] at h
    have e1 : ¬ (p < 0) := by omega
    have e2 : ¬ (p > 16383) := by omega
    simp [e1, e2]
  · simp only [hpb, if_false] at h
    have e1 : ¬ (p < 0) := by omega
    have e2 : ¬ (p > 127) := by omega
    have e3 : ¬ (p < 0 ∨ p > 127) := by omega
    simp [hpb, e1, e2, e3]

theorem par2_range_id (b : Bool) (p : Int) (h0 : 0 ≤ p) (h : p ≤ 127) : par2_range b p = p := by
  unfold par2_range
  have e1 : ¬ (p < 0) := by omega
  have e2 : ¬ (p > 127) := by omega
  simp [e1, e2]

/-- The loop body on the default rule, whatever keys it holds, for an event within the ranges:
the event goes out with the same type, channel and first parameter, and with its second
parameter if it has one. -/
theorem unity_rule_step (channels : Int) (event : sbmidi_event) (hp2 : Bool)
    (keys_cc : Fin 128 → Int) (pending_events : Int)
    (htype : event_haspar2 event.type = some hp2) (hoff : event.type ≠ NOTE_OFF)
    (hbyte : event.channel < 256) (hdev : (event.channel : Int) < channels)
    (hpar1 : event.param1 ≤ (if event.type = PITCH_BEND then 16383 else 127))
    (hpar2 : hp2 = true → event.param2 ≤ 127) :
    ∃ rule1,
      handle_midi_event_rule (some channels) event hp2
          { unity_rule with keys_cc := keys_cc, pending_events := pending_events } =
        .ok (.send rule1 false
          ⟨event.type, event.channel, event.param1, if hp2 then event.param2 else 0⟩) := by
  obtain ⟨t, c, p1, p2⟩ := event
  simp only at htype hoff hbyte hdev hpar1 hpar2
  generalize hR : ({ unity_rule with keys_cc := keys_cc, pending_events := pending_events } :
    sbmidi_router_rule) = R
  have hchan : new_chan R ⟨t, c, p1, p2⟩ = (c : Int) := by
    subst hR
    simp [new_chan, unity_rule, mul_round_one]
  have hnt : new_type R ⟨t, c, p1, p2⟩ = t := by
    subst hR
    simp [new_type, unity_rule]
  have ht256 : t % 256 = t := by
    unfold event_haspar2 at htype
    split_ifs at htype with h1 h2
    · rcases h1 with h | h | h | h <;> subst h <;> rfl
    · rcases h2 with h | h | h <;> subst h <;> rfl
  have hnhp : newtype_haspar2 t = hp2 := by
    unfold event_haspar2 at htype
    unfold newtype_haspar2
    split_ifs at htype with h1 h2
    · simp only [Option.some.injEq] at htype
      subst htype
      rcases h1 with h | h | h | h <;> subst h <;> simp
    · simp only [Option.some.injEq] at htype
      subst htype
      simp [h2]
      tauto
  have hp1le : p1 ≤ 16383 := by split_ifs at hpar1 <;> omega
  have hpm1 : (param_math R ⟨t, c, p1, p2⟩ hp2 hp2).1 = (p1 : Int) := by
    subst hR
    cases hp2 <;> simp [param_math, unity_rule, mul_round_one]
  have hpm2 : par2_range hp2 (param_math R ⟨t, c, p1, p2⟩ hp2 hp2).2 =
      if hp2 then (p2 : Int) else 0 := by
    subst hR
    cases hp2 with
    | false => simp [param_math, unity_rule, par2_range]
    | true =>
      have := hpar2 rfl
      simp only [param_math, unity_rule, mul_round_one, if_true, zero_add]
      exact par2_range_id _ _ (by omega) (by omega)
  have hrange : par1_range t (p1 : Int) = some (p1 : Int) := by
    apply par1_range_id _ _ (by omega)
    split_ifs at hpar1 ⊢ <;> omega
  have hwait : R.waiting = false := by
    subst hR
    rfl
  have hidx : ∃ rule1, held_state R t (p1 : Int) (if hp2 then (p2 : Int) else 0) =
      .ok (some (rule1, false)) := by
    by_cases hpb : t = PITCH_BEND
    · subst hpb
      refine ⟨R, ?_⟩
      simp [held_state, hwait, PITCH_BEND, NOTE_ON, CONTROL_CHANGE]
    · simp only [hpb, if_false] at hpar1
      exact held_state_not_waiting R t _ _ hwait (by omega)
  obtain ⟨rule1, hheld⟩ := hidx
  refine ⟨rule1, ?_⟩
  have h := rule_body_send channels ⟨t, c, p1, p2⟩ hp2 R rule1 false (p1 : Int)
    (Or.inl (by subst hR; rfl))
    (by subst hR; simp only [chan_window_skip, unity_rule]; simp; omega)
    (by subst hR; simp only [param_window_skip, unity_rule, to_unsigned]; simp; omega)
    (by
      intro hb
      have := hpar2 hb
      subst hR
      simp only [param_window_skip, unity_rule, to_unsigned]; simp; omega)
    (by subst hR; simp [unity_rule])
    (by rw [hchan]; omega)
    (by rw [hnt, hnhp, hpm1]; exact hrange)
    (by rw [hnt, hnhp, hpm2]; exact hheld)
  rw [h, hnt, hnhp, hchan, hpm2, ht256, to_uchar_natCast _ hbyte,
    to_unsigned_natCast _ (by omega)]
  cases hp2 with
  | false => rfl
  | true =>
    have := hpar2 rfl
    simp only [if_true]
    rw [to_unsigned_natCast _ (by omega)]

/-- C1 (amended): on a router with a device set and only the default rule, whatever notes and
pedals the rule holds (any `keys_cc` and `pending_events`; the rule is not waiting), a voice
event whose channel is below the channel count of the device, whose first parameter is at most
127 (16383 for a pitch bend) and whose second parameter, for `NOTE_ON`, `KEY_PRESSURE` and
`CONTROL_CHANGE`, is at most 127, makes `sbmidi_router_handle_midi_event` call the fluid handler
exactly once and no other handler, with the same channel and first parameter, and with the
same second parameter for `NOTE_ON`, `KEY_PRESSURE` and `CONTROL_CHANGE`, `0` for the other
types (`NOTE_OFF` included). -/
theorem unity_rule_forwards_in_range (keys_cc : Fin 128 → Int) (pending_events : Int)
    (free_rules : List sbmidi_router_rule) (channels : Int) (event : sbmidi_event)
    (hvoice : event.type = NOTE_ON ∨ event.type = NOTE_OFF ∨ event.type = KEY_PRESSURE ∨
      event.type = CONTROL_CHANGE ∨ event.type = PROGRAM_CHANGE ∨
      event.type = CHANNEL_PRESSURE ∨ event.type = PITCH_BEND)
    (hbyte : event.channel < 256) (hdev : (event.channel : Int) < channels)
    (hpar1 : event.param1 ≤ (if event.type = PITCH_BEND then 16383 else 127))
    (hpar2 : event.type = NOTE_ON ∨ event.type = KEY_PRESSURE ∨ event.type = CONTROL_CHANGE →
      event.param2 ≤ 127) :
    ∃ result new_event,
      sbmidi_router_handle_midi_event
          ⟨[{ unity_rule with keys_cc := keys_cc, pending_events := pending_events }],
            free_rules, some channels⟩ event =
          .ok result ∧
        result.ret = SUCCESS ∧
        result.calls = [.fluid_handler new_event] ∧
        new_event.channel = event.channel ∧ new_event.param1 = event.param1 ∧
        new_event.param2 =
          (if event.type = NOTE_ON ∨ event.type = KEY_PRESSURE ∨ event.type = CONTROL_CHANGE
            then event.param2 else 0) := by
  obtain ⟨t, c, p1, p2⟩ := event
  simp only at hvoice hbyte hdev hpar1 hpar2
  have main : ∀ (e : sbmidi_event) (hp2 : Bool), note_off_rewrite ⟨t, c, p1, p2⟩ = e →
      event_haspar2 e.type = some hp2 → e.type ≠ NOTE_OFF → e.channel = c → e.param1 = p1 →
      e.param1 ≤ (if e.type = PITCH_BEND then 16383 else 127) →
      (hp2 = true → e.param2 ≤ 127) →
      ∃ result new_event,
        sbmidi_router_handle_midi_event
            ⟨[{ unity_rule with keys_cc := keys_cc, pending_events := pending_events }],
              free_rules, some channels⟩
            ⟨t, c, p1, p2⟩ = .ok result ∧
          result.ret = SUCCESS ∧
          result.calls = [.fluid_handler new_event] ∧
          new_event.channel = c ∧ new_event.param1 = p1 ∧
          new_event.param2 = (if hp2 then e.param2 else 0) := by
    intro e hp2 hrw hhp hoff hc hp1 hr1 hr2
    obtain ⟨rule1, hstep⟩ := unity_rule_step channels e hp2 keys_cc pending_events hhp hoff
      (by omega) (by rw [hc]; exact hdev) hr1 hr2
    refine ⟨⟨SUCCESS, ⟨[rule1], free_rules, some channels⟩,
      [.fluid_handler ⟨e.type, e.channel, e.param1, if hp2 then e.param2 else 0⟩], e⟩,
      ⟨e.type, e.channel, e.param1, if hp2 then e.param2 else 0⟩, ?_, rfl, rfl, hc, hp1, rfl⟩
    simp only [sbmidi_router_handle_midi_event, hrw, hhp, handle_midi_event_loop, hstep]
  rcases hvoice with rfl | rfl | rfl | rfl | rfl | rfl | rfl
  · simpa using main ⟨NOTE_ON, c, p1, p2⟩ true rfl rfl (by simp) rfl rfl hpar1
      (fun _ => hpar2 (Or.inl rfl))
  · simpa using main ⟨NOTE_ON, c, p1, 0⟩ true rfl rfl (by simp) rfl rfl
      (by simp only [NOTE_OFF, PITCH_BEND] at hpar1; simpa using hpar1) (fun _ => by simp)
  · simpa using main ⟨KEY_PRESSURE, c, p1, p2⟩ true rfl rfl (by simp) rfl rfl hpar1
      (fun _ => hpar2 (Or.inr (Or.inl rfl)))
  · simpa using main ⟨CONTROL_CHANGE, c, p1, p2⟩ true rfl rfl (by simp) rfl rfl hpar1
      (fun _ => hpar2 (Or.inr (Or.inr rfl)))
  · simpa using main ⟨PROGRAM_CHANGE, c, p1, p2⟩ false rfl rfl (by simp) rfl rfl hpar1
      (fun h => by simp at h)
  · simpa using main ⟨CHANNEL_PRESSURE, c, p1, p2⟩ false rfl rfl (by simp) rfl rfl hpar1
      (fun h => by simp at h)
  · simpa using main ⟨PITCH_BEND, c, p1, p2⟩ false rfl rfl (by simp) rfl rfl hpar1
      (fun h => by simp at h)

theorem unity_rule_forwards_in_range_witness :
    ∃ result new_event,
      sbmidi_router_handle_midi_event
          ⟨[{ unity_rule with
              keys_cc := Function.update (fun _ => 0) 60 1, pending_events := 1 }],
            [], some 16⟩ ⟨KEY_PRESSURE, 3, 60, 64⟩ =
          .ok result ∧
        result.ret = SUCCESS ∧
        result.calls = [.fluid_handler new_event] ∧
        new_event.channel = 3 ∧ new_event.param1 = 60 ∧
        new_event.param2 =
          (if KEY_PRESSURE = NOTE_ON ∨ KEY_PRESSURE = KEY_PRESSURE ∨
              KEY_PRESSURE = CONTROL_CHANGE
            then 64 else 0) :=
  unity_rule_forwards_in_range (Function.update (fun _ => 0) 60 1) 1 [] 16
    ⟨KEY_PRESSURE, 3, 60, 64⟩ (by decide) (by decide) (by decide) (by decide) (by decide)

/-- C1 (as stated) fails.  On a router with a device of 16 channels and only the default rule:
an event on channel 16 and a control change of controller 200 reach no handler; a note 200 goes
out as note 127, a velocity 200 as 127, a pitch bend of 20000 as 16383; `NOTE_OFF(0, 60, 64)`
goes out with second parameter 0; a pitch bend whose unused second parameter holds 5 goes out
with second parameter 0. -/
theorem unity_rule_counterexample :
    (sbmidi_router_handle_midi_event ⟨[unity_rule], [], some 16⟩
        ⟨NOTE_ON, 16, 60, 100⟩).map (fun r => r.calls) = .ok [] ∧
      (sbmidi_router_handle_midi_event ⟨[unity_rule], [], some 16⟩
        ⟨CONTROL_CHANGE, 0, 200, 1⟩).map (fun r => r.calls) = .ok [] ∧
      (sbmidi_router_handle_midi_event ⟨[unity_rule], [], some 16⟩
        ⟨NOTE_ON, 0, 200, 100⟩).map (fun r => r.calls) =
          .ok [.fluid_handler ⟨NOTE_ON, 0, 127, 100⟩] ∧
      (sbmidi_router_handle_midi_event ⟨[unity_rule], [], some 16⟩
        ⟨NOTE_ON, 0, 60, 200⟩).map (fun r => r.calls) =
          .ok [.fluid_handler ⟨NOTE_ON, 0, 60, 127⟩] ∧
      (sbmidi_router_handle_midi_event ⟨[unity_rule], [], some 16⟩
        ⟨PITCH_BEND, 0, 20000, 0⟩).map (fun r => r.calls) =
          .ok [.fluid_handler ⟨PITCH_BEND, 0, 16383, 0⟩] ∧
      (sbmidi_router_handle_midi_event ⟨[unity_rule], [], some 16⟩
        ⟨NOTE_OFF, 0, 60, 64⟩).map (fun r => r.calls) =
          .ok [.fluid_handler ⟨NOTE_ON, 0, 60, 0⟩] ∧
      (sbmidi_router_handle_midi_event ⟨[unity_rule], [], some 16⟩
        ⟨PITCH_BEND, 0, 8192, 5⟩).map (fun r => r.calls) =
          .ok [.fluid_handler ⟨PITCH_BEND, 0, 8192, 0⟩] := by
  refine ⟨?_, ?_, ?_, ?_, ?_, ?_, ?_⟩ <;> decide

/-! ## Waiting rules and note symmetry -/

/-- C3 fails on the code.  After a new router got a device of 16 channels, `NOTE_ON(0, 72, 100)`
and `sbmidi_router_clear_rules`, its one rule is waiting with one pending event; that state is
reachable.  `NOTE_ON(0, 60, 100)`, a positive trigger, is then sent to the fluid handler through
the waiting rule, and the counter of the rule goes from 1 to 2. -/
theorem waiting_rule_sends_note_on :
    reachable
        ⟨[{ unity_rule with
            keys_cc := Function.update (fun _ => 0) 72 1
            pending_events := 1, waiting := true }], [], some 16⟩ ∧
      sbmidi_router_handle_midi_event
          ⟨[{ unity_rule with
              keys_cc := Function.update (fun _ => 0) 72 1
              pending_events := 1, waiting := true }], [], some 16⟩
          ⟨NOTE_ON, 0, 60, 100⟩ =
        .ok
          { ret := SUCCESS
            router :=
              ⟨[{ unity_rule with
                  keys_cc := Function.update (Function.update (fun _ => 0) 72 1) 60 1
                  pending_events := 2, waiting := true }], [], some 16⟩
            calls := [.fluid_handler ⟨NOTE_ON, 0, 60, 100⟩]
            event := ⟨NOTE_ON, 0, 60, 100⟩ } :=
  ⟨reachable.clear_rules _ reachable_note_held, by rfl⟩

theorem mul_round_zero (mul : double) : mul_round 0 mul = 0 := by
  have h : (2 ^ mul.exp2 : Nat) < 2 ^ (mul.exp2 + 1) :=
    Nat.pow_lt_pow_right (by norm_num) (by omega)
  simp only [mul_round, Nat.cast_zero, mul_zero, zero_mul, zero_add]
  exact Int.tdiv_eq_zero_of_lt (Int.ofNat_nonneg _) (Int.ofNat_lt.mpr h)

/-- The held-state block touches `keys_cc` and `pending_events` only. -/
theorem held_state_fields (rule rule1 : sbmidi_router_rule) (newtype : Nat) (par1 par2 : Int)
    (unlink : Bool) (h : held_state rule newtype par1 par2 = .ok (some (rule1, unlink))) :
    rule1 = { rule with keys_cc := rule1.keys_cc, pending_events := rule1.pending_events } := by
  unfold held_state at h
  split at h
  · split at h
    · simp at h
    · split at h <;>
        (simp only [Except.ok.injEq, Option.some.injEq, Prod.mk.injEq] at h
         obtain ⟨rfl, -⟩ := h
         rfl)
  · split at h
    · split at h
      · simp at h
      · split at h
        · split at h <;>
            (simp only [Except.ok.injEq, Option.some.injEq, Prod.mk.injEq] at h
             obtain ⟨rfl, -⟩ := h
             rfl)
        · simp only [Except.ok.injEq, Option.some.injEq, Prod.mk.injEq] at h
          obtain ⟨rfl, -⟩ := h
          rfl
    · split at h
      · simp at h
      · simp only [Except.ok.injEq, Option.some.injEq, Prod.mk.injEq] at h
        obtain ⟨rfl, -⟩ := h
        rfl

/-- A positive note trigger leaves the key flagged, the counter positive and the rule linked. -/
theorem held_state_note_on (rule rule1 : sbmidi_router_rule) (par1 par2 : Int) (unlink : Bool)
    (hpos : 0 < par2) (hinv : held_inv rule)
    (h : held_state rule NOTE_ON par1 par2 = .ok (some (rule1, unlink))) :
    unlink = false ∧ 0 < rule1.pending_events ∧
      ∃ i, keys_index par1 = some i ∧ rule1.keys_cc i ≠ 0 := by
  obtain ⟨hcount, hbit, hnonneg⟩ := hinv
  unfold held_state at h
  have hc : (NOTE_ON = NOTE_ON ∧ par2 > 0) ∨
      (NOTE_ON = CONTROL_CHANGE ∧ (par1 = SUSTAIN_SWITCH ∨ par1 = SOSTENUTO_SWITCH) ∧
        par2 ≥ 64) := Or.inl ⟨rfl, hpos⟩
  rw [if_pos hc] at h
  cases hi : keys_index par1 with
  | none => simp [hi] at h
  | some i =>
    simp only [hi] at h
    split at h
    · simp only [Except.ok.injEq, Option.some.injEq, Prod.mk.injEq] at h
      obtain ⟨rfl, rfl⟩ := h
      refine ⟨rfl, ?_, i, rfl, by simp⟩
      show 0 < rule.pending_events + 1
      omega
    · rename_i hk
      simp only [Except.ok.injEq, Option.some.injEq, Prod.mk.injEq] at h
      obtain ⟨rfl, rfl⟩ := h
      refine ⟨rfl, ?_, i, rfl, hk⟩
      have := count_pos rule.keys_cc i hk
      simp only [keys_cc_count] at hcount
      omega

/-- A note with velocity 0 always goes on to be sent, whatever the held state. -/
theorem held_state_note_off (rule : sbmidi_router_rule) (par1 : Int) (i : Fin 128)
    (hi : keys_index par1 = some i) :
    ∃ rule1 unlink, held_state rule NOTE_ON par1 0 = .ok (some (rule1, unlink)) := by
  unfold held_state
  have hc1 : ¬ ((NOTE_ON = NOTE_ON ∧ (0 : Int) > 0) ∨
      (NOTE_ON = CONTROL_CHANGE ∧ (par1 = SUSTAIN_SWITCH ∨ par1 = SOSTENUTO_SWITCH) ∧
        (0 : Int) ≥ 64)) := by simp
  have hc2 : (NOTE_ON = NOTE_ON ∧ (0 : Int) = 0) ∨
      (NOTE_ON = CONTROL_CHANGE ∧ (par1 = SUSTAIN_SWITCH ∨ par1 = SOSTENUTO_SWITCH) ∧
        (0 : Int) < 64) := Or.inl ⟨rfl, rfl⟩
  rw [if_neg hc1, if_pos hc2]
  simp only [hi]
  split_ifs <;> exact ⟨_, _, rfl⟩

theorem par2_range_bounds (p : Int) : 0 ≤ par2_range true p ∧ par2_range true p ≤ 127 := by
  unfold par2_range
  simp only [if_true]
  split_ifs <;> omega

theorem par2_range_nonpos (p : Int) (h : p ≤ 0) : par2_range true p = 0 := by
  unfold par2_range
  simp only [if_true]
  split_ifs <;> omega

/-- The note-off pass of the loop body over a rule that, held state and waiting flag apart, is
the rule that sent the note-on: the gates that let `NOTE_ON(c, n, v)` through let
`NOTE_ON(c, n, 0)` through as well once the second window admits 0, and the rule sends a
note-on of velocity 0 on the same channel and note. -/
theorem note_off_step (channels : Int) (rule : sbmidi_router_rule) (c n v : Nat) (par1 : Int)
    (i : Fin 128) (k : Fin 128 → Int) (p : Int) (w : Bool)
    (hnt : new_type rule ⟨NOTE_ON, c, n, v⟩ = NOTE_ON)
    (htype : rule.type = 0 ∨ rule.type = NOTE_ON)
    (hchan : chan_window_skip rule ⟨NOTE_ON, c, n, v⟩ = false)
    (hwin1 : param_window_skip rule.par1_min rule.par1_max n = false)
    (hwin0 : param_window_skip rule.par2_min rule.par2_max 0 = false)
    (hadd : rule.par2_add ≤ 0)
    (hcustom : rule.custom_id ≤ -1)
    (hdev : 0 ≤ new_chan rule ⟨NOTE_ON, c, n, v⟩ ∧ new_chan rule ⟨NOTE_ON, c, n, v⟩ < channels)
    (hpar1 : par1_range NOTE_ON (rule.par1_add + mul_round n rule.par1_mul) = some par1)
    (hi : keys_index par1 = some i) :
    ∃ rule3 unlink3,
      handle_midi_event_rule (some channels) ⟨NOTE_ON, c, n, 0⟩ true
          { rule with keys_cc := k, pending_events := p, waiting := w } =
        .ok (.send rule3 unlink3
          ⟨NOTE_ON, to_uchar (new_chan rule ⟨NOTE_ON, c, n, v⟩), to_unsigned par1, 0⟩) := by
  have hnt2 : new_type { rule with keys_cc := k, pending_events := p, waiting := w }
      ⟨NOTE_ON, c, n, 0⟩ = NOTE_ON := hnt
  have hpm : param_math { rule with keys_cc := k, pending_events := p, waiting := w }
      ⟨NOTE_ON, c, n, 0⟩ true (newtype_haspar2 NOTE_ON) =
      (rule.par1_add + mul_round n rule.par1_mul, rule.par2_add) := by
    simp [param_math, newtype_haspar2, mul_round_zero]
  have hp2 : par2_range (newtype_haspar2 NOTE_ON) rule.par2_add = 0 :=
    par2_range_nonpos _ hadd
  obtain ⟨rule3, unlink3, hheld⟩ :=
    held_state_note_off { rule with keys_cc := k, pending_events := p, waiting := w } par1 i hi
  refine ⟨rule3, unlink3, ?_⟩
  have h := rule_body_send channels ⟨NOTE_ON, c, n, 0⟩ true
    { rule with keys_cc := k, pending_events := p, waiting := w } rule3 unlink3 par1
    htype hchan hwin1 (fun _ => hwin0) hcustom hdev
    (by rw [hnt2, hpm]; exact hpar1)
    (by rw [hnt2, hpm, hp2]; exact hheld)
  rw [h, hnt2, hpm, hp2]
  have hc : new_chan { rule with keys_cc := k, pending_events := p, waiting := w }
      ⟨NOTE_ON, c, n, 0⟩ = new_chan rule ⟨NOTE_ON, c, n, v⟩ := rfl
  rw [hc]
  simp [newtype_haspar2, to_unsigned]
  decide

/-- C4 (amended): note-on and note-off symmetry.  Let a rule satisfy the counter invariant,
have an event type code (below 256) or 0 as `newtype`, a second window that admits the value 0
and `par2_add <= 0`.  If the loop body of `sbmidi_router_handle_midi_event`, given
`NOTE_ON(c, n, v)`, sends through that rule a `NOTE_ON` with velocity above 0, then the rule
stays linked and `sbmidi_router_default_rules` and `sbmidi_router_clear_rules` keep it in the
live list, marked waiting; and, be it as the note-on left it or marked waiting, the loop body
given the rewritten `NOTE_OFF(c, n, w)` sends through it one `NOTE_ON` of velocity 0 with the
channel and first parameter of the note-on it sent. -/
theorem note_off_symmetry (dev : Option Int) (rule rule1 : sbmidi_router_rule)
    (c n v w : Nat) (unlink1 : Bool) (ev1 : sbmidi_event)
    (hinv : held_inv rule) (hbyte : rule.newtype < 256)
    (hwin0 : param_window_skip rule.par2_min rule.par2_max 0 = false)
    (hadd : rule.par2_add ≤ 0)
    (hon : handle_midi_event_rule dev ⟨NOTE_ON, c, n, v⟩ true rule =
      .ok (.send rule1 unlink1 ev1))
    (hty : ev1.type = NOTE_ON) (hvel : 0 < ev1.param2) :
    unlink1 = false ∧
      (∀ router : sbmidi_router, rule1 ∈ router.rules →
        { rule1 with waiting := true } ∈ (sbmidi_router_default_rules true router).router.rules ∧
        { rule1 with waiting := true } ∈ (sbmidi_router_clear_rules router).router.rules) ∧
      ∀ rule2, rule2 = rule1 ∨ rule2 = { rule1 with waiting := true } →
        ∃ rule3 unlink3,
          handle_midi_event_rule dev (note_off_rewrite ⟨NOTE_OFF, c, n, w⟩) true rule2 =
            .ok (.send rule3 unlink3 ⟨NOTE_ON, ev1.channel, ev1.param1, 0⟩) := by
  obtain ⟨htype, hchan, hwin1, -, hcustom, channels, par1, rfl, hc0, hc1, hpar1, hheld, hev⟩ :=
    rule_body_send_inv dev _ true rule rule1 unlink1 ev1 hon
  have hnt : new_type rule ⟨NOTE_ON, c, n, v⟩ = NOTE_ON := by
    have h1 : new_type rule ⟨NOTE_ON, c, n, v⟩ % 256 = NOTE_ON := by
      have h := hty
      rw [hev] at h
      exact h
    have h2 : new_type rule ⟨NOTE_ON, c, n, v⟩ < 256 := by
      unfold new_type
      split_ifs
      · exact hbyte
      · show NOTE_ON < 256
        decide
    omega
  rw [hnt] at hpar1 hheld hev
  have hpm : param_math rule ⟨NOTE_ON, c, n, v⟩ true (newtype_haspar2 NOTE_ON) =
      (rule.par1_add + mul_round n rule.par1_mul, rule.par2_add + mul_round v rule.par2_mul) := by
    simp [param_math, newtype_haspar2]
  rw [hpm] at hpar1 hheld hev
  have hb : newtype_haspar2 NOTE_ON = true := by decide
  rw [hb] at hheld hev
  have hpos : 0 < par2_range true (rule.par2_add + mul_round v rule.par2_mul) := by
    have hbd := par2_range_bounds (rule.par2_add + mul_round v rule.par2_mul)
    rw [hev] at hvel
    simp only [if_true, to_unsigned] at hvel
    omega
  obtain ⟨hun, hpend, i, hi, -⟩ := held_state_note_on rule rule1 par1 _ unlink1 hpos hinv hheld
  have hf := held_state_fields rule rule1 _ _ _ _ hheld
  have hstep := fun (b : Bool) => note_off_step channels rule c n v par1 i rule1.keys_cc
    rule1.pending_events b hnt (by simpa using htype) hchan hwin1 hwin0 hadd hcustom ⟨hc0, hc1⟩
    hpar1 hi
  have hch : ev1.channel = to_uchar (new_chan rule ⟨NOTE_ON, c, n, v⟩) := by rw [hev]
  have hp1 : ev1.param1 = to_unsigned par1 := by rw [hev]
  have hrw : note_off_rewrite ⟨NOTE_OFF, c, n, w⟩ = ⟨NOTE_ON, c, n, 0⟩ := by
    simp [note_off_rewrite]
  refine ⟨hun, ?_, ?_⟩
  · intro router hmem
    have hne : rule1.pending_events ≠ 0 := by omega
    constructor
    · simp only [sbmidi_router_default_rules, new_sbmidi_router_rule, if_true,
        default_rules_loop_fst, List.mem_cons, List.mem_map, List.mem_filter]
      exact Or.inr ⟨rule1, ⟨hmem, by simpa using hne⟩, rfl⟩
    · simp only [sbmidi_router_clear_rules, clear_rules_loop_fst, List.mem_map,
        List.mem_filter]
      exact ⟨rule1, ⟨hmem, by simpa using hne⟩, rfl⟩
  · intro rule2 h2
    rw [hrw, hch, hp1]
    rcases h2 with rfl | rfl
    · rw [hf]
      exact hstep rule.waiting
    · rw [hf]
      exact hstep true

theorem note_off_symmetry_witness :
    handle_midi_event_rule (some 16) ⟨NOTE_ON, 0, 60, 100⟩ true
          (sbmidi_router_rule_set_param1 unity_rule 0 127 ⟨1, 0⟩ 12) =
        .ok (.send
          { sbmidi_router_rule_set_param1 unity_rule 0 127 ⟨1, 0⟩ 12 with
            keys_cc := Function.update (fun _ => 0) 72 1, pending_events := 1 }
          false ⟨NOTE_ON, 0, 72, 100⟩) ∧
      ∃ rule3 unlink3,
        handle_midi_event_rule (some 16) (note_off_rewrite ⟨NOTE_OFF, 0, 60, 64⟩) true
            { sbmidi_router_rule_set_param1 unity_rule 0 127 ⟨1, 0⟩ 12 with
              keys_cc := Function.update (fun _ => 0) 72 1, pending_events := 1
              waiting := true } =
          .ok (.send rule3 unlink3 ⟨NOTE_ON, 0, 72, 0⟩) :=
  ⟨by rfl,
    (note_off_symmetry (some 16) (sbmidi_router_rule_set_param1 unity_rule 0 127 ⟨1, 0⟩ 12)
      { sbmidi_router_rule_set_param1 unity_rule 0 127 ⟨1, 0⟩ 12 with
        keys_cc := Function.update (fun _ => 0) 72 1, pending_events := 1 }
      0 60 100 64 false ⟨NOTE_ON, 0, 72, 100⟩
      (held_inv_congr unity_rule _ rfl rfl held_inv_unity) (by decide) (by decide) (by decide)
      (by rfl) rfl (by decide)).2.2 _ (Or.inr rfl)⟩

/-- C4 (as stated) fails.  With a rule whose second window is `1 .. 127`, `NOTE_ON(0, 60, 100)`
is sent on as `NOTE_ON(0, 60, 100)` and flags the key, but the matching `NOTE_OFF(0, 60, 0)`
does not pass the window: nothing is sent and the key stays flagged.  With a rule whose
`par2_add` is 10, `NOTE_ON(0, 60, 100)` is sent on as `NOTE_ON(0, 60, 110)` and the matching
`NOTE_OFF(0, 60, 64)` as `NOTE_ON(0, 60, 10)`, which is no note-off. -/
theorem note_off_symmetry_counterexample :
    (sbmidi_router_handle_midi_event
          ⟨[sbmidi_router_rule_set_param2 unity_rule 1 127 ⟨1, 0⟩ 0], [], some 16⟩
          ⟨NOTE_ON, 0, 60, 100⟩ =
        .ok
          { ret := SUCCESS
            router :=
              ⟨[{ sbmidi_router_rule_set_param2 unity_rule 1 127 ⟨1, 0⟩ 0 with
                  keys_cc := Function.update (fun _ => 0) 60 1, pending_events := 1 }],
                [], some 16⟩
            calls := [.fluid_handler ⟨NOTE_ON, 0, 60, 100⟩]
            event := ⟨NOTE_ON, 0, 60, 100⟩ }) ∧
      (sbmidi_router_handle_midi_event
          ⟨[{ sbmidi_router_rule_set_param2 unity_rule 1 127 ⟨1, 0⟩ 0 with
              keys_cc := Function.update (fun _ => 0) 60 1, pending_events := 1 }],
            [], some 16⟩
          ⟨NOTE_OFF, 0, 60, 0⟩ =
        .ok
          { ret := SUCCESS
            router :=
              ⟨[{ sbmidi_router_rule_set_param2 unity_rule 1 127 ⟨1, 0⟩ 0 with
                  keys_cc := Function.update (fun _ => 0) 60 1, pending_events := 1 }],
                [], some 16⟩
            calls := []
            event := ⟨NOTE_ON, 0, 60, 0⟩ }) ∧
      (sbmidi_router_handle_midi_event
          ⟨[sbmidi_router_rule_set_param2 unity_rule 0 127 ⟨1, 0⟩ 10], [], some 16⟩
          ⟨NOTE_ON, 0, 60, 100⟩).map (fun r => r.calls) =
        .ok [.fluid_handler ⟨NOTE_ON, 0, 60, 110⟩] ∧
      (sbmidi_router_handle_midi_event
          ⟨[{ sbmidi_router_rule_set_param2 unity_rule 0 127 ⟨1, 0⟩ 10 with
              keys_cc := Function.update (fun _ => 0) 60 1, pending_events := 1 }],
            [], some 16⟩
          ⟨NOTE_OFF, 0, 60, 64⟩).map (fun r => r.calls) =
        .ok [.fluid_handler ⟨NOTE_ON, 0, 60, 10⟩] :=
  ⟨by rfl, by rfl, by decide, by decide⟩

/-! ## Totality of the rule loop -/

/-- What the range policy on `par1` returns, when it returns: the value clamped to the range of
the new type, which for a control or program change is the value itself. -/
theorem par1_range_some (newtype : Nat) (p q : Int) (h : par1_range newtype p = some q) :
    q = max 0 (min (if newtype = PITCH_BEND then 16383 else 127) p) ∧
      ((newtype = CONTROL_CHANGE ∨ newtype = PROGRAM_CHANGE) → q = p) := by
  unfold par1_range at h
  split_ifs at h with h1 h2 h3
  all_goals simp only [Option.some.injEq] at h
  all_goals subst h
  all_goals first
    | (rcases h1 with rfl | rfl <;> simp [CONTROL_CHANGE, PROGRAM_CHANGE, PITCH_BEND] <;> omega)
    | (subst h3; simp; omega)
    | (simp [*]; omega)

/-- The range policy drops exactly the control and program changes whose `par1` is outside
`0 .. 127`. -/
theorem par1_range_none (newtype : Nat) (p : Int) :
    par1_range newtype p = none ↔
      (newtype = CONTROL_CHANGE ∨ newtype = PROGRAM_CHANGE) ∧ (p < 0 ∨ p > 127) := by
  unfold par1_range
  split_ifs with h1 h2 h3 <;> simp [*]

/-- After the range policy the held-state block never indexes outside `keys_cc`. -/
theorem held_state_total (rule : sbmidi_router_rule) (newtype : Nat) (p par1 par2 : Int)
    (h : par1_range newtype p = some par1) :
    ∃ o, held_state rule newtype par1 par2 = .ok o := by
  obtain ⟨hq, -⟩ := par1_range_some newtype p par1 h
  unfold held_state
  by_cases hpb : newtype = PITCH_BEND
  · subst hpb
    simp only [PITCH_BEND, NOTE_ON, CONTROL_CHANGE]
    norm_num
    split_ifs <;> exact ⟨_, rfl⟩
  · simp only [hpb, if_false] at hq
    have hidx : 0 ≤ par1 ∧ par1 < 128 := by omega
    simp only [keys_index, hidx, and_self, dite_true]
    split_ifs <;> exact ⟨_, rfl⟩

/-- With a device set, the loop body always comes to a result. -/
theorem rule_body_total (channels : Int) (event : sbmidi_event) (hp2 : Bool)
    (rule : sbmidi_router_rule) :
    ∃ step, handle_midi_event_rule (some channels) event hp2 rule = .ok step := by
  unfold handle_midi_event_rule
  split
  · exact ⟨_, rfl⟩
  split
  · exact ⟨_, rfl⟩
  split
  · exact ⟨_, rfl⟩
  split
  · exact ⟨_, rfl⟩
  split
  · exact ⟨_, rfl⟩
  split
  · exact ⟨_, rfl⟩
  simp only []
  split
  · exact ⟨_, rfl⟩
  split
  · exact ⟨_, rfl⟩
  · rename_i par1 hr
    split
    · rename_i f hf
      obtain ⟨o, ho⟩ := held_state_total rule (new_type rule event) _ par1
        (par2_range (newtype_haspar2 (new_type rule event))
          (param_math rule event hp2 (newtype_haspar2 (new_type rule event))).2) hr
      rw [ho] at hf
      simp at hf
    · exact ⟨_, rfl⟩
    · exact ⟨_, rfl⟩

/-- With a device set, the rule loop always comes to a result. -/
theorem loop_total (channels : Int) (event : sbmidi_event) (hp2 : Bool)
    (rules free : List sbmidi_router_rule) :
    ∃ res, handle_midi_event_loop (some channels) event hp2 rules free = .ok res := by
  induction rules generalizing free with
  | nil => exact ⟨_, rfl⟩
  | cons rule next ih =>
    rw [loop_cons]
    obtain ⟨step, hs⟩ := rule_body_total channels event hp2 rule
    obtain ⟨res, hr⟩ := ih (step_free step ++ free)
    rw [hs]
    simp only [hr]
    exact ⟨_, rfl⟩

/-- C17: on a router that has a device set, `sbmidi_router_handle_midi_event` comes to a result
for every event and returns `SUCCESS`; so it does when the one rule drops the event because the
channel is out of range (`NOTE_ON` on channel 16 of 16) or because the controller number is
(`CONTROL_CHANGE` 200): no handler is called and the status is still `SUCCESS`. -/
theorem handle_midi_event_returns_success (router : sbmidi_router) (channels : Int)
    (event : sbmidi_event) (hdev : router.midi_device = some channels) :
    (∃ result, sbmidi_router_handle_midi_event router event = .ok result ∧
        result.ret = SUCCESS) ∧
      sbmidi_router_handle_midi_event ⟨[unity_rule], [], some 16⟩ ⟨NOTE_ON, 16, 60, 100⟩ =
        .ok ⟨SUCCESS, ⟨[unity_rule], [], some 16⟩, [], ⟨NOTE_ON, 16, 60, 100⟩⟩ ∧
      sbmidi_router_handle_midi_event ⟨[unity_rule], [], some 16⟩
          ⟨CONTROL_CHANGE, 0, 200, 1⟩ =
        .ok ⟨SUCCESS, ⟨[unity_rule], [], some 16⟩, [], ⟨CONTROL_CHANGE, 0, 200, 1⟩⟩ := by
  refine ⟨?_, by rfl, by rfl⟩
  unfold sbmidi_router_handle_midi_event
  simp only [hdev]
  cases hv : event_haspar2 (note_off_rewrite event).type with
  | none => exact ⟨_, rfl, rfl⟩
  | some hp2 =>
    obtain ⟨⟨live, free1, calls⟩, hl⟩ :=
      loop_total channels (note_off_rewrite event) hp2 router.rules router.free_rules
    simp only [hl]
    exact ⟨_, rfl, rfl⟩

theorem handle_midi_event_returns_success_witness :
    ∃ result,
      sbmidi_router_handle_midi_event
          ⟨[sbmidi_router_rule_set_chan unity_rule 0 15 ⟨1, 0⟩ 100], [], some 16⟩
          ⟨NOTE_ON, 3, 60, 100⟩ = .ok result ∧
        result.ret = SUCCESS :=
  (handle_midi_event_returns_success
    ⟨[sbmidi_router_rule_set_chan unity_rule 0 15 ⟨1, 0⟩ 100], [], some 16⟩ 16
    ⟨NOTE_ON, 3, 60, 100⟩ rfl).1

/-! ## Custom rules and the bypass of non-voice messages -/

/-- The loop body calls the custom handler only for a rule whose id is above -1, with that id. -/
theorem rule_body_custom_inv (dev : Option Int) (event : sbmidi_event) (hp2 : Bool)
    (rule : sbmidi_router_rule) (id : Int)
    (h : handle_midi_event_rule dev event hp2 rule = .ok (.custom id)) :
    id = rule.custom_id ∧ rule.custom_id > -1 := by
  unfold handle_midi_event_rule at h
  split at h
  · simp at h
  split at h
  · simp at h
  split at h
  · simp at h
  split at h
  · simp at h
  split at h
  · rename_i hc
    simp only [Except.ok.injEq, rule_step.custom.injEq] at h
    exact ⟨h.symm, hc⟩
  split at h
  · simp at h
  split at h
  · simp at h
  split at h
  · simp at h
  split at h
  · simp at h
  split at h <;> simp at h

/-- Every custom handler call of the rule loop carries the event of the loop and an id
above -1. -/
theorem loop_custom_calls (dev : Option Int) (event : sbmidi_event) (hp2 : Bool)
    (rules free live free1 : List sbmidi_router_rule) (calls : List handler_call)
    (h : handle_midi_event_loop dev event hp2 rules free = .ok (live, free1, calls)) :
    ∀ e id, handler_call.custom_handler e id ∈ calls → e = event ∧ id > -1 := by
  induction rules generalizing free live free1 calls with
  | nil =>
    simp only [handle_midi_event_loop, Except.ok.injEq, Prod.mk.injEq] at h
    obtain ⟨-, -, rfl⟩ := h
    simp
  | cons rule next ih =>
    rw [loop_cons] at h
    cases hb : handle_midi_event_rule dev event hp2 rule with
    | error f => simp [hb] at h
    | ok step =>
      rw [hb] at h
      simp only at h
      cases hl : handle_midi_event_loop dev event hp2 next (step_free step ++ free) with
      | error f => simp [hl] at h
      | ok res =>
        obtain ⟨live2, free2, calls2⟩ := res
        rw [hl] at h
        simp only [Except.ok.injEq, Prod.mk.injEq] at h
        obtain ⟨-, -, rfl⟩ := h
        intro e id hmem
        rcases List.mem_append.mp hmem with hm | hm
        · cases step with
          | skip => simp [step_calls] at hm
          | custom id1 =>
            simp only [step_calls, List.mem_singleton, handler_call.custom_handler.injEq] at hm
            obtain ⟨rfl, rfl⟩ := hm
            exact ⟨rfl, (rule_body_custom_inv dev _ hp2 rule _ hb).1 ▸
              (rule_body_custom_inv dev _ hp2 rule _ hb).2⟩
          | send rule1 unlink ev => simp [step_calls] at hm
        · exact ih _ _ _ _ hl e id hm

/-- C13: an event whose type, after the note-off rewrite, is none of `NOTE_ON`, `KEY_PRESSURE`,
`CONTROL_CHANGE`, `PROGRAM_CHANGE`, `CHANNEL_PRESSURE`, `PITCH_BEND` makes
`sbmidi_router_handle_midi_event` call the custom handler once with id -1 and then the fluid
handler once, both with the event as it came in, evaluate no rule, leave the router as it was
and return `SUCCESS`, whether a device is set or not.  For an event of one of these six types
every custom handler call carries an id above -1. -/
theorem non_voice_bypass (router : sbmidi_router) (event : sbmidi_event) :
    ((note_off_rewrite event).type ≠ NOTE_ON ∧ (note_off_rewrite event).type ≠ KEY_PRESSURE ∧
        (note_off_rewrite event).type ≠ CONTROL_CHANGE ∧
        (note_off_rewrite event).type ≠ PROGRAM_CHANGE ∧
        (note_off_rewrite event).type ≠ CHANNEL_PRESSURE ∧
        (note_off_rewrite event).type ≠ PITCH_BEND →
      sbmidi_router_handle_midi_event router event =
        .ok { ret := SUCCESS, router := router
              calls := [.custom_handler event (-1), .fluid_handler event]
              event := event }) ∧
      ((note_off_rewrite event).type = NOTE_ON ∨ (note_off_rewrite event).type = KEY_PRESSURE ∨
        (note_off_rewrite event).type = CONTROL_CHANGE ∨
        (note_off_rewrite event).type = PROGRAM_CHANGE ∨
        (note_off_rewrite event).type = CHANNEL_PRESSURE ∨
        (note_off_rewrite event).type = PITCH_BEND →
      ∀ result, sbmidi_router_handle_midi_event router event = .ok result →
        ∀ e id, handler_call.custom_handler e id ∈ result.calls → id > -1) := by
  constructor
  · intro ⟨h1, h2, h3, h4, h5, h6⟩
    have hoff : event.type ≠ NOTE_OFF := by
      intro hc
      apply h1
      simp [note_off_rewrite, hc]
    have hrw : note_off_rewrite event = event := by simp [note_off_rewrite, hoff]
    rw [hrw] at h1 h2 h3 h4 h5 h6
    have hv : event_haspar2 event.type = none := by
      simp [event_haspar2, h1, h2, h3, h4, h5, h6, hoff]
    simp only [sbmidi_router_handle_midi_event, hrw, hv]
  · intro hvoice result hres e id hmem
    unfold sbmidi_router_handle_midi_event at hres
    have hv : ∃ hp2, event_haspar2 (note_off_rewrite event).type = some hp2 := by
      unfold event_haspar2
      rcases hvoice with h | h | h | h | h | h <;> rw [h] <;> simp
    obtain ⟨hp2, hv⟩ := hv
    simp only [hv] at hres
    cases hl : handle_midi_event_loop router.midi_device (note_off_rewrite event) hp2
        router.rules router.free_rules with
    | error f => simp [hl] at hres
    | ok res =>
      obtain ⟨live, free1, calls⟩ := res
      rw [hl] at hres
      simp only [Except.ok.injEq] at hres
      subst hres
      exact (loop_custom_calls _ _ _ _ _ _ _ _ hl e id hmem).2

theorem non_voice_bypass_witness :
    sbmidi_router_handle_midi_event ⟨[unity_rule], [], none⟩ ⟨MIDI_START, 0, 0, 0⟩ =
        .ok { ret := SUCCESS, router := ⟨[unity_rule], [], none⟩
              calls := [.custom_handler ⟨MIDI_START, 0, 0, 0⟩ (-1),
                .fluid_handler ⟨MIDI_START, 0, 0, 0⟩]
              event := ⟨MIDI_START, 0, 0, 0⟩ } ∧
      ∀ e id,
        handler_call.custom_handler e id ∈
            [handler_call.custom_handler ⟨NOTE_ON, 0, 60, 100⟩ 7,
              handler_call.fluid_handler ⟨NOTE_ON, 0, 60, 100⟩] →
          id > -1 :=
  ⟨(non_voice_bypass ⟨[unity_rule], [], none⟩ ⟨MIDI_START, 0, 0, 0⟩).1 (by decide),
    (non_voice_bypass
        ⟨[sbmidi_router_rule_set_custom unity_rule 7, unity_rule], [], some 16⟩
        ⟨NOTE_ON, 0, 60, 100⟩).2 (by decide)
      { ret := SUCCESS
        router :=
          ⟨[sbmidi_router_rule_set_custom unity_rule 7,
            { unity_rule with
              keys_cc := Function.update (fun _ => 0) 60 1, pending_events := 1 }],
            [], some 16⟩
        calls := [.custom_handler ⟨NOTE_ON, 0, 60, 100⟩ 7,
          .fluid_handler ⟨NOTE_ON, 0, 60, 100⟩]
        event := ⟨NOTE_ON, 0, 60, 100⟩ }
      (by rfl)⟩

/-- C20: when no rule has a pending event, `sbmidi_router_clear_rules` leaves an empty live
list; on the router it leaves, every voice event makes `sbmidi_router_handle_midi_event` call
no handler and return the router as it was, so the list stays empty until a rule is added. -/
theorem cleared_router_drops (router : sbmidi_router)
    (hpending : ∀ r ∈ router.rules, r.pending_events = 0) :
    (sbmidi_router_clear_rules router).router.rules = [] ∧
      ∀ event haspar2, event_haspar2 (note_off_rewrite event).type = some haspar2 →
        sbmidi_router_handle_midi_event (sbmidi_router_clear_rules router).router event =
          .ok { ret := SUCCESS, router := (sbmidi_router_clear_rules router).router
                calls := [], event := note_off_rewrite event } := by
  have hnil : (sbmidi_router_clear_rules router).router.rules = [] := by
    simp only [sbmidi_router_clear_rules, clear_rules_loop_fst, List.map_eq_nil_iff,
      List.filter_eq_nil_iff]
    intro r hr
    simp [hpending r hr]
  refine ⟨hnil, ?_⟩
  intro event haspar2 hv
  generalize (sbmidi_router_clear_rules router).router = rt at hnil
  obtain ⟨rules, free, dev⟩ := rt
  simp only at hnil
  subst hnil
  simp only [sbmidi_router_handle_midi_event, hv, handle_midi_event_loop]

theorem cleared_router_drops_witness :
    (sbmidi_router_clear_rules ⟨[unity_rule, unity_rule], [], some 16⟩).router.rules = [] ∧
      sbmidi_router_handle_midi_event
          (sbmidi_router_clear_rules ⟨[unity_rule, unity_rule], [], some 16⟩).router
          ⟨NOTE_ON, 0, 60, 100⟩ =
        .ok { ret := SUCCESS
              router := (sbmidi_router_clear_rules ⟨[unity_rule, unity_rule], [], some 16⟩).router
              calls := [], event := note_off_rewrite ⟨NOTE_ON, 0, 60, 100⟩ } :=
  ⟨(cleared_router_drops ⟨[unity_rule, unity_rule], [], some 16⟩ (by simp [unity_rule])).1,
    (cleared_router_drops ⟨[unity_rule, unity_rule], [], some 16⟩ (by simp [unity_rule])).2
      ⟨NOTE_ON, 0, 60, 100⟩ true (by decide)⟩

/-! ## Ordering -/

theorem step_free_reverse (step : rule_step) : (step_free step).reverse = step_free step := by
  cases step with
  | skip => rfl
  | custom id => rfl
  | send rule1 unlink ev => cases unlink <;> rfl

/-- The rule loop is the loop body run on every rule in list order: it succeeds exactly when
every pass does, and then the live chain, the free list and the handler calls are put together
from the passes, rule by rule. -/
theorem loop_steps (dev : Option Int) (event : sbmidi_event) (hp2 : Bool)
    (rules free live free1 : List sbmidi_router_rule) (calls : List handler_call) :
    handle_midi_event_loop dev event hp2 rules free = .ok (live, free1, calls) ↔
      ∃ steps : List rule_step,
        rules.map (handle_midi_event_rule dev event hp2) = steps.map Except.ok ∧
        live = (List.zipWith step_rules rules steps).flatten ∧
        free1 = (steps.flatMap step_free).reverse ++ free ∧
        calls = steps.flatMap (step_calls event) := by
  induction rules generalizing free live free1 calls with
  | nil =>
    simp only [handle_midi_event_loop, Except.ok.injEq, Prod.mk.injEq, List.map_nil]
    constructor
    · rintro ⟨rfl, rfl, rfl⟩
      exact ⟨[], rfl, rfl, rfl, rfl⟩
    · rintro ⟨steps, hs, h1, h2, h3⟩
      have : steps = [] := by
        cases steps with
        | nil => rfl
        | cons a b => simp at hs
      subst this
      simp at h1 h2 h3
      exact ⟨h1.symm, h2.symm, h3.symm⟩
  | cons rule next ih =>
    rw [loop_cons]
    constructor
    · intro h
      cases hb : handle_midi_event_rule dev event hp2 rule with
      | error f => simp [hb] at h
      | ok step =>
        rw [hb] at h
        simp only at h
        cases hl : handle_midi_event_loop dev event hp2 next (step_free step ++ free) with
        | error f => simp [hl] at h
        | ok res =>
          obtain ⟨live2, free2, calls2⟩ := res
          rw [hl] at h
          simp only [Except.ok.injEq, Prod.mk.injEq] at h
          obtain ⟨rfl, rfl, rfl⟩ := h
          obtain ⟨steps, hs, h1, h2, h3⟩ := (ih _ _ _ _).mp hl
          refine ⟨step :: steps, ?_, ?_, ?_, ?_⟩
          · simp [hb, hs]
          · simp [h1]
          · rw [h2]
            simp [List.flatMap_cons, List.reverse_append, step_free_reverse]
          · simp [h3, List.flatMap_cons]
    · rintro ⟨steps, hs, h1, h2, h3⟩
      cases steps with
      | nil => simp at hs
      | cons step steps =>
        simp only [List.map_cons, List.cons.injEq] at hs
        obtain ⟨hb, hs⟩ := hs
        rw [hb]
        simp only
        have hl := (ih (step_free step ++ free) (List.zipWith step_rules next steps).flatten
          ((steps.flatMap step_free).reverse ++ (step_free step ++ free))
          (steps.flatMap (step_calls event))).mpr ⟨steps, hs, rfl, rfl, rfl⟩
        rw [hl]
        simp only [Except.ok.injEq, Prod.mk.injEq]
        refine ⟨?_, ?_, ?_⟩
        · simp [h1]
        · rw [h2]
          simp [List.flatMap_cons, List.reverse_append, step_free_reverse]
        · simp [h3, List.flatMap_cons]

/-- C15: ordering and multi-match.  For a voice event, `sbmidi_router_handle_midi_event`
succeeds exactly when the loop body does on every rule of the list, each taken on its own with
the device, the event and that rule alone; the handler calls are then the calls of the rules
put end to end in list order, the live list is made of what each pass leaves of its own rule,
and the rules unlinked are prepended to `free_rules` in the order they were met.  No rule is
left out after an earlier one matched, and one pass makes at most one call. -/
theorem ordering_multi_match (router : sbmidi_router) (event : sbmidi_event) (haspar2 : Bool)
    (result : handle_result)
    (hvoice : event_haspar2 (note_off_rewrite event).type = some haspar2) :
    (sbmidi_router_handle_midi_event router event = .ok result ↔
        ∃ steps : List rule_step,
          router.rules.map
              (handle_midi_event_rule router.midi_device (note_off_rewrite event) haspar2) =
            steps.map Except.ok ∧
          result =
            { ret := SUCCESS
              router :=
                { rules := (List.zipWith step_rules router.rules steps).flatten
                  free_rules := (steps.flatMap step_free).reverse ++ router.free_rules
                  midi_device := router.midi_device }
              calls := steps.flatMap (step_calls (note_off_rewrite event))
              event := note_off_rewrite event }) ∧
      ∀ step, (step_calls (note_off_rewrite event) step).length ≤ 1 := by
  constructor
  · unfold sbmidi_router_handle_midi_event
    simp only [hvoice]
    constructor
    · intro h
      cases hl : handle_midi_event_loop router.midi_device (note_off_rewrite event) haspar2
          router.rules router.free_rules with
      | error f => simp [hl] at h
      | ok res =>
        obtain ⟨live, free1, calls⟩ := res
        rw [hl] at h
        simp only [Except.ok.injEq] at h
        obtain ⟨steps, hs, rfl, rfl, rfl⟩ := (loop_steps _ _ _ _ _ _ _ _).mp hl
        exact ⟨steps, hs, h.symm⟩
    · rintro ⟨steps, hs, rfl⟩
      have hl := (loop_steps router.midi_device (note_off_rewrite event) haspar2 router.rules
        router.free_rules _ _ _).mpr ⟨steps, hs, rfl, rfl, rfl⟩
      rw [hl]
  · intro step
    cases step <;> simp [step_calls]

theorem ordering_multi_match_witness :
    ∃ steps : List rule_step,
      [sbmidi_router_rule_set_custom unity_rule 7,
            sbmidi_router_rule_set_chan unity_rule 0 0 ⟨1, 0⟩ 5, unity_rule].map
          (handle_midi_event_rule (some 16) (note_off_rewrite ⟨NOTE_ON, 0, 60, 100⟩) true) =
        steps.map Except.ok ∧
      (⟨SUCCESS,
          ⟨[sbmidi_router_rule_set_custom unity_rule 7,
              { sbmidi_router_rule_set_chan unity_rule 0 0 ⟨1, 0⟩ 5 with
                keys_cc := Function.update (fun _ => 0) 60 1, pending_events := 1 },
              { unity_rule with
                keys_cc := Function.update (fun _ => 0) 60 1, pending_events := 1 }],
            [], some 16⟩,
          [.custom_handler ⟨NOTE_ON, 0, 60, 100⟩ 7, .fluid_handler ⟨NOTE_ON, 5, 60, 100⟩,
            .fluid_handler ⟨NOTE_ON, 0, 60, 100⟩],
          ⟨NOTE_ON, 0, 60, 100⟩⟩ : handle_result) =
        { ret := SUCCESS
          router :=
            { rules :=
                (List.zipWith step_rules
                  [sbmidi_router_rule_set_custom unity_rule 7,
                    sbmidi_router_rule_set_chan unity_rule 0 0 ⟨1, 0⟩ 5, unity_rule]
                  steps).flatten
              free_rules := (steps.flatMap step_free).reverse ++ []
              midi_device := some 16 }
          calls := steps.flatMap (step_calls (note_off_rewrite ⟨NOTE_ON, 0, 60, 100⟩))
          event := note_off_rewrite ⟨NOTE_ON, 0, 60, 100⟩ } :=
  ((ordering_multi_match
      ⟨[sbmidi_router_rule_set_custom unity_rule 7,
        sbmidi_router_rule_set_chan unity_rule 0 0 ⟨1, 0⟩ 5, unity_rule], [], some 16⟩
      ⟨NOTE_ON, 0, 60, 100⟩ true _ (by decide)).1).mp (by rfl)

/-- The loop body on a custom rule that the event matches. -/
theorem rule_body_custom (dev : Option Int) (event : sbmidi_event) (hp2 : Bool)
    (rule : sbmidi_router_rule)
    (htype : rule.type = 0 ∨ rule.type = event.type)
    (hchan : chan_window_skip rule event = false)
    (hwin1 : param_window_skip rule.par1_min rule.par1_max event.param1 = false)
    (hwin2 : hp2 = true → param_window_skip rule.par2_min rule.par2_max event.param2 = false)
    (hcustom : 0 ≤ rule.custom_id) :
    handle_midi_event_rule dev event hp2 rule = .ok (.custom rule.custom_id) := by
  unfold handle_midi_event_rule
  have h1 : ¬ (rule.type ≠ 0 ∧ rule.type ≠ event.type) := by
    rcases htype with h | h <;> simp [h]
  have h2 : rule.custom_id > -1 := by omega
  have h4 : (hp2 && param_window_skip rule.par2_min rule.par2_max event.param2) = false := by
    cases hp2 with
    | false => rfl
    | true => simpa using hwin2 rfl
  simp only [h1, hchan, hwin1, h4, h2, if_false, if_true, Bool.false_eq_true]

/-- C14 (amended): custom short-circuit.  Take a voice event as the note-off rewrite leaves it
(a `NOTE_OFF` has become `NOTE_ON` with second parameter 0; channel and first parameter are
those that came in, and so is the second parameter of any other type), and a rule with
`custom_id >= 0` whose type and windows match that event.  The loop body then calls the custom
handler with that event and the id of the rule, whatever the device, and nothing else: no fluid
handler call, no transform, no range check.  With the rule at the head of the list,
`sbmidi_router_handle_midi_event` makes this call first, keeps the rule as it is at the head of
the live list, and otherwise does what it does on the rest of the list. -/
theorem custom_short_circuit (dev : Option Int) (event : sbmidi_event) (haspar2 : Bool)
    (rule : sbmidi_router_rule)
    (hvoice : event_haspar2 (note_off_rewrite event).type = some haspar2)
    (htype : rule.type = 0 ∨ rule.type = (note_off_rewrite event).type)
    (hchan : chan_window_skip rule (note_off_rewrite event) = false)
    (hwin1 : param_window_skip rule.par1_min rule.par1_max (note_off_rewrite event).param1 =
      false)
    (hwin2 : haspar2 = true →
      param_window_skip rule.par2_min rule.par2_max (note_off_rewrite event).param2 = false)
    (hcustom : 0 ≤ rule.custom_id) :
    handle_midi_event_rule dev (note_off_rewrite event) haspar2 rule =
        .ok (.custom rule.custom_id) ∧
      (∀ next free,
        sbmidi_router_handle_midi_event ⟨rule :: next, free, dev⟩ event =
          match sbmidi_router_handle_midi_event ⟨next, free, dev⟩ event with
          | .error f => .error f
          | .ok rest =>
            .ok { ret := SUCCESS
                  router := ⟨rule :: rest.router.rules, rest.router.free_rules, dev⟩
                  calls := .custom_handler (note_off_rewrite event) rule.custom_id :: rest.calls
                  event := note_off_rewrite event }) ∧
      (note_off_rewrite event).channel = event.channel ∧
      (note_off_rewrite event).param1 = event.param1 ∧
      (note_off_rewrite event).param2 = (if event.type = NOTE_OFF then 0 else event.param2) := by
  have hb := rule_body_custom dev (note_off_rewrite event) haspar2 rule htype hchan hwin1 hwin2
    hcustom
  refine ⟨hb, ?_, ?_, ?_, ?_⟩
  · intro next free
    simp only [sbmidi_router_handle_midi_event, hvoice]
    rw [loop_cons, hb]
    simp only [step_free, List.nil_append, step_rules, step_calls, List.singleton_append]
    cases handle_midi_event_loop dev (note_off_rewrite event) haspar2 next free with
    | error f => rfl
    | ok res => rfl
  · unfold note_off_rewrite; split_ifs <;> rfl
  · unfold note_off_rewrite; split_ifs <;> rfl
  · unfold note_off_rewrite; split_ifs <;> rfl

theorem custom_short_circuit_witness :
    handle_midi_event_rule none (note_off_rewrite ⟨NOTE_OFF, 0, 60, 64⟩) true
          (sbmidi_router_rule_set_custom unity_rule 7) = .ok (.custom 7) ∧
      (note_off_rewrite ⟨NOTE_OFF, 0, 60, 64⟩).param2 = 0 :=
  ⟨(custom_short_circuit none ⟨NOTE_OFF, 0, 60, 64⟩ true
      (sbmidi_router_rule_set_custom unity_rule 7) (by decide) (by decide) (by decide)
      (by decide) (by decide) (by decide)).1,
    (custom_short_circuit none ⟨NOTE_OFF, 0, 60, 64⟩ true
      (sbmidi_router_rule_set_custom unity_rule 7) (by decide) (by decide) (by decide)
      (by decide) (by decide) (by decide)).2.2.2.2⟩

/-- C14 (as stated) fails on a `NOTE_OFF`.  With a custom rule of id 7 and default windows,
`NOTE_OFF(0, 60, 64)` reaches the custom handler as `NOTE_ON(0, 60, 0)`: the second parameter
is not the one that came in.  With a custom rule of id 7 whose second window is `1 .. 127`,
`NOTE_OFF(0, 60, 64)`, whose velocity 64 lies in the window, reaches no handler. -/
theorem custom_short_circuit_counterexample :
    (sbmidi_router_handle_midi_event
          ⟨[sbmidi_router_rule_set_custom unity_rule 7], [], some 16⟩
          ⟨NOTE_OFF, 0, 60, 64⟩).map (fun r => r.calls) =
        .ok [.custom_handler ⟨NOTE_ON, 0, 60, 0⟩ 7] ∧
      param_window_skip 1 127 64 = false ∧
      (sbmidi_router_handle_midi_event
          ⟨[sbmidi_router_rule_set_custom
              (sbmidi_router_rule_set_param2 unity_rule 1 127 ⟨1, 0⟩ 0) 7], [], some 16⟩
          ⟨NOTE_OFF, 0, 60, 64⟩).map (fun r => r.calls) = .ok [] := by
  refine ⟨?_, ?_, ?_⟩ <;> decide

/-! ## The range policy -/

theorem par2_range_clamp (p : Int) : par2_range true p = max 0 (min 127 p) := by
  unfold par2_range
  simp only [if_true]
  split_ifs <;> omega

/-- The held-state block stops the pass only on a waiting rule. -/
theorem held_state_none (rule : sbmidi_router_rule) (newtype : Nat) (par1 par2 : Int)
    (h : held_state rule newtype par1 par2 = .ok none) : rule.waiting = true := by
  unfold held_state at h
  split at h
  · split at h
    · simp at h
    · split at h <;> simp at h
  · split at h
    · split at h
      · simp at h
      · split at h
        · split at h <;> simp at h
        · simp at h
    · split at h
      · assumption
      · simp at h

/-- The loop body on a matching rule that is not a custom rule, up to the range policy. -/
theorem rule_body_matching (channels : Int) (event : sbmidi_event) (hp2 : Bool)
    (rule : sbmidi_router_rule)
    (htype : rule.type = 0 ∨ rule.type = event.type)
    (hchan : chan_window_skip rule event = false)
    (hwin1 : param_window_skip rule.par1_min rule.par1_max event.param1 = false)
    (hwin2 : hp2 = true → param_window_skip rule.par2_min rule.par2_max event.param2 = false)
    (hcustom : rule.custom_id ≤ -1) :
    handle_midi_event_rule (some channels) event hp2 rule =
      if new_chan rule event < 0 ∨ new_chan rule event ≥ channels then .ok .skip
      else
        match par1_range (new_type rule event)
            (param_math rule event hp2 (newtype_haspar2 (new_type rule event))).1 with
        | none => .ok .skip
        | some par1 =>
          match held_state rule (new_type rule event) par1
              (par2_range (newtype_haspar2 (new_type rule event))
                (param_math rule event hp2 (newtype_haspar2 (new_type rule event))).2) with
          | .error f => .error f
          | .ok none => .ok .skip
          | .ok (some (rule1, unlink)) =>
            .ok (.send rule1 unlink
              { type := new_type rule event % 256
                channel := to_uchar (new_chan rule event)
                param1 := to_unsigned par1
                param2 :=
                  if newtype_haspar2 (new_type rule event) then
                    to_unsigned (par2_range (newtype_haspar2 (new_type rule event))
                      (param_math rule event hp2 (newtype_haspar2 (new_type rule event))).2)
                  else 0 }) := by
  unfold handle_midi_event_rule
  have h1 : ¬ (rule.type ≠ 0 ∧ rule.type ≠ event.type) := by
    rcases htype with h | h <;> simp [h]
  have h2 : ¬ (rule.custom_id > -1) := by omega
  have h4 : (hp2 && param_window_skip rule.par2_min rule.par2_max event.param2) = false := by
    cases hp2 with
    | false => rfl
    | true => simpa using hwin2 rfl
  simp only [h1, hchan, hwin1, h4, h2, if_false, Bool.false_eq_true]
  by_cases hneg : new_chan rule event < 0
  · simp [hneg]
  · by_cases hge : new_chan rule event ≥ channels
    · simp [hneg, hge]
    · simp only [hneg, hge, if_false, or_self]

/-- C12: the out-of-range policy.  For a voice event and a matching rule that is not a custom
rule, on a router with a device set, with `chan`, `par1`, `par2` the transformed values:
if `chan < 0` or `chan >= channels` the pass sends nothing and leaves the rule alone; if the
new type is `CONTROL_CHANGE` or `PROGRAM_CHANGE` and `par1` is outside `0 .. 127`, likewise;
otherwise the pass either stops on a waiting rule, or sends an event whose first parameter is
`par1` clamped to `0 .. 16383` for a `PITCH_BEND` and to `0 .. 127` for any other new type, and
whose second parameter is `par2` clamped to `0 .. 127` when the new type has one and 0 when it
has none. -/
theorem out_of_range_policy (channels : Int) (event : sbmidi_event) (hp2 : Bool)
    (rule : sbmidi_router_rule)
    (htype : rule.type = 0 ∨ rule.type = event.type)
    (hchan : chan_window_skip rule event = false)
    (hwin1 : param_window_skip rule.par1_min rule.par1_max event.param1 = false)
    (hwin2 : hp2 = true → param_window_skip rule.par2_min rule.par2_max event.param2 = false)
    (hcustom : rule.custom_id ≤ -1) :
    (new_chan rule event < 0 ∨ new_chan rule event ≥ channels →
        handle_midi_event_rule (some channels) event hp2 rule = .ok .skip) ∧
      ((new_type rule event = CONTROL_CHANGE ∨ new_type rule event = PROGRAM_CHANGE) ∧
          ((param_math rule event hp2 (newtype_haspar2 (new_type rule event))).1 < 0 ∨
            (param_math rule event hp2 (newtype_haspar2 (new_type rule event))).1 > 127) →
        handle_midi_event_rule (some channels) event hp2 rule = .ok .skip) ∧
      (0 ≤ new_chan rule event → new_chan rule event < channels →
        ¬ ((new_type rule event = CONTROL_CHANGE ∨ new_type rule event = PROGRAM_CHANGE) ∧
          ((param_math rule event hp2 (newtype_haspar2 (new_type rule event))).1 < 0 ∨
            (param_math rule event hp2 (newtype_haspar2 (new_type rule event))).1 > 127)) →
        (handle_midi_event_rule (some channels) event hp2 rule = .ok .skip ∧
            rule.waiting = true) ∨
          ∃ rule1 unlink new_event,
            handle_midi_event_rule (some channels) event hp2 rule =
              .ok (.send rule1 unlink new_event) ∧
            (new_event.param1 : Int) =
              max 0 (min (if new_type rule event = PITCH_BEND then 16383 else 127)
                (param_math rule event hp2 (newtype_haspar2 (new_type rule event))).1) ∧
            (new_event.param2 : Int) =
              (if newtype_haspar2 (new_type rule event) then
                max 0 (min 127
                  (param_math rule event hp2 (newtype_haspar2 (new_type rule event))).2)
              else 0)) := by
  have hbody := rule_body_matching channels event hp2 rule htype hchan hwin1 hwin2 hcustom
  refine ⟨?_, ?_, ?_⟩
  · intro h
    rw [hbody, if_pos h]
  · intro h
    rw [hbody]
    by_cases hc : new_chan rule event < 0 ∨ new_chan rule event ≥ channels
    · rw [if_pos hc]
    · rw [if_neg hc, (par1_range_none _ _).mpr h]
  · intro h0 h1 hnd
    have hin : ¬ (new_chan rule event < 0 ∨ new_chan rule event ≥ channels) := by omega
    rw [hbody, if_neg hin]
    cases hr : par1_range (new_type rule event)
        (param_math rule event hp2 (newtype_haspar2 (new_type rule event))).1 with
    | none => exact absurd ((par1_range_none _ _).mp hr) hnd
    | some par1 =>
      obtain ⟨hq, -⟩ := par1_range_some _ _ _ hr
      obtain ⟨o, ho⟩ := held_state_total rule (new_type rule event) _ par1
        (par2_range (newtype_haspar2 (new_type rule event))
          (param_math rule event hp2 (newtype_haspar2 (new_type rule event))).2) hr
      simp only [ho]
      rcases o with _ | ⟨rule1, unlink⟩
      · exact Or.inl ⟨rfl, held_state_none _ _ _ _ ho⟩
      · refine Or.inr ⟨rule1, unlink, _, rfl, ?_, ?_⟩
        · simp only [to_unsigned]
          rw [← hq]
          have : 0 ≤ par1 ∧ par1 ≤ 16383 := by
            rw [hq]
            split_ifs <;> omega
          omega
        · cases hb : newtype_haspar2 (new_type rule event) with
          | false => simp
          | true =>
            simp only [if_true, to_unsigned, par2_range_clamp]
            omega

theorem out_of_range_policy_witness :
    handle_midi_event_rule (some 16) ⟨CONTROL_CHANGE, 0, 100, 64⟩ true
        (sbmidi_router_rule_set_param1 unity_rule 0 127 ⟨1, 0⟩ 50) = .ok .skip :=
  (out_of_range_policy 16 ⟨CONTROL_CHANGE, 0, 100, 64⟩ true
    (sbmidi_router_rule_set_param1 unity_rule 0 127 ⟨1, 0⟩ 50) (by decide) (by decide)
    (by decide) (by decide) (by decide)).2.1 (by decide)

/-! ## Where the code leaves its documentation -/

/-- C11 fails on the code for a negative bound.  The parameter is an `unsigned int`, so a bound
of -1 is compared as 4294967295.  With the first window set to `-1 .. 127` the note 60, which
lies in the window, is skipped and `NOTE_ON(0, 60, 100)` reaches no handler; the channel window
`-1 .. 15`, compared as integers, lets the same event through.  With the first window inverted
to `min = 10`, `max = -1` the note 5, which lies strictly between the bounds, is let through. -/
theorem param_window_negative_bound :
    param_window_skip (-1) 127 60 = true ∧
      (sbmidi_router_handle_midi_event
          ⟨[sbmidi_router_rule_set_param1 unity_rule (-1) 127 ⟨1, 0⟩ 0], [], some 16⟩
          ⟨NOTE_ON, 0, 60, 100⟩).map (fun r => r.calls) = .ok [] ∧
      (sbmidi_router_handle_midi_event
          ⟨[sbmidi_router_rule_set_chan unity_rule (-1) 15 ⟨1, 0⟩ 0], [], some 16⟩
          ⟨NOTE_ON, 0, 60, 100⟩).map (fun r => r.calls) =
        .ok [.fluid_handler ⟨NOTE_ON, 0, 60, 100⟩] ∧
      param_window_skip 10 (-1) 5 = false ∧
      (sbmidi_router_handle_midi_event
          ⟨[sbmidi_router_rule_set_param1 unity_rule 10 (-1) ⟨1, 0⟩ 0], [], some 16⟩
          ⟨NOTE_ON, 0, 5, 100⟩).map (fun r => r.calls) =
        .ok [.fluid_handler ⟨NOTE_ON, 0, 5, 100⟩] := by
  refine ⟨?_, ?_, ?_, ?_, ?_⟩ <;> decide

/-- C16 fails on the code for two of the four operations.  Given a `NULL` router,
`sbmidi_router_clear_rules` and `sbmidi_router_add_rule` return `FAILURE`, and so does
`sbmidi_router_add_rule` given a `NULL` rule, the router being left as it was; but
`sbmidi_router_default_rules`, once its rule is allocated, and
`sbmidi_router_handle_midi_event` use the `NULL` router without a test. -/
theorem null_router_entry :
    sbmidi_router_clear_rules_ptr none = .ok (FAILURE, none) ∧
      (∀ rule, sbmidi_router_add_rule_ptr none rule = .ok (FAILURE, none)) ∧
      (∀ router, sbmidi_router_add_rule_ptr (some router) none = .ok (FAILURE, some router)) ∧
      sbmidi_router_default_rules_ptr true none = .error .null_router ∧
      (∀ event, sbmidi_router_handle_midi_event_ptr none event = .error .null_router) :=
  ⟨rfl, fun _ => rfl, fun _ => rfl, rfl, fun _ => rfl⟩

/-- C18 fails on the code: the status is `SUCCESS` also when the event was ignored.  With a rule
that adds 100 to the channel, `NOTE_ON(3, 60, 100)` is ignored (channel 103 of 16); with a rule
that adds 100 to the first parameter, `PROGRAM_CHANGE(0, 50)` is ignored (program 150); both
calls return `SUCCESS`, with no handler called and the router left as it was. -/
theorem ignored_event_returns_success :
    sbmidi_router_handle_midi_event
          ⟨[sbmidi_router_rule_set_chan unity_rule 0 15 ⟨1, 0⟩ 100], [], some 16⟩
          ⟨NOTE_ON, 3, 60, 100⟩ =
        .ok ⟨SUCCESS, ⟨[sbmidi_router_rule_set_chan unity_rule 0 15 ⟨1, 0⟩ 100], [], some 16⟩,
          [], ⟨NOTE_ON, 3, 60, 100⟩⟩ ∧
      sbmidi_router_handle_midi_event
          ⟨[sbmidi_router_rule_set_param1 unity_rule 0 127 ⟨1, 0⟩ 100], [], some 16⟩
          ⟨PROGRAM_CHANGE, 0, 50, 0⟩ =
        .ok ⟨SUCCESS, ⟨[sbmidi_router_rule_set_param1 unity_rule 0 127 ⟨1, 0⟩ 100], [], some 16⟩,
          [], ⟨PROGRAM_CHANGE, 0, 50, 0⟩⟩ :=
  ⟨by rfl, by rfl⟩

/-- C19 fails on the code for voice events.  The router that `new_sbmidi_router` returns has one
default rule, an empty free list and no device; a non-voice event goes to both handlers as it
came in, but on `NOTE_ON(0, 60, 100)` the default rule matches and the channel test reads
`channels` through the `NULL` device. -/
theorem new_router_null_device :
    new_sbmidi_router true true = some ⟨[unity_rule], [], none⟩ ∧
      sbmidi_router_handle_midi_event ⟨[unity_rule], [], none⟩ ⟨MIDI_START, 0, 0, 0⟩ =
        .ok ⟨SUCCESS, ⟨[unity_rule], [], none⟩,
          [.custom_handler ⟨MIDI_START, 0, 0, 0⟩ (-1), .fluid_handler ⟨MIDI_START, 0, 0, 0⟩],
          ⟨MIDI_START, 0, 0, 0⟩⟩ ∧
      sbmidi_router_handle_midi_event ⟨[unity_rule], [], none⟩ ⟨NOTE_ON, 0, 60, 100⟩ =
        .error .null_midi_device :=
  ⟨rfl, by rfl, by rfl⟩

/-! ## Rule defaults and the unity rule, once more -/

/-- C21: the rule that `new_sbmidi_router_rule` returns has type 0 and new type 0, each of the
three windows `min = 0`, `max = 999999`, `mul = 1.0`, `add = 0`, `custom_id = -1`, no pending
event, every `keys_cc` entry 0, and is not waiting. -/
theorem new_rule_defaults :
    ∃ rule, new_sbmidi_router_rule true = some rule ∧
      rule.type = 0 ∧ rule.newtype = 0 ∧
      rule.chan_min = 0 ∧ rule.chan_max = 999999 ∧ rule.chan_mul.value = 1 ∧ rule.chan_add = 0 ∧
      rule.par1_min = 0 ∧ rule.par1_max = 999999 ∧ rule.par1_mul.value = 1 ∧ rule.par1_add = 0 ∧
      rule.par2_min = 0 ∧ rule.par2_max = 999999 ∧ rule.par2_mul.value = 1 ∧ rule.par2_add = 0 ∧
      rule.custom_id = -1 ∧ rule.pending_events = 0 ∧ (∀ i, rule.keys_cc i = 0) ∧
      rule.waiting = false := by
  refine ⟨unity_rule, rfl, rfl, rfl, rfl, rfl, ?_, rfl, rfl, rfl, ?_, rfl, rfl, rfl, ?_, rfl, rfl,
    rfl, fun _ => rfl, rfl⟩ <;> simp [unity_rule, double.value]

/-- C22: in-range unity passthrough.  On a router with a device of `channels` channels and only
the default rule, whatever notes and pedals the rule holds (any `keys_cc` and `pending_events`;
the rule is not waiting), an event of type `NOTE_ON`, `KEY_PRESSURE`, `CONTROL_CHANGE`,
`PROGRAM_CHANGE`, `CHANNEL_PRESSURE` or `PITCH_BEND` whose channel (an `unsigned char`) is below
`channels`, whose first parameter is at most 127 (16383 for a pitch bend) and whose second
parameter, if the type has one, is at most 127, makes `sbmidi_router_handle_midi_event` return
`SUCCESS` after one call, of the fluid handler, with the same type, channel and first parameter
and with the same second parameter if the type has one, 0 otherwise.  `NOTE_ON(0, 60, 100)`
goes out as `NOTE_ON(0, 60, 100)`, the first time and again while the note is held, and a
controller 7 goes through while the note is held. -/
theorem unity_passthrough_in_range (keys_cc : Fin 128 → Int) (pending_events : Int)
    (free_rules : List sbmidi_router_rule) (channels : Int)
    (event : sbmidi_event) (haspar2 : Bool)
    (htype : event_haspar2 event.type = some haspar2) (hoff : event.type ≠ NOTE_OFF)
    (hbyte : event.channel < 256) (hdev : (event.channel : Int) < channels)
    (hpar1 : event.param1 ≤ (if event.type = PITCH_BEND then 16383 else 127))
    (hpar2 : haspar2 = true → event.param2 ≤ 127) :
    (∃ result,
        sbmidi_router_handle_midi_event
            ⟨[{ unity_rule with keys_cc := keys_cc, pending_events := pending_events }],
              free_rules, some channels⟩ event =
          .ok result ∧
        result.ret = SUCCESS ∧
        result.calls =
          [.fluid_handler
            ⟨event.type, event.channel, event.param1,
              if haspar2 then event.param2 else 0⟩]) ∧
      (sbmidi_router_handle_midi_event ⟨[unity_rule], [], some 16⟩
          ⟨NOTE_ON, 0, 60, 100⟩).map (fun r => r.calls) =
        .ok [.fluid_handler ⟨NOTE_ON, 0, 60, 100⟩] ∧
      (sbmidi_router_handle_midi_event
          ⟨[{ unity_rule with
              keys_cc := Function.update (fun _ => 0) 60 1, pending_events := 1 }],
            [], some 16⟩
          ⟨NOTE_ON, 0, 60, 100⟩).map (fun r => r.calls) =
        .ok [.fluid_handler ⟨NOTE_ON, 0, 60, 100⟩] ∧
      (sbmidi_router_handle_midi_event
          ⟨[{ unity_rule with
              keys_cc := Function.update (fun _ => 0) 60 1, pending_events := 1 }],
            [], some 16⟩
          ⟨CONTROL_CHANGE, 0, 7, 100⟩).map (fun r => r.calls) =
        .ok [.fluid_handler ⟨CONTROL_CHANGE, 0, 7, 100⟩] := by
  refine ⟨?_, by decide, by decide, by decide⟩
  obtain ⟨rule1, hstep⟩ := unity_rule_step channels event haspar2 keys_cc pending_events htype
    hoff hbyte hdev hpar1 hpar2
  have hrw : note_off_rewrite event = event := by simp [note_off_rewrite, hoff]
  refine ⟨⟨SUCCESS, ⟨[rule1], free_rules, some channels⟩, _, event⟩, ?_, rfl, rfl⟩
  simp only [sbmidi_router_handle_midi_event, hrw, htype, handle_midi_event_loop, hstep]

theorem unity_passthrough_in_range_witness :
    ∃ result,
      sbmidi_router_handle_midi_event
          ⟨[{ unity_rule with
              keys_cc := Function.update (fun _ => 0) 64 1, pending_events := 1 }],
            [], some 32⟩ ⟨PITCH_BEND, 17, 8192, 44⟩ =
        .ok result ∧
      result.ret = SUCCESS ∧
      result.calls =
        [.fluid_handler ⟨PITCH_BEND, 17, 8192, if false then 44 else 0⟩] :=
  (unity_passthrough_in_range (Function.update (fun _ => 0) 64 1) 1 [] 32
    ⟨PITCH_BEND, 17, 8192, 44⟩ false (by decide) (by decide)
    (by decide) (by decide) (by decide) (by decide)).1

/-! ## Retirement and held-state transitions -/

/-- The rule loop over a chain in two parts is the loop over the first part followed by the loop
over the second, which starts from the free list the first one left. -/
theorem loop_append (dev : Option Int) (event : sbmidi_event) (hp2 : Bool)
    (l1 l2 free : List sbmidi_router_rule) :
    handle_midi_event_loop dev event hp2 (l1 ++ l2) free =
      match handle_midi_event_loop dev event hp2 l1 free with
      | .error f => .error f
      | .ok (live1, free1, calls1) =>
        match handle_midi_event_loop dev event hp2 l2 free1 with
        | .error f => .error f
        | .ok (live2, free2, calls2) => .ok (live1 ++ live2, free2, calls1 ++ calls2) := by
  induction l1 generalizing free with
  | nil =>
    simp only [List.nil_append, handle_midi_event_loop]
    cases handle_midi_event_loop dev event hp2 l2 free with
    | error f => rfl
    | ok res => rfl
  | cons rule next ih =>
    rw [List.cons_append, loop_cons, loop_cons dev event hp2 rule next free]
    cases hb : handle_midi_event_rule dev event hp2 rule with
    | error f => rfl
    | ok step =>
      simp only
      rw [ih]
      cases h1 : handle_midi_event_loop dev event hp2 next (step_free step ++ free) with
      | error f => rfl
      | ok res1 =>
        obtain ⟨live1, free1, calls1⟩ := res1
        simp only
        cases h2 : handle_midi_event_loop dev event hp2 l2 free1 with
        | error f => rfl
        | ok res2 =>
          obtain ⟨live2, free2, calls2⟩ := res2
          simp only [List.append_assoc]

/-- The held-state block on a negative trigger whose key is flagged, for a waiting rule with one
pending event: the flag is cleared, the counter is 0 and the rule is unlinked. -/
theorem held_state_retire (rule : sbmidi_router_rule) (newtype : Nat) (par1 par2 : Int)
    (i : Fin 128)
    (hneg : (newtype = NOTE_ON ∧ par2 = 0) ∨
      (newtype = CONTROL_CHANGE ∧ (par1 = SUSTAIN_SWITCH ∨ par1 = SOSTENUTO_SWITCH) ∧
        par2 < 64))
    (hi : keys_index par1 = some i) (hkey : 0 < rule.keys_cc i)
    (hwait : rule.waiting = true) (hpend : rule.pending_events = 1) :
    held_state rule newtype par1 par2 =
      .ok (some ({ rule with
        keys_cc := Function.update rule.keys_cc i 0, pending_events := 0 }, true)) := by
  have hnpos : ¬ ((newtype = NOTE_ON ∧ par2 > 0) ∨
      (newtype = CONTROL_CHANGE ∧ (par1 = SUSTAIN_SWITCH ∨ par1 = SOSTENUTO_SWITCH) ∧
        par2 ≥ 64)) := by
    rcases hneg with ⟨rfl, rfl⟩ | ⟨rfl, -, h⟩
    · simp
    · simp only [CONTROL_CHANGE, NOTE_ON]
      omega
  unfold held_state
  rw [if_neg hnpos, if_pos hneg]
  have hk : rule.keys_cc i > 0 := hkey
  have hc : rule.waiting = true ∧ rule.pending_events - 1 = 0 := ⟨hwait, by omega⟩
  simp only [hi, hk, hc, and_self, if_true]

/-- C23: the retirement splice.  Let a waiting rule with `pending_events == 1`, not a custom
rule, match a voice event on a router with a device set, and let the output `(newtype, par1,
par2)` after the range policy be a negative trigger (`NOTE_ON` with `par2 == 0`, or sustain or
sostenuto with `par2 < 64`) whose key `keys_cc[par1]` is flagged.  Then the loop body sends the
event, with the flag cleared, the counter at 0 and the rule unlinked; and wherever the rule
stands in the live list, the rule loop does what it does on the rules before it, prepends the
rule to the free list at that point, sends the event, and goes on with the rules after it: the
live list it leaves is what is left of the rules before followed by what is left of the rules
after, without the rule. -/
theorem retirement_splice (channels : Int) (event : sbmidi_event) (hp2 : Bool)
    (rule : sbmidi_router_rule) (newtype : Nat) (par1 par2 : Int) (i : Fin 128)
    (htype : rule.type = 0 ∨ rule.type = event.type)
    (hchan : chan_window_skip rule event = false)
    (hwin1 : param_window_skip rule.par1_min rule.par1_max event.param1 = false)
    (hwin2 : hp2 = true → param_window_skip rule.par2_min rule.par2_max event.param2 = false)
    (hcustom : rule.custom_id ≤ -1)
    (hdev : 0 ≤ new_chan rule event ∧ new_chan rule event < channels)
    (hnt : new_type rule event = newtype)
    (hpar1 : par1_range newtype (param_math rule event hp2 (newtype_haspar2 newtype)).1 =
      some par1)
    (hpar2 : par2_range (newtype_haspar2 newtype)
      (param_math rule event hp2 (newtype_haspar2 newtype)).2 = par2)
    (hneg : (newtype = NOTE_ON ∧ par2 = 0) ∨
      (newtype = CONTROL_CHANGE ∧ (par1 = SUSTAIN_SWITCH ∨ par1 = SOSTENUTO_SWITCH) ∧
        par2 < 64))
    (hi : keys_index par1 = some i) (hkey : 0 < rule.keys_cc i)
    (hwait : rule.waiting = true) (hpend : rule.pending_events = 1) :
    handle_midi_event_rule (some channels) event hp2 rule =
        .ok (.send
          { rule with keys_cc := Function.update rule.keys_cc i 0, pending_events := 0 } true
          ⟨newtype % 256, to_uchar (new_chan rule event), to_unsigned par1,
            to_unsigned par2⟩) ∧
      ∀ before after free,
        handle_midi_event_loop (some channels) event hp2 (before ++ rule :: after) free =
          match handle_midi_event_loop (some channels) event hp2 before free with
          | .error f => .error f
          | .ok (live1, free1, calls1) =>
            match handle_midi_event_loop (some channels) event hp2 after
                ({ rule with keys_cc := Function.update rule.keys_cc i 0, pending_events := 0 } ::
                  free1) with
            | .error f => .error f
            | .ok (live2, free2, calls2) =>
              .ok (live1 ++ live2, free2,
                calls1 ++
                  .fluid_handler
                    ⟨newtype % 256, to_uchar (new_chan rule event), to_unsigned par1,
                      to_unsigned par2⟩ :: calls2) := by
  have hhas : newtype_haspar2 newtype = true := by
    rcases hneg with ⟨rfl, -⟩ | ⟨rfl, -⟩ <;> decide
  have hheld := held_state_retire rule newtype par1 par2 i hneg hi hkey hwait hpend
  subst hnt
  have hbody := rule_body_send channels event hp2 rule _ true par1 htype hchan hwin1 hwin2
    hcustom hdev hpar1 (by rw [hpar2]; exact hheld)
  rw [hpar2, hhas] at hbody
  simp only [if_true] at hbody
  refine ⟨hbody, ?_⟩
  intro before after free
  rw [loop_append]
  cases h1 : handle_midi_event_loop (some channels) event hp2 before free with
  | error f => rfl
  | ok res1 =>
    obtain ⟨live1, free1, calls1⟩ := res1
    simp only
    rw [loop_cons, hbody]
    simp only [step_free, step_rules, step_calls, List.singleton_append, List.nil_append]
    cases handle_midi_event_loop (some channels) event hp2 after
        ({ rule with keys_cc := Function.update rule.keys_cc i 0, pending_events := 0 } ::
          free1) with
    | error f => rfl
    | ok res2 => rfl

theorem retirement_splice_witness :
    handle_midi_event_rule (some 16) ⟨NOTE_ON, 0, 60, 0⟩ true
        { sbmidi_router_rule_set_param1 unity_rule 0 127 ⟨1, 0⟩ 12 with
          keys_cc := Function.update (fun _ => 0) 72 1, pending_events := 1, waiting := true } =
      .ok (.send
        { sbmidi_router_rule_set_param1 unity_rule 0 127 ⟨1, 0⟩ 12 with
          keys_cc := Function.update (Function.update (fun _ => 0) 72 1) 72 0
          pending_events := 0, waiting := true } true
        ⟨NOTE_ON % 256, to_uchar 0, to_unsigned 72, to_unsigned 0⟩) :=
  (retirement_splice 16 ⟨NOTE_ON, 0, 60, 0⟩ true
    { sbmidi_router_rule_set_param1 unity_rule 0 127 ⟨1, 0⟩ 12 with
      keys_cc := Function.update (fun _ => 0) 72 1, pending_events := 1, waiting := true }
    NOTE_ON 72 0 72 (by decide) (by decide) (by decide) (by decide) (by decide) (by decide)
    (by decide) (by decide) (by decide) (by decide) (by decide) (by decide) rfl rfl).1

/-- C24: the held-state transition, for an output `(newtype, par1, par2)` of the range policy.
On a positive trigger (`NOTE_ON` with `par2 > 0`, or sustain or sostenuto with `par2 >= 64`) the
flag `keys_cc[par1]` becomes 1 and the counter rises by 1 exactly when the flag was 0, otherwise
the rule is left as it is; the event is sent and the rule stays linked.  On a negative trigger
(`NOTE_ON` with `par2 == 0`, or sustain or sostenuto with `par2 < 64`), the flag being 0 or
more, it becomes 0 and the counter drops by 1 exactly when the flag was not 0, otherwise the
rule is left as it is; the event is sent in both cases, and the rule is unlinked exactly when
the flag was set, the rule is waiting and the counter reaches 0.  On any other output the rule
is left as it is, and the event is sent unless the rule is waiting. -/
theorem held_state_transition (rule : sbmidi_router_rule) (newtype : Nat) (par1 par2 : Int) :
    (∀ i, keys_index par1 = some i →
        (newtype = NOTE_ON ∧ par2 > 0) ∨
          (newtype = CONTROL_CHANGE ∧ (par1 = SUSTAIN_SWITCH ∨ par1 = SOSTENUTO_SWITCH) ∧
            par2 ≥ 64) →
        held_state rule newtype par1 par2 =
          .ok (some
            (if rule.keys_cc i = 0 then
              { rule with
                keys_cc := Function.update rule.keys_cc i 1
                pending_events := rule.pending_events + 1 }
            else rule, false))) ∧
      (∀ i, keys_index par1 = some i → 0 ≤ rule.keys_cc i →
        (newtype = NOTE_ON ∧ par2 = 0) ∨
          (newtype = CONTROL_CHANGE ∧ (par1 = SUSTAIN_SWITCH ∨ par1 = SOSTENUTO_SWITCH) ∧
            par2 < 64) →
        held_state rule newtype par1 par2 =
          .ok (some
            (if rule.keys_cc i ≠ 0 then
              { rule with
                keys_cc := Function.update rule.keys_cc i 0
                pending_events := rule.pending_events - 1 }
            else rule,
            decide (rule.keys_cc i ≠ 0 ∧ rule.waiting = true ∧ rule.pending_events - 1 = 0)))) ∧
      (¬ ((newtype = NOTE_ON ∧ par2 > 0) ∨
          (newtype = CONTROL_CHANGE ∧ (par1 = SUSTAIN_SWITCH ∨ par1 = SOSTENUTO_SWITCH) ∧
            par2 ≥ 64)) →
        ¬ ((newtype = NOTE_ON ∧ par2 = 0) ∨
          (newtype = CONTROL_CHANGE ∧ (par1 = SUSTAIN_SWITCH ∨ par1 = SOSTENUTO_SWITCH) ∧
            par2 < 64)) →
        held_state rule newtype par1 par2 =
          .ok (if rule.waiting = true then none else some (rule, false))) := by
  refine ⟨?_, ?_, ?_⟩
  · intro i hi hpos
    unfold held_state
    rw [if_pos hpos]
    simp only [hi]
    split_ifs <;> rfl
  · intro i hi hk hneg
    have hnpos : ¬ ((newtype = NOTE_ON ∧ par2 > 0) ∨
        (newtype = CONTROL_CHANGE ∧ (par1 = SUSTAIN_SWITCH ∨ par1 = SOSTENUTO_SWITCH) ∧
          par2 ≥ 64)) := by
      rcases hneg with ⟨rfl, rfl⟩ | ⟨rfl, -, h⟩
      · simp
      · simp only [CONTROL_CHANGE, NOTE_ON]
        omega
    unfold held_state
    rw [if_neg hnpos, if_pos hneg]
    simp only [hi]
    by_cases hz : rule.keys_cc i = 0
    · have h1 : ¬ (rule.keys_cc i > 0) := by omega
      simp [h1, hz]
    · have h1 : rule.keys_cc i > 0 := by omega
      by_cases hc : rule.waiting = true ∧ rule.pending_events - 1 = 0
      · simp [h1, hz, hc]
      · rw [if_pos h1, if_neg hc]
        simp [hz]
        intro hw hp
        exact hc ⟨hw, hp⟩
  · intro hnpos hnneg
    unfold held_state
    rw [if_neg hnpos, if_neg hnneg]
    split_ifs <;> rfl

theorem held_state_transition_witness :
    held_state unity_rule CONTROL_CHANGE 64 127 =
        .ok (some
          (if unity_rule.keys_cc 64 = 0 then
            { unity_rule with
              keys_cc := Function.update unity_rule.keys_cc 64 1
              pending_events := unity_rule.pending_events + 1 }
          else unity_rule, false)) ∧
      held_state unity_rule PITCH_BEND 8192 0 =
        .ok (if unity_rule.waiting = true then none else some (unity_rule, false)) :=
  ⟨(held_state_transition unity_rule CONTROL_CHANGE 64 127).1 64 (by decide) (by decide),
    (held_state_transition unity_rule PITCH_BEND 8192 0).2.2 (by decide) (by decide)⟩

/-! ## Conversions between one and two parameters, and rounding -/

/-- An output whose type is neither `NOTE_ON` nor `CONTROL_CHANGE` leaves the rule as it is. -/
theorem held_state_untracked (rule rule1 : sbmidi_router_rule) (newtype : Nat)
    (par1 par2 : Int) (unlink : Bool)
    (hn : newtype ≠ NOTE_ON) (hc : newtype ≠ CONTROL_CHANGE)
    (h : held_state rule newtype par1 par2 = .ok (some (rule1, unlink))) :
    rule1 = rule ∧ unlink = false := by
  unfold held_state at h
  rw [if_neg (by simp [hn, hc]), if_neg (by simp [hn, hc])] at h
  split_ifs at h
  · simp at h
  · simp only [Except.ok.injEq, Option.some.injEq, Prod.mk.injEq] at h
    exact ⟨h.1.symm, h.2.symm⟩

/-- What the loop body sends when the event has two parameters and the new type has one. -/
theorem two_to_one_send (dev : Option Int) (event : sbmidi_event) (rule rule1 : sbmidi_router_rule)
    (unlink : Bool) (new_event : sbmidi_event)
    (hnt : new_type rule event = PITCH_BEND ∨ new_type rule event = PROGRAM_CHANGE ∨
      new_type rule event = CHANNEL_PRESSURE)
    (h : handle_midi_event_rule dev event true rule = .ok (.send rule1 unlink new_event)) :
    rule1 = rule ∧ unlink = false ∧
      new_event =
        ⟨(if rule.newtype ≠ 0 then rule.newtype else event.type) % 256,
          to_uchar (rule.chan_add + mul_round event.channel rule.chan_mul),
          to_unsigned
            (max 0 (min (if new_type rule event = PITCH_BEND then 16383 else 127)
              (rule.par2_add + mul_round event.param2 rule.par2_mul))),
          0⟩ := by
  obtain ⟨-, -, -, -, -, channels, par1, -, -, -, hpar1, hheld, hev⟩ :=
    rule_body_send_inv dev event true rule rule1 unlink new_event h
  have hhas : newtype_haspar2 (new_type rule event) = false := by
    unfold newtype_haspar2
    rw [if_pos hnt]
  have hn : new_type rule event ≠ NOTE_ON := by
    rcases hnt with h | h | h <;> rw [h] <;> decide
  have hc : new_type rule event ≠ CONTROL_CHANGE := by
    rcases hnt with h | h | h <;> rw [h] <;> decide
  obtain ⟨h1, h2⟩ := held_state_untracked rule rule1 _ _ _ _ hn hc hheld
  rw [hhas] at hpar1 hev
  have hpm : (param_math rule event true false).1 =
      rule.par2_add + mul_round event.param2 rule.par2_mul := by simp [param_math]
  rw [hpm] at hpar1
  obtain ⟨hq, -⟩ := par1_range_some _ _ _ hpar1
  refine ⟨h1, h2, ?_⟩
  rw [hev, hq]
  simp [new_type, new_chan]

/-- C25: conversion from two parameters to one.  For an event with two parameters (the loop
body run with `event_haspar2` set, as for `NOTE_ON`, `KEY_PRESSURE`, `CONTROL_CHANGE`) and a
rule whose new type is `PITCH_BEND`, `PROGRAM_CHANGE` or `CHANNEL_PRESSURE`, `par1` before the
range policy is `par2_add + (int)(param2 * par2_mul + 0.5)`; whenever the rule sends, the rule
is left as it is, the second parameter sent is 0 and the event sent is made of the new type, the
transformed channel and that `par1` after the range policy; so it is the same for another first
parameter of the event and other `par1_mul`, `par1_add` of the rule.  With `type =
CONTROL_CHANGE`, `newtype = PITCH_BEND`, `par2_mul = 129`, `par2_add = 0`,
`CONTROL_CHANGE(0, 7, 64)` goes out as `PITCH_BEND` on channel 0 with first parameter 8256. -/
theorem two_to_one_conversion (dev : Option Int) (event : sbmidi_event)
    (rule : sbmidi_router_rule)
    (hnt : new_type rule event = PITCH_BEND ∨ new_type rule event = PROGRAM_CHANGE ∨
      new_type rule event = CHANNEL_PRESSURE) :
    (param_math rule event true (newtype_haspar2 (new_type rule event))).1 =
        rule.par2_add + mul_round event.param2 rule.par2_mul ∧
      (∀ rule1 unlink new_event,
        handle_midi_event_rule dev event true rule = .ok (.send rule1 unlink new_event) →
        rule1 = rule ∧ unlink = false ∧ new_event.param2 = 0 ∧
          new_event =
            ⟨(if rule.newtype ≠ 0 then rule.newtype else event.type) % 256,
              to_uchar (rule.chan_add + mul_round event.channel rule.chan_mul),
              to_unsigned
                (max 0 (min (if new_type rule event = PITCH_BEND then 16383 else 127)
                  (rule.par2_add + mul_round event.param2 rule.par2_mul))),
              0⟩) ∧
      (∀ param1 par1_mul par1_add rule1 unlink new_event rule2 unlink2 new_event2,
        handle_midi_event_rule dev event true rule = .ok (.send rule1 unlink new_event) →
        handle_midi_event_rule dev { event with param1 := param1 } true
            { rule with par1_mul := par1_mul, par1_add := par1_add } =
          .ok (.send rule2 unlink2 new_event2) →
        new_event2 = new_event) ∧
      (sbmidi_router_handle_midi_event
          ⟨[sbmidi_router_rule_set_param2
              (sbmidi_router_rule_set_newtype
                (sbmidi_router_rule_set_type unity_rule CONTROL_CHANGE) PITCH_BEND)
              0 999999 ⟨129, 0⟩ 0], [], some 16⟩
          ⟨CONTROL_CHANGE, 0, 7, 64⟩).map (fun r => r.calls) =
        .ok [.fluid_handler ⟨PITCH_BEND, 0, 8256, 0⟩] := by
  have hhas : newtype_haspar2 (new_type rule event) = false := by
    unfold newtype_haspar2
    rw [if_pos hnt]
  refine ⟨?_, ?_, ?_, by decide⟩
  · rw [hhas]
    simp [param_math]
  · intro rule1 unlink new_event h
    obtain ⟨h1, h2, h3⟩ := two_to_one_send dev event rule rule1 unlink new_event hnt h
    exact ⟨h1, h2, by rw [h3], h3⟩
  · intro param1 par1_mul par1_add rule1 unlink new_event rule2 unlink2 new_event2 h h'
    obtain ⟨-, -, h3⟩ := two_to_one_send dev event rule rule1 unlink new_event hnt h
    obtain ⟨-, -, h3'⟩ := two_to_one_send dev { event with param1 := param1 }
      { rule with par1_mul := par1_mul, par1_add := par1_add } rule2 unlink2 new_event2 hnt h'
    rw [h3, h3']
    rfl

theorem two_to_one_conversion_witness :
    handle_midi_event_rule (some 16) ⟨NOTE_ON, 0, 60, 100⟩ true
        (sbmidi_router_rule_set_newtype unity_rule CHANNEL_PRESSURE) =
      .ok (.send (sbmidi_router_rule_set_newtype unity_rule CHANNEL_PRESSURE) false
        ⟨CHANNEL_PRESSURE, 0, 100, 0⟩) ∧
      (sbmidi_event.mk CHANNEL_PRESSURE 0 100 0).param2 = 0 :=
  ⟨by rfl,
    ((two_to_one_conversion (some 16) ⟨NOTE_ON, 0, 60, 100⟩
      (sbmidi_router_rule_set_newtype unity_rule CHANNEL_PRESSURE) (by decide)).2.1
      (sbmidi_router_rule_set_newtype unity_rule CHANNEL_PRESSURE) false
      ⟨CHANNEL_PRESSURE, 0, 100, 0⟩ (by rfl)).2.2.1⟩

/-- C26: conversion from one parameter to two.  For an event with one parameter
(`PROGRAM_CHANGE`, `CHANNEL_PRESSURE`, `PITCH_BEND`: the loop body runs with `event_haspar2`
unset) and a rule whose new type has a second parameter, `par1` before the range policy is the
literal `rule.par2_min` and `par2` before the range policy is
`par1_add + (int)(param1 * par1_mul + 0.5)`; whenever the rule sends, the second parameter sent
is that `par2` clamped to `0 .. 127` and the first is `par2_min` after the range policy.  With
`type = PROGRAM_CHANGE`, `newtype = CONTROL_CHANGE` and the second window `7 .. 127`,
`PROGRAM_CHANGE(0, 100)` goes out as `CONTROL_CHANGE(0, 7, 100)`. -/
theorem one_to_two_conversion (dev : Option Int) (event : sbmidi_event)
    (rule : sbmidi_router_rule)
    (hnt : newtype_haspar2 (new_type rule event) = true) :
    param_math rule event false (newtype_haspar2 (new_type rule event)) =
        (rule.par2_min, rule.par1_add + mul_round event.param1 rule.par1_mul) ∧
      (∀ rule1 unlink new_event,
        handle_midi_event_rule dev event false rule = .ok (.send rule1 unlink new_event) →
        new_event.param1 = to_unsigned (max 0 (min 127 rule.par2_min)) ∧
          new_event.param2 =
            to_unsigned (max 0 (min 127
              (rule.par1_add + mul_round event.param1 rule.par1_mul)))) ∧
      (event_haspar2 PROGRAM_CHANGE = some false ∧ event_haspar2 CHANNEL_PRESSURE = some false ∧
        event_haspar2 PITCH_BEND = some false) ∧
      (sbmidi_router_handle_midi_event
          ⟨[sbmidi_router_rule_set_param2
              (sbmidi_router_rule_set_newtype
                (sbmidi_router_rule_set_type unity_rule PROGRAM_CHANGE) CONTROL_CHANGE)
              7 127 ⟨1, 0⟩ 0], [], some 16⟩
          ⟨PROGRAM_CHANGE, 0, 100, 0⟩).map (fun r => r.calls) =
        .ok [.fluid_handler ⟨CONTROL_CHANGE, 0, 7, 100⟩] := by
  have hpm : param_math rule event false true =
      (rule.par2_min, rule.par1_add + mul_round event.param1 rule.par1_mul) := by
    simp [param_math]
  refine ⟨by rw [hnt, hpm], ?_, by decide, by decide⟩
  intro rule1 unlink new_event h
  obtain ⟨-, -, -, -, -, channels, par1, -, -, -, hpar1, -, hev⟩ :=
    rule_body_send_inv dev event false rule rule1 unlink new_event h
  rw [hnt, hpm] at hpar1 hev
  obtain ⟨hq, -⟩ := par1_range_some _ _ _ hpar1
  have hpb : new_type rule event ≠ PITCH_BEND := by
    intro hpb
    rw [hpb] at hnt
    revert hnt
    decide
  rw [if_neg hpb] at hq
  rw [hev, hq]
  simp [par2_range_clamp]

theorem one_to_two_conversion_witness :
    param_math (sbmidi_router_rule_set_newtype unity_rule NOTE_ON) ⟨PITCH_BEND, 0, 100, 0⟩ false
        (newtype_haspar2
          (new_type (sbmidi_router_rule_set_newtype unity_rule NOTE_ON)
            ⟨PITCH_BEND, 0, 100, 0⟩)) =
      ((sbmidi_router_rule_set_newtype unity_rule NOTE_ON).par2_min,
        (sbmidi_router_rule_set_newtype unity_rule NOTE_ON).par1_add +
          mul_round (sbmidi_event.mk PITCH_BEND 0 100 0).param1
            (sbmidi_router_rule_set_newtype unity_rule NOTE_ON).par1_mul) :=
  (one_to_two_conversion (some 16) ⟨PITCH_BEND, 0, 100, 0⟩
    (sbmidi_router_rule_set_newtype unity_rule NOTE_ON) (by decide)).1

/-- The expression `(int)(v * mul + 0.5)` is the floor of `v * mul + 1/2` when the product is
not negative. -/
theorem mul_round_floor (v : Nat) (mul : double) (h : 0 ≤ (v : ℚ) * mul.value) :
    mul_round v mul = ⌊(v : ℚ) * mul.value + 1 / 2⌋ := by
  have hpow : (0 : ℚ) < 2 ^ mul.exp2 := by positivity
  have hnum : (0 : ℚ) ≤ (v : ℚ) * (mul.num : ℚ) := by
    unfold double.value at h
    rw [← mul_div_assoc] at h
    by_contra hneg
    push_neg at hneg
    have := div_neg_of_neg_of_pos hneg hpow
    linarith
  have hnumZ : (0 : Int) ≤ (v : Int) * mul.num := by exact_mod_cast hnum
  have heq : (v : ℚ) * mul.value + 1 / 2 =
      ((2 * (v : Int) * mul.num + ((2 ^ mul.exp2 : Nat) : Int) : Int) : ℚ) /
        ((2 ^ (mul.exp2 + 1) : Nat) : ℚ) := by
    unfold double.value
    push_cast
    field_simp
    ring
  rw [heq, Rat.floor_intCast_div_natCast]
  unfold mul_round
  apply Int.tdiv_eq_ediv
  · have : (0 : Int) ≤ ((2 ^ mul.exp2 : Nat) : Int) := Int.natCast_nonneg _
    nlinarith
  · exact Int.natCast_nonneg _

theorem excess_bits_zero (precision fuel a : Nat) (h : a < 2 ^ precision) :
    excess_bits precision fuel a = 0 := by
  cases fuel with
  | zero => rfl
  | succ n => simp [excess_bits, h]

/-- A dyadic rational whose numerator has at most 53 bits and whose denominator is at most
`2 ^ 1074` is a `double`. -/
theorem round_to_double_exact (x : double) (hnum : x.num.natAbs < 2 ^ 53)
    (hexp : x.exp2 ≤ 1074) : round_to_double x = some x := by
  obtain ⟨num, exp2⟩ := x
  simp only at hnum hexp
  have hs : excess_bits 53 num.natAbs num.natAbs = 0 := excess_bits_zero _ _ _ hnum
  have he : exp2 - 1074 = 0 := by omega
  have hlt : num.natAbs < 2 ^ (1024 + exp2) :=
    lt_of_lt_of_le hnum (Nat.pow_le_pow_right (by norm_num) (by omega))
  have hshift : num.natAbs >>> (1024 + exp2) = 0 := by
    rw [Nat.shiftRight_eq_div_pow]
    exact Nat.div_eq_of_lt hlt
  simp [round_to_double, round_binary, hs, he, hshift, Int.sign_mul_abs, Nat.mod_one]

/-- Where the product and the sum are doubles and the result is within `int`, the expression
computed in double arithmetic is the exact `mul_round`. -/
theorem mul_round_double_exact (v : Nat) (mul : double)
    (hprod : round_to_double ⟨(v : Int) * mul.num, mul.exp2⟩ =
      some ⟨(v : Int) * mul.num, mul.exp2⟩)
    (hsum : round_to_double
        ⟨2 * ((v : Int) * mul.num) + ((2 ^ mul.exp2 : Nat) : Int), mul.exp2 + 1⟩ =
      some ⟨2 * ((v : Int) * mul.num) + ((2 ^ mul.exp2 : Nat) : Int), mul.exp2 + 1⟩)
    (hrange : -2147483648 ≤ mul_round v mul ∧ mul_round v mul ≤ 2147483647) :
    mul_round_double v mul = some (mul_round v mul) := by
  have hm : mul_round v mul =
      Int.tdiv (2 * ((v : Int) * mul.num) + ((2 ^ mul.exp2 : Nat) : Int))
        ((2 ^ (mul.exp2 + 1) : Nat) : Int) := by
    unfold mul_round
    rw [mul_assoc]
  rw [hm] at hrange ⊢
  unfold mul_round_double
  rw [hprod]
  simp only
  rw [hsum]
  simp only
  rw [if_pos hrange]

/-- C27 (amended): rounding.  The code computes `(int)(v * mul + 0.5)` in double arithmetic:
the product and the sum are each rounded to the nearest `double` before the cast truncates
(`mul_round_double`).  For every input value `v` and multiplier `mul`, taken as the rational it
stands for, with `v * mul ≥ 0`, such that `v * mul` and `v * mul + 1/2` are doubles and
`v * mul + 1/2` is within the `int` range, that expression is `⌊v * mul + 1/2⌋`: the product
rounded to the nearest integer, halves rounded up (`0.5` goes to 1, `1.5` to 2 and `2.5` to 3);
it is then also the exact `mul_round` of the router model.  A dyadic rational whose numerator has
at most 53 bits, with a denominator of at most `2 ^ 1074`, is a `double`.  The transformed
channel is `chan_add` plus the expression on the channel, and the parameters before the range
policy are `par1_add`, `par2_add` plus the expression on `param1`, `param2`.  With the channel
window `0 .. 0`, `mul = 1`, `add = 5`, `NOTE_ON(0, 60, 100)` is sent as `NOTE_ON(5, 60, 100)`
and `NOTE_ON(1, 60, 100)` is dropped. -/
theorem rounding_half_up (v : Nat) (mul : double) (h : 0 ≤ (v : ℚ) * mul.value)
    (hprod : round_to_double ⟨(v : Int) * mul.num, mul.exp2⟩ =
      some ⟨(v : Int) * mul.num, mul.exp2⟩)
    (hsum : round_to_double
        ⟨2 * ((v : Int) * mul.num) + ((2 ^ mul.exp2 : Nat) : Int), mul.exp2 + 1⟩ =
      some ⟨2 * ((v : Int) * mul.num) + ((2 ^ mul.exp2 : Nat) : Int), mul.exp2 + 1⟩)
    (hrange : ⌊(v : ℚ) * mul.value + 1 / 2⌋ ≤ 2147483647) :
    mul_round_double v mul = some ⌊(v : ℚ) * mul.value + 1 / 2⌋ ∧
      mul_round v mul = ⌊(v : ℚ) * mul.value + 1 / 2⌋ ∧
      (∀ x : double, x.num.natAbs < 2 ^ 53 → x.exp2 ≤ 1074 → round_to_double x = some x) ∧
      (∀ rule event, new_chan rule event =
        rule.chan_add + mul_round event.channel rule.chan_mul) ∧
      (∀ rule event, param_math rule event true true =
        (rule.par1_add + mul_round event.param1 rule.par1_mul,
          rule.par2_add + mul_round event.param2 rule.par2_mul)) ∧
      (∀ rule event, (param_math rule event false false).1 =
        rule.par1_add + mul_round event.param1 rule.par1_mul) ∧
      (mul_round_double 1 ⟨1, 1⟩ = some 1 ∧ mul_round_double 3 ⟨1, 1⟩ = some 2 ∧
        mul_round_double 5 ⟨1, 1⟩ = some 3 ∧ mul_round_double 1 ⟨1, 2⟩ = some 0 ∧
        mul_round_double 3 ⟨1, 2⟩ = some 1) ∧
      (sbmidi_router_handle_midi_event
          ⟨[sbmidi_router_rule_set_chan unity_rule 0 0 ⟨1, 0⟩ 5], [], some 16⟩
          ⟨NOTE_ON, 0, 60, 100⟩).map (fun r => r.calls) =
        .ok [.fluid_handler ⟨NOTE_ON, 5, 60, 100⟩] ∧
      (sbmidi_router_handle_midi_event
          ⟨[sbmidi_router_rule_set_chan unity_rule 0 0 ⟨1, 0⟩ 5], [], some 16⟩
          ⟨NOTE_ON, 1, 60, 100⟩).map (fun r => r.calls) = .ok [] := by
  have hfloor := mul_round_floor v mul h
  have hnn : (0 : Int) ≤ ⌊(v : ℚ) * mul.value + 1 / 2⌋ := Int.floor_nonneg.mpr (by linarith)
  refine ⟨?_, hfloor, round_to_double_exact, fun _ _ => rfl, fun _ _ => rfl, fun _ _ => rfl,
    by decide, by decide, by decide⟩
  rw [← hfloor] at hnn hrange ⊢
  exact mul_round_double_exact v mul hprod hsum ⟨by omega, hrange⟩

theorem rounding_half_up_witness :
    mul_round_double 100 ⟨10066330, 25⟩ =
      some ⌊((100 : Nat) : ℚ) * (double.mk 10066330 25).value + 1 / 2⌋ :=
  (rounding_half_up 100 ⟨10066330, 25⟩ (by unfold double.value; positivity) (by decide)
    (by decide)
    (by
      rw [← mul_round_floor 100 ⟨10066330, 25⟩ (by unfold double.value; positivity)]
      decide)).1

/-- C27, as stated, fails in double arithmetic.  The multiplier `4990483 / 2 ^ 55` is a `float`
and the first parameter 3609750501 an `unsigned int`; their product is `(2 ^ 54 - 1) / 2 ^ 55`,
just below one half, so `⌊v * mul + 1/2⌋` is 0, but the product is rounded to the double `0.5`
and the code computes 1.  For the double nearest to `0.3`, `5404319552844595 / 2 ^ 54`, and the
value 5 the product is just below `1.5` and is rounded to `1.5`: `⌊v * mul + 1/2⌋` is 1 and the
code computes 2. -/
theorem rounding_half_up_counterexample :
    round_to_float ⟨4990483, 55⟩ = some ⟨4990483, 55⟩ ∧
      (0 : ℚ) ≤ ((3609750501 : Nat) : ℚ) * (double.mk 4990483 55).value ∧
      ⌊((3609750501 : Nat) : ℚ) * (double.mk 4990483 55).value + 1 / 2⌋ = 0 ∧
      mul_round_double 3609750501 ⟨4990483, 55⟩ = some 1 ∧
      round_to_double ⟨5404319552844595, 54⟩ = some ⟨5404319552844595, 54⟩ ∧
      (0 : ℚ) ≤ ((5 : Nat) : ℚ) * (double.mk 5404319552844595 54).value ∧
      ⌊((5 : Nat) : ℚ) * (double.mk 5404319552844595 54).value + 1 / 2⌋ = 1 ∧
      mul_round_double 5 ⟨5404319552844595, 54⟩ = some 2 :=
  ⟨by decide, by unfold double.value; positivity,
    (mul_round_floor 3609750501 ⟨4990483, 55⟩ (by unfold double.value; positivity)).symm.trans
      (by decide),
    by decide, by decide, by unfold double.value; positivity,
    (mul_round_floor 5 ⟨5404319552844595, 54⟩ (by unfold double.value; positivity)).symm.trans
      (by decide),
    by decide⟩

/-! ## The free list across rule mutation -/

/-- The rule loop only prepends to the free list. -/
theorem handle_event_free_rules (router : sbmidi_router) (event : sbmidi_event)
    (result : handle_result) (h : sbmidi_router_handle_midi_event router event = .ok result) :
    ∃ moved, result.router.free_rules = moved ++ router.free_rules := by
  unfold sbmidi_router_handle_midi_event at h
  simp only at h
  split at h
  · simp only [Except.ok.injEq] at h
    subst h
    exact ⟨[], rfl⟩
  · split at h
    · simp at h
    · rename_i rules free calls hloop
      simp only [Except.ok.injEq] at h
      subst h
      obtain ⟨steps, -, -, hfree, -⟩ := (loop_steps _ _ _ _ _ _ _ _).mp hloop
      exact ⟨_, hfree⟩

/-- C28 (amended): the free list is drained by `sbmidi_router_add_rule` only.  For the router
that `sbmidi_router_handle_midi_event` leaves, whose free list is the rules the call moved there
followed by the free list it found: `sbmidi_router_add_rule` frees exactly that free list and
leaves `free_rules` empty; `sbmidi_router_default_rules` and `sbmidi_router_clear_rules` leave
`free_rules` as it is and free live rules only, so the rules are still freed by an
`sbmidi_router_add_rule` that comes after them. -/
theorem free_list_drain (router : sbmidi_router) (event : sbmidi_event) (result : handle_result)
    (rule : sbmidi_router_rule) (mem : Bool)
    (h : sbmidi_router_handle_midi_event router event = .ok result) :
    ∃ moved,
      result.router.free_rules = moved ++ router.free_rules ∧
      (sbmidi_router_add_rule result.router rule).freed = moved ++ router.free_rules ∧
      (sbmidi_router_add_rule result.router rule).router.free_rules = [] ∧
      (sbmidi_router_default_rules mem result.router).router.free_rules =
        moved ++ router.free_rules ∧
      (sbmidi_router_clear_rules result.router).router.free_rules =
        moved ++ router.free_rules ∧
      (∀ r ∈ (sbmidi_router_default_rules mem result.router).freed, r ∈ result.router.rules) ∧
      (∀ r ∈ (sbmidi_router_clear_rules result.router).freed, r ∈ result.router.rules) ∧
      (sbmidi_router_add_rule (sbmidi_router_default_rules mem result.router).router rule).freed =
        moved ++ router.free_rules ∧
      (sbmidi_router_add_rule (sbmidi_router_clear_rules result.router).router rule).freed =
        moved ++ router.free_rules := by
  obtain ⟨moved, hm⟩ := handle_event_free_rules router event result h
  have hd : (sbmidi_router_default_rules mem result.router).router.free_rules =
      result.router.free_rules := by
    cases mem <;> rfl
  refine ⟨moved, hm, hm, rfl, hd.trans hm, hm, ?_, ?_, hd.trans hm, hm⟩
  · intro r hr
    cases mem
    · simp [sbmidi_router_default_rules, new_sbmidi_router_rule] at hr
    · simp only [sbmidi_router_default_rules, new_sbmidi_router_rule, if_true,
        default_rules_loop_snd, List.append_nil, List.mem_reverse, List.mem_filter] at hr
      exact hr.1
  · intro r hr
    simp only [sbmidi_router_clear_rules, clear_rules_loop_snd, List.append_nil,
      List.mem_reverse, List.mem_filter] at hr
    exact hr.1

theorem free_list_drain_witness :
    ∃ moved,
      (sbmidi_router.mk [] [{ unity_rule with
          keys_cc := Function.update (Function.update (fun _ => 0) 72 1) 72 0
          pending_events := 0, waiting := true }] (some 16)).free_rules =
        moved ++ (sbmidi_router.mk [{ unity_rule with
          keys_cc := Function.update (fun _ => 0) 72 1
          pending_events := 1, waiting := true }] [] (some 16)).free_rules ∧
      (sbmidi_router_add_rule
          ⟨[], [{ unity_rule with
            keys_cc := Function.update (Function.update (fun _ => 0) 72 1) 72 0
            pending_events := 0, waiting := true }], some 16⟩ unity_rule).freed =
        moved ++ (sbmidi_router.mk [{ unity_rule with
          keys_cc := Function.update (fun _ => 0) 72 1
          pending_events := 1, waiting := true }] [] (some 16)).free_rules :=
  (free_list_drain
      ⟨[{ unity_rule with
          keys_cc := Function.update (fun _ => 0) 72 1
          pending_events := 1, waiting := true }], [], some 16⟩
      ⟨NOTE_OFF, 0, 72, 64⟩
      { ret := SUCCESS
        router :=
          ⟨[], [{ unity_rule with
              keys_cc := Function.update (Function.update (fun _ => 0) 72 1) 72 0
              pending_events := 0, waiting := true }], some 16⟩
        calls := [.fluid_handler ⟨NOTE_ON, 0, 72, 0⟩]
        event := ⟨NOTE_ON, 0, 72, 0⟩ }
      unity_rule true (by rfl)).imp (fun _ hm => ⟨hm.1, hm.2.1⟩)

/-- C28, as stated, fails: on the router left by the note-off that retires the waiting default
rule (live list empty, the retired rule in `free_rules`), `sbmidi_router_clear_rules` and
`sbmidi_router_default_rules` free nothing and leave the retired rule in `free_rules`, and
`delete_sbmidi_router` frees no rule at all. -/
theorem free_list_drain_counterexample :
    sbmidi_router_handle_midi_event
        ⟨[{ unity_rule with
            keys_cc := Function.update (fun _ => 0) 72 1
            pending_events := 1, waiting := true }], [], some 16⟩
        ⟨NOTE_OFF, 0, 72, 64⟩ =
      .ok { ret := SUCCESS
            router :=
              ⟨[], [{ unity_rule with
                  keys_cc := Function.update (Function.update (fun _ => 0) 72 1) 72 0
                  pending_events := 0, waiting := true }], some 16⟩
            calls := [.fluid_handler ⟨NOTE_ON, 0, 72, 0⟩]
            event := ⟨NOTE_ON, 0, 72, 0⟩ } ∧
      (sbmidi_router_clear_rules
          ⟨[], [{ unity_rule with
              keys_cc := Function.update (Function.update (fun _ => 0) 72 1) 72 0
              pending_events := 0, waiting := true }], some 16⟩).router.free_rules ≠ [] ∧
      (sbmidi_router_clear_rules
          ⟨[], [{ unity_rule with
              keys_cc := Function.update (Function.update (fun _ => 0) 72 1) 72 0
              pending_events := 0, waiting := true }], some 16⟩).freed = [] ∧
      (sbmidi_router_default_rules true
          ⟨[], [{ unity_rule with
              keys_cc := Function.update (Function.update (fun _ => 0) 72 1) 72 0
              pending_events := 0, waiting := true }], some 16⟩).router.free_rules ≠ [] ∧
      (sbmidi_router_default_rules true
          ⟨[], [{ unity_rule with
              keys_cc := Function.update (Function.update (fun _ => 0) 72 1) 72 0
              pending_events := 0, waiting := true }], some 16⟩).freed = [] ∧
      delete_sbmidi_router
          ⟨[], [{ unity_rule with
              keys_cc := Function.update (Function.update (fun _ => 0) 72 1) 72 0
              pending_events := 0, waiting := true }], some 16⟩ = [] :=
  ⟨by rfl, by simp [sbmidi_router_clear_rules], by rfl,
    by simp [sbmidi_router_default_rules, new_sbmidi_router_rule], by rfl, by rfl⟩

/-! ## The input driver -/

/-- C29 (amended): driver channel composition.  For every incoming sequencer voice event on
destination port `p` with MIDI channel `c`, the event is handed to the router with channel
`(16 * p + c) mod 256`, the channel being an `unsigned char`; that is `16 * p + c` when
`p ≤ 15` and `c ≤ 15`.  For pitch bend with the bend value in `-8192 .. 8191` the first
parameter is the bend value plus 8192. -/
theorem driver_channel_composition (evt : sbmidi_event) (seq_ev : snd_seq_event)
    (hvoice : seq_ev.type = .NOTEON ∨ seq_ev.type = .NOTEOFF ∨ seq_ev.type = .KEYPRESS ∨
      seq_ev.type = .CONTROLLER ∨ seq_ev.type = .PITCHBEND ∨ seq_ev.type = .PGMCHANGE ∨
      seq_ev.type = .CHANPRESS) :
    (sbmidi_alsaseq_run_event evt seq_ev).2 = true ∧
      (sbmidi_alsaseq_run_event evt seq_ev).1.channel =
        (16 * seq_ev.dest_port +
          (if seq_ev.type = .NOTEON ∨ seq_ev.type = .NOTEOFF ∨ seq_ev.type = .KEYPRESS then
            seq_ev.note_channel else seq_ev.control_channel)) % 256 ∧
      (seq_ev.dest_port ≤ 15 → seq_ev.note_channel ≤ 15 → seq_ev.control_channel ≤ 15 →
        (sbmidi_alsaseq_run_event evt seq_ev).1.channel =
          16 * seq_ev.dest_port +
            (if seq_ev.type = .NOTEON ∨ seq_ev.type = .NOTEOFF ∨ seq_ev.type = .KEYPRESS then
              seq_ev.note_channel else seq_ev.control_channel)) ∧
      (seq_ev.type = .PITCHBEND → -8192 ≤ seq_ev.control_value → seq_ev.control_value ≤ 8191 →
        (sbmidi_alsaseq_run_event evt seq_ev).1.type = PITCH_BEND ∧
          (((sbmidi_alsaseq_run_event evt seq_ev).1.param1 : Nat) : Int) =
            seq_ev.control_value + 8192) := by
  have hch : ∀ n : Nat, to_uchar ((n : Int)) = n % 256 := by
    intro n
    unfold to_uchar
    omega
  refine ⟨?_, ?_, ?_, ?_⟩
  · rcases hvoice with h | h | h | h | h | h | h <;> simp [sbmidi_alsaseq_run_event, h]
  · rcases hvoice with h | h | h | h | h | h | h <;>
      (simp only [sbmidi_alsaseq_run_event, h]
       have := hch (seq_ev.dest_port * 16 + seq_ev.note_channel)
       have := hch (seq_ev.dest_port * 16 + seq_ev.control_channel)
       push_cast at *
       simp
       omega)
  · intro hp hn hc
    rcases hvoice with h | h | h | h | h | h | h <;>
      (simp only [sbmidi_alsaseq_run_event, h]
       have := hch (seq_ev.dest_port * 16 + seq_ev.note_channel)
       have := hch (seq_ev.dest_port * 16 + seq_ev.control_channel)
       push_cast at *
       simp
       omega)
  · intro h h1 h2
    refine ⟨by simp [sbmidi_alsaseq_run_event, h], ?_⟩
    simp only [sbmidi_alsaseq_run_event, h, to_unsigned]
    omega

theorem driver_channel_composition_witness :
    (sbmidi_alsaseq_run_event ⟨0, 0, 0, 0⟩ ⟨.PITCHBEND, 1, 0, 0, 0, 3, 0, -8192, 0⟩).2 = true ∧
      (sbmidi_alsaseq_run_event ⟨0, 0, 0, 0⟩ ⟨.PITCHBEND, 1, 0, 0, 0, 3, 0, -8192, 0⟩).1.channel =
        (16 * 1 + (if snd_seq_event_type.PITCHBEND = .NOTEON ∨
            snd_seq_event_type.PITCHBEND = .NOTEOFF ∨
            snd_seq_event_type.PITCHBEND = .KEYPRESS then 0 else 3)) % 256 :=
  ⟨(driver_channel_composition ⟨0, 0, 0, 0⟩ ⟨.PITCHBEND, 1, 0, 0, 0, 3, 0, -8192, 0⟩
      (by decide)).1,
    (driver_channel_composition ⟨0, 0, 0, 0⟩ ⟨.PITCHBEND, 1, 0, 0, 0, 3, 0, -8192, 0⟩
      (by decide)).2.1⟩

/-- C29, as stated, fails on destination port 16: a note-on on port 16, MIDI channel 0, is
handed to the router with channel 0, not 256. -/
theorem driver_channel_composition_counterexample :
    sbmidi_alsaseq_run_event ⟨0, 0, 0, 0⟩ ⟨.NOTEON, 16, 0, 60, 100, 0, 0, 0, 0⟩ =
        (⟨NOTE_ON, 0, 60, 100⟩, true) ∧
      (sbmidi_alsaseq_run_event ⟨0, 0, 0, 0⟩ ⟨.NOTEON, 16, 0, 60, 100, 0, 0, 0, 0⟩).1.channel ≠
        16 * 16 + 0 := by
  decide

/-! ## Index safety -/

/-- The loop body never fails on the bounds of `keys_cc`: its only fault is the missing
device. -/
theorem rule_body_fault (dev : Option Int) (event : sbmidi_event) (hp2 : Bool)
    (rule : sbmidi_router_rule) (f : fault)
    (h : handle_midi_event_rule dev event hp2 rule = .error f) :
    f = .null_midi_device ∧ dev = none := by
  cases dev with
  | some channels =>
    obtain ⟨step, hs⟩ := rule_body_total channels event hp2 rule
    rw [hs] at h
    simp at h
  | none =>
    refine ⟨?_, rfl⟩
    unfold handle_midi_event_rule at h
    split_ifs at h
    all_goals simp only [Except.error.injEq] at h
    all_goals exact h.symm

/-- The rule loop never fails on the bounds of `keys_cc`. -/
theorem loop_fault (dev : Option Int) (event : sbmidi_event) (hp2 : Bool)
    (rules free : List sbmidi_router_rule) (f : fault)
    (h : handle_midi_event_loop dev event hp2 rules free = .error f) :
    f = .null_midi_device ∧ dev = none := by
  induction rules generalizing free with
  | nil => simp [handle_midi_event_loop] at h
  | cons rule next ih =>
    rw [loop_cons] at h
    cases hs : handle_midi_event_rule dev event hp2 rule with
    | error g =>
      rw [hs] at h
      simp only [Except.error.injEq] at h
      subst h
      exact rule_body_fault dev event hp2 rule g hs
    | ok step =>
      rw [hs] at h
      simp only at h
      cases hl : handle_midi_event_loop dev event hp2 next (step_free step ++ free) with
      | error g =>
        rw [hl] at h
        simp only [Except.error.injEq] at h
        subst h
        exact ih _ hl
      | ok res =>
        rw [hl] at h
        simp at h

/-- C30: index safety.  For every router, with a device or without, every rule and every event,
`sbmidi_router_handle_midi_event` and its loop body never reach an access of `keys_cc[par1]`
with `par1` outside `0 .. 127`: the range policy has either stopped the pass (control change)
or clamped `par1` into `0 .. 127` (note-on) before the held-state block, which then comes to a
result, and `par1` is a valid subscript in every case where the block uses one. -/
theorem keys_cc_index_safety (router : sbmidi_router) (event : sbmidi_event) :
    sbmidi_router_handle_midi_event router event ≠ .error .keys_cc_bounds ∧
      (∀ hp2 rule,
        handle_midi_event_rule router.midi_device event hp2 rule ≠ .error .keys_cc_bounds) ∧
      (∀ rule newtype p par1 par2, par1_range newtype p = some par1 →
        ∃ o, held_state rule newtype par1 par2 = .ok o) ∧
      (∀ newtype p par1, par1_range newtype p = some par1 →
        newtype = NOTE_ON ∨ newtype = CONTROL_CHANGE →
        0 ≤ par1 ∧ par1 ≤ 127 ∧ ∃ i : Fin 128, keys_index par1 = some i ∧ (i : Int) = par1) := by
  refine ⟨?_, ?_, ?_, ?_⟩
  · intro h
    unfold sbmidi_router_handle_midi_event at h
    simp only at h
    split at h
    · simp at h
    · split at h
      · rename_i f hl
        simp only [Except.error.injEq] at h
        subst h
        have := (loop_fault _ _ _ _ _ _ hl).1
        simp at this
      · simp at h
  · intro hp2 rule h
    have := (rule_body_fault _ _ _ _ _ h).1
    simp at this
  · intro rule newtype p par1 par2 h
    exact held_state_total rule newtype p par1 par2 h
  · intro newtype p par1 h hnt
    obtain ⟨hq, -⟩ := par1_range_some newtype p par1 h
    have hpb : newtype ≠ PITCH_BEND := by
      rcases hnt with h | h <;> rw [h] <;> decide
    rw [if_neg hpb] at hq
    have hidx : 0 ≤ par1 ∧ par1 < 128 := by omega
    refine ⟨hidx.1, by omega, ⟨par1.toNat, by omega⟩, ?_, ?_⟩
    · simp [keys_index, hidx]
    · simp only
      omega

/-! ## Bounds of the events sent -/

/-- Every fluid handler call of the rule loop is the event some rule of the chain sends. -/
theorem loop_fluid_calls (dev : Option Int) (event : sbmidi_event) (hp2 : Bool)
    (rules free live free1 : List sbmidi_router_rule) (calls : List handler_call)
    (ev : sbmidi_event)
    (h : handle_midi_event_loop dev event hp2 rules free = .ok (live, free1, calls))
    (hev : handler_call.fluid_handler ev ∈ calls) :
    ∃ rule ∈ rules, ∃ rule1 unlink,
      handle_midi_event_rule dev event hp2 rule = .ok (.send rule1 unlink ev) := by
  induction rules generalizing free live free1 calls with
  | nil =>
    simp only [handle_midi_event_loop, Except.ok.injEq, Prod.mk.injEq] at h
    obtain ⟨-, -, rfl⟩ := h
    simp at hev
  | cons rule next ih =>
    rw [loop_cons] at h
    cases hs : handle_midi_event_rule dev event hp2 rule with
    | error f => simp [hs] at h
    | ok step =>
      rw [hs] at h
      simp only at h
      cases hl : handle_midi_event_loop dev event hp2 next (step_free step ++ free) with
      | error f => simp [hl] at h
      | ok res =>
        obtain ⟨live2, free2, calls2⟩ := res
        rw [hl] at h
        simp only [Except.ok.injEq, Prod.mk.injEq] at h
        obtain ⟨-, -, rfl⟩ := h
        rcases List.mem_append.mp hev with hm | hm
        · cases step with
          | skip => simp [step_calls] at hm
          | custom id => simp [step_calls] at hm
          | send rule1 unlink new_event =>
            simp only [step_calls, List.mem_singleton, handler_call.fluid_handler.injEq] at hm
            subst hm
            exact ⟨rule, List.mem_cons_self _ _, rule1, unlink, hs⟩
        · obtain ⟨r, hr, r1, u, hb⟩ := ih _ _ _ _ hl hm
          exact ⟨r, List.mem_cons_of_mem _ hr, r1, u, hb⟩

/-- The bounds of the event the loop body sends. -/
theorem rule_send_bounds (channels : Int) (event : sbmidi_event) (hp2 : Bool)
    (rule rule1 : sbmidi_router_rule) (unlink : Bool) (ev : sbmidi_event)
    (h : handle_midi_event_rule (some channels) event hp2 rule = .ok (.send rule1 unlink ev)) :
    ev.type = new_type rule event % 256 ∧
      (ev.channel : Int) < channels ∧
      ev.param1 ≤ (if new_type rule event = PITCH_BEND then 16383 else 127) ∧
      ev.param2 ≤ 127 ∧
      (new_type rule event = PITCH_BEND ∨ new_type rule event = PROGRAM_CHANGE ∨
        new_type rule event = CHANNEL_PRESSURE → ev.param2 = 0) := by
  obtain ⟨-, -, -, -, -, channels1, par1, hd, hc0, hc1, hpar1, -, hev⟩ :=
    rule_body_send_inv _ event hp2 rule rule1 unlink ev h
  simp only [Option.some.injEq] at hd
  subst hd
  obtain ⟨hq, -⟩ := par1_range_some _ _ _ hpar1
  subst hev
  refine ⟨rfl, ?_, ?_, ?_, ?_⟩
  · simp only [to_uchar]
    omega
  · simp only [to_unsigned]
    split_ifs at hq ⊢ <;> omega
  · simp only
    split
    · rename_i hh
      rw [hh]
      have := par2_range_bounds
        (param_math rule event hp2 true).2
      simp only [to_unsigned]
      omega
    · omega
  · intro hnt
    have hhas : newtype_haspar2 (new_type rule event) = false := by
      unfold newtype_haspar2
      rw [if_pos hnt]
    simp [hhas]

/-- C31: bounds of the events sent.  On a router with a device of `channels` channels, every
event that `sbmidi_router_handle_midi_event` passes to the fluid handler for a voice event (one
that goes through the rule loop) has its channel below `channels`, its first parameter at most
16383 if its type is `PITCH_BEND` and at most 127 otherwise, and its second parameter at most
127, whatever the multipliers, offsets and windows of the rules and whatever the parameters of
the event.  It is the event of a live rule whose new type, cut to the `unsigned char` of the
type field, is the type sent, and its second parameter is 0 if that new type is `PITCH_BEND`,
`PROGRAM_CHANGE` or `CHANNEL_PRESSURE`; so the second parameter is 0 if the type sent is one of
these three, the rules having a new type that is 0 or a status byte (below 256).  With
`par1_mul = 1000`, `NOTE_ON(0, 60, 100)` goes out as `NOTE_ON(0, 127, 100)`. -/
theorem emitted_event_bounds (router : sbmidi_router) (event : sbmidi_event) (hp2 : Bool)
    (channels : Int) (result : handle_result) (ev : sbmidi_event)
    (hvoice : event_haspar2 (note_off_rewrite event).type = some hp2)
    (hdev : router.midi_device = some channels)
    (h : sbmidi_router_handle_midi_event router event = .ok result)
    (hev : handler_call.fluid_handler ev ∈ result.calls) :
    (ev.channel : Int) < channels ∧
      ev.param1 ≤ (if ev.type = PITCH_BEND then 16383 else 127) ∧
      ev.param2 ≤ 127 ∧
      (∃ rule ∈ router.rules,
        ev.type = new_type rule (note_off_rewrite event) % 256 ∧
        (new_type rule (note_off_rewrite event) = PITCH_BEND ∨
          new_type rule (note_off_rewrite event) = PROGRAM_CHANGE ∨
          new_type rule (note_off_rewrite event) = CHANNEL_PRESSURE → ev.param2 = 0)) ∧
      ((∀ r ∈ router.rules, r.newtype < 256) →
        ev.type = PITCH_BEND ∨ ev.type = PROGRAM_CHANGE ∨ ev.type = CHANNEL_PRESSURE →
        ev.param2 = 0) ∧
      (sbmidi_router_handle_midi_event
          ⟨[sbmidi_router_rule_set_param1 unity_rule 0 127 ⟨1000, 0⟩ 0], [], some 16⟩
          ⟨NOTE_ON, 0, 60, 100⟩).map (fun r => r.calls) =
        .ok [.fluid_handler ⟨NOTE_ON, 0, 127, 100⟩] := by
  have hcalls : ∃ rule ∈ router.rules, ∃ rule1 unlink,
      handle_midi_event_rule (some channels) (note_off_rewrite event) hp2 rule =
        .ok (.send rule1 unlink ev) := by
    unfold sbmidi_router_handle_midi_event at h
    simp only [hvoice, hdev] at h
    split at h
    · simp at h
    · rename_i rules free calls hloop
      simp only [Except.ok.injEq] at h
      subst h
      exact loop_fluid_calls _ _ _ _ _ _ _ _ ev hloop hev
  obtain ⟨rule, hrule, rule1, unlink, hbody⟩ := hcalls
  obtain ⟨hty, hch, hp1, hp2b, hz⟩ := rule_send_bounds _ _ _ _ _ _ _ hbody
  have hevt : (note_off_rewrite event).type < 256 := by
    unfold event_haspar2 at hvoice
    split_ifs at hvoice with h1 h2
    · rcases h1 with h | h | h | h <;> rw [h] <;> decide
    · rcases h2 with h | h | h <;> rw [h] <;> decide
  refine ⟨hch, ?_, hp2b, ⟨rule, hrule, hty, hz⟩, ?_, by decide⟩
  · by_cases hpb : new_type rule (note_off_rewrite event) = PITCH_BEND
    · rw [hpb] at hty
      rw [if_pos hpb] at hp1
      have hty2 : ev.type = PITCH_BEND := hty
      rw [if_pos hty2]
      exact hp1
    · rw [if_neg hpb] at hp1
      split_ifs <;> omega
  · intro hnew hthree
    apply hz
    have hlt : new_type rule (note_off_rewrite event) < 256 := by
      unfold new_type
      split_ifs
      · exact hnew rule hrule
      · exact hevt
    rw [Nat.mod_eq_of_lt hlt] at hty
    rw [← hty]
    exact hthree

theorem emitted_event_bounds_witness :
    ((sbmidi_event.mk PITCH_BEND 0 8256 0).channel : Int) < 16 ∧
      (sbmidi_event.mk PITCH_BEND 0 8256 0).param1 ≤
        (if (sbmidi_event.mk PITCH_BEND 0 8256 0).type = PITCH_BEND then 16383 else 127) ∧
      (sbmidi_event.mk PITCH_BEND 0 8256 0).param2 ≤ 127 :=
  have h := emitted_event_bounds
    ⟨[sbmidi_router_rule_set_param2
        (sbmidi_router_rule_set_newtype
          (sbmidi_router_rule_set_type unity_rule CONTROL_CHANGE) PITCH_BEND)
        0 999999 ⟨129, 0⟩ 0], [], some 16⟩
    ⟨CONTROL_CHANGE, 0, 7, 64⟩ true 16
    { ret := SUCCESS
      router :=
        ⟨[sbmidi_router_rule_set_param2
            (sbmidi_router_rule_set_newtype
              (sbmidi_router_rule_set_type unity_rule CONTROL_CHANGE) PITCH_BEND)
            0 999999 ⟨129, 0⟩ 0], [], some 16⟩
      calls := [.fluid_handler ⟨PITCH_BEND, 0, 8256, 0⟩]
      event := ⟨CONTROL_CHANGE, 0, 7, 64⟩ }
    ⟨PITCH_BEND, 0, 8256, 0⟩ (by decide) rfl (by rfl) (List.mem_singleton.mpr rfl)
  ⟨h.1, h.2.1, h.2.2.1⟩

/-! ## Held state is keyed by the first parameter sent -/

/-- C32: held state is keyed by the first parameter sent alone.  The held-state block is given
the new type and the two parameters, not the channel.  Let key `n` of a rule be unflagged.  A
positive trigger on `n` (`NOTE_ON` with `par2 > 0`, or sustain or sostenuto with `par2 >= 64`)
flags the key and raises the counter by 1, and a second positive trigger on `n`, whatever its
type and channel, leaves the rule as it is: the counter has risen by 1 in all.  The first
negative trigger on `n` then clears the flag and puts the counter back to its first value, and
unlinks the rule exactly when it is waiting and that value is 0.  So the default rule, after
`NOTE_ON(0, 60, 100)` and `NOTE_ON(1, 60, 90)`, has one pending event, and once waiting it is
retired by `NOTE_ON(0, 60, 0)` while the note on channel 1 is not released; and note 64
followed by the sustain pedal counts once. -/
theorem held_state_keyed_by_param1 (rule : sbmidi_router_rule) (nt1 nt2 nt3 : Nat)
    (n q1 q2 q3 : Int) (i : Fin 128)
    (hi : keys_index n = some i) (hflag : rule.keys_cc i = 0)
    (hpos1 : (nt1 = NOTE_ON ∧ q1 > 0) ∨
      (nt1 = CONTROL_CHANGE ∧ (n = SUSTAIN_SWITCH ∨ n = SOSTENUTO_SWITCH) ∧ q1 ≥ 64))
    (hpos2 : (nt2 = NOTE_ON ∧ q2 > 0) ∨
      (nt2 = CONTROL_CHANGE ∧ (n = SUSTAIN_SWITCH ∨ n = SOSTENUTO_SWITCH) ∧ q2 ≥ 64))
    (hneg : (nt3 = NOTE_ON ∧ q3 = 0) ∨
      (nt3 = CONTROL_CHANGE ∧ (n = SUSTAIN_SWITCH ∨ n = SOSTENUTO_SWITCH) ∧ q3 < 64)) :
    held_state rule nt1 n q1 =
        .ok (some ({ rule with
          keys_cc := Function.update rule.keys_cc i 1
          pending_events := rule.pending_events + 1 }, false)) ∧
      held_state
          { rule with
            keys_cc := Function.update rule.keys_cc i 1
            pending_events := rule.pending_events + 1 } nt2 n q2 =
        .ok (some ({ rule with
          keys_cc := Function.update rule.keys_cc i 1
          pending_events := rule.pending_events + 1 }, false)) ∧
      (∀ waiting,
        held_state
            { rule with
              keys_cc := Function.update rule.keys_cc i 1
              pending_events := rule.pending_events + 1
              waiting := waiting } nt3 n q3 =
          .ok (some ({ rule with
            keys_cc := Function.update (Function.update rule.keys_cc i 1) i 0
            pending_events := rule.pending_events
            waiting := waiting },
            decide (waiting = true ∧ rule.pending_events = 0)))) ∧
      (∀ (event : sbmidi_event) (channel : Nat) (hp2 b : Bool),
        new_type rule { event with channel := channel } = new_type rule event ∧
          param_math rule { event with channel := channel } hp2 b =
            param_math rule event hp2 b) ∧
      (handle_midi_event_rule (some 16) ⟨NOTE_ON, 0, 60, 100⟩ true unity_rule =
          .ok (.send
            { unity_rule with keys_cc := Function.update (fun _ => 0) 60 1, pending_events := 1 }
            false ⟨NOTE_ON, 0, 60, 100⟩) ∧
        handle_midi_event_rule (some 16) ⟨NOTE_ON, 1, 60, 90⟩ true
            { unity_rule with
              keys_cc := Function.update (fun _ => 0) 60 1, pending_events := 1 } =
          .ok (.send
            { unity_rule with keys_cc := Function.update (fun _ => 0) 60 1, pending_events := 1 }
            false ⟨NOTE_ON, 1, 60, 90⟩) ∧
        handle_midi_event_rule (some 16) ⟨NOTE_ON, 0, 60, 0⟩ true
            { unity_rule with
              keys_cc := Function.update (fun _ => 0) 60 1, pending_events := 1
              waiting := true } =
          .ok (.send
            { unity_rule with
              keys_cc := Function.update (Function.update (fun _ => 0) 60 1) 60 0
              pending_events := 0, waiting := true }
            true ⟨NOTE_ON, 0, 60, 0⟩) ∧
        handle_midi_event_rule (some 16) ⟨NOTE_ON, 0, 64, 100⟩ true unity_rule =
          .ok (.send
            { unity_rule with keys_cc := Function.update (fun _ => 0) 64 1, pending_events := 1 }
            false ⟨NOTE_ON, 0, 64, 100⟩) ∧
        handle_midi_event_rule (some 16) ⟨CONTROL_CHANGE, 0, 64, 127⟩ true
            { unity_rule with
              keys_cc := Function.update (fun _ => 0) 64 1, pending_events := 1 } =
          .ok (.send
            { unity_rule with keys_cc := Function.update (fun _ => 0) 64 1, pending_events := 1 }
            false ⟨CONTROL_CHANGE, 0, 64, 127⟩)) := by
  have hnpos : ¬ ((nt3 = NOTE_ON ∧ q3 > 0) ∨
      (nt3 = CONTROL_CHANGE ∧ (n = SUSTAIN_SWITCH ∨ n = SOSTENUTO_SWITCH) ∧ q3 ≥ 64)) := by
    rcases hneg with ⟨rfl, rfl⟩ | ⟨rfl, -, h⟩
    · simp
    · simp only [CONTROL_CHANGE, NOTE_ON]
      omega
  refine ⟨?_, ?_, ?_, fun _ _ _ _ => ⟨rfl, rfl⟩, ⟨by rfl, by rfl, by rfl, by rfl, by rfl⟩⟩
  · unfold held_state
    rw [if_pos hpos1]
    simp only [hi, hflag, if_true]
  · unfold held_state
    rw [if_pos hpos2]
    simp only [hi, Function.update_same, one_ne_zero, if_false]
  · intro waiting
    unfold held_state
    rw [if_neg hnpos, if_pos hneg]
    simp only [hi, Function.update_same, gt_iff_lt, zero_lt_one, if_true, add_sub_cancel_right]
    split_ifs with hc
    · simp [hc]
    · simp only [Except.ok.injEq, Option.some.injEq, Prod.mk.injEq, true_and]
      simp only [decide_eq_false hc]

theorem held_state_keyed_by_param1_witness :
    held_state unity_rule NOTE_ON 60 100 =
        .ok (some ({ unity_rule with
          keys_cc := Function.update unity_rule.keys_cc 60 1
          pending_events := unity_rule.pending_events + 1 }, false)) ∧
      held_state
          { unity_rule with
            keys_cc := Function.update unity_rule.keys_cc 60 1
            pending_events := unity_rule.pending_events + 1 } NOTE_ON 60 90 =
        .ok (some ({ unity_rule with
          keys_cc := Function.update unity_rule.keys_cc 60 1
          pending_events := unity_rule.pending_events + 1 }, false)) :=
  have h := held_state_keyed_by_param1 unity_rule NOTE_ON NOTE_ON NOTE_ON 60 100 90 0 60
    (by decide) rfl (by decide) (by decide) (by decide)
  ⟨h.1, h.2.1⟩

/-! ## Negative products -/

/-- The expression `(int)(v * mul + 0.5)` for the multiplier `-1`. -/
theorem mul_round_neg_one (v : Nat) :
    mul_round v ⟨-1, 0⟩ = if v = 0 then 0 else 1 - (v : Int) := by
  simp only [mul_round, pow_zero, zero_add, pow_one, Nat.cast_one, Nat.cast_ofNat]
  split_ifs with h
  · subst h
    decide
  · have h1 : 2 * (v : Int) * -1 + 1 = -(2 * (v : Int) - 1) := by ring
    rw [h1, Int.neg_tdiv, Int.tdiv_eq_ediv (by omega) (by omega)]
    omega

/-- C33: negative products are truncated toward zero.  When `v * mul` is a negative integer
`m`, the expression `(int)(v * mul + 0.5)` is `m + 1`, so the value before the range policy is
`add + v * mul + 1`.  With `par2_mul = -1`, `par2_add = 127` and the second window `0 .. 127`,
the controller values 0 and 1 are both sent as 127, 127 is sent as 1, every value `v` from 1 to
127 is sent as `128 - v`, and no event is sent with the value 0. -/
theorem negative_product_truncation (v : Nat) (mul : double) (m : Int)
    (h : (v : ℚ) * mul.value = (m : ℚ)) (hm : m < 0) :
    mul_round v mul = m + 1 ∧
      (∀ rule event, (param_math rule event true true).2 =
        rule.par2_add + mul_round event.param2 rule.par2_mul) ∧
      (∀ u : Nat, (127 : Int) + mul_round u ⟨-1, 0⟩ = if u = 0 then 127 else 128 - (u : Int)) ∧
      (∀ u rule1 unlink ev,
        handle_midi_event_rule (some 16) ⟨CONTROL_CHANGE, 0, 7, u⟩ true
            (sbmidi_router_rule_set_param2 unity_rule 0 127 ⟨-1, 0⟩ 127) =
          .ok (.send rule1 unlink ev) →
        ev.param2 ≠ 0 ∧ ev.param2 = (if u = 0 then 127 else 128 - u)) ∧
      ((sbmidi_router_handle_midi_event
            ⟨[sbmidi_router_rule_set_param2 unity_rule 0 127 ⟨-1, 0⟩ 127], [], some 16⟩
            ⟨CONTROL_CHANGE, 0, 7, 0⟩).map (fun r => r.calls) =
          .ok [.fluid_handler ⟨CONTROL_CHANGE, 0, 7, 127⟩] ∧
        (sbmidi_router_handle_midi_event
            ⟨[sbmidi_router_rule_set_param2 unity_rule 0 127 ⟨-1, 0⟩ 127], [], some 16⟩
            ⟨CONTROL_CHANGE, 0, 7, 1⟩).map (fun r => r.calls) =
          .ok [.fluid_handler ⟨CONTROL_CHANGE, 0, 7, 127⟩] ∧
        (sbmidi_router_handle_midi_event
            ⟨[sbmidi_router_rule_set_param2 unity_rule 0 127 ⟨-1, 0⟩ 127], [], some 16⟩
            ⟨CONTROL_CHANGE, 0, 7, 127⟩).map (fun r => r.calls) =
          .ok [.fluid_handler ⟨CONTROL_CHANGE, 0, 7, 1⟩]) := by
  refine ⟨?_, fun _ _ => rfl, ?_, ?_, by decide, by decide, by decide⟩
  · have hpow : (0 : ℚ) < 2 ^ mul.exp2 := by positivity
    have hq : ((v : Int) * mul.num : ℚ) = (m : ℚ) * 2 ^ mul.exp2 := by
      unfold double.value at h
      rw [← h]
      field_simp
    have hz : (v : Int) * mul.num = m * 2 ^ mul.exp2 := by exact_mod_cast hq
    have hpz : (0 : Int) < 2 ^ mul.exp2 := by positivity
    unfold mul_round
    have hnum : 2 * (v : Int) * mul.num + ((2 ^ mul.exp2 : Nat) : Int) =
        -(2 ^ mul.exp2 * (-2 * m - 1)) := by
      push_cast
      linear_combination 2 * hz
    have hden : ((2 ^ (mul.exp2 + 1) : Nat) : Int) = 2 ^ mul.exp2 * 2 := by
      push_cast
      ring
    rw [hnum, hden, Int.neg_tdiv,
      Int.tdiv_eq_ediv (mul_nonneg hpz.le (by omega)) (by positivity),
      Int.mul_ediv_mul_of_pos _ _ hpz]
    omega
  · intro u
    rw [mul_round_neg_one]
    split_ifs <;> omega
  · intro u rule1 unlink ev hsend
    obtain ⟨-, -, -, hwin2, -, channels, par1, -, -, -, -, -, hev⟩ :=
      rule_body_send_inv _ _ _ _ _ _ _ hsend
    have hw := hwin2 rfl
    have hu : u ≤ 127 := by
      simp only [sbmidi_router_rule_set_param2, param_window_skip] at hw
      norm_num [to_unsigned] at hw
      omega
    subst hev
    have hnt : new_type (sbmidi_router_rule_set_param2 unity_rule 0 127 ⟨-1, 0⟩ 127)
        ⟨CONTROL_CHANGE, 0, 7, u⟩ = CONTROL_CHANGE := rfl
    have hhas : newtype_haspar2 CONTROL_CHANGE = true := by decide
    simp only [hnt, hhas, if_true]
    simp only [param_math, if_true, par2_range_clamp, sbmidi_router_rule_set_param2,
      mul_round_neg_one, to_unsigned]
    split_ifs with h0
    · subst h0
      decide
    · constructor <;> omega

theorem negative_product_truncation_witness :
    (((127 : Nat) : ℚ) * (double.mk (-1) 0).value = ((-127 : Int) : ℚ)) ∧
      mul_round 127 ⟨-1, 0⟩ = -127 + 1 :=
  ⟨by simp [double.value],
    (negative_product_truncation 127 ⟨-1, 0⟩ (-127) (by simp [double.value]) (by decide)).1⟩

/-! ## Waiting rules have pending events -/

/-- A rule that the held-state block leaves linked and that is waiting still has a pending
event. -/
theorem held_state_waiting (rule rule1 : sbmidi_router_rule) (newtype : Nat) (par1 par2 : Int)
    (h : held_state rule newtype par1 par2 = .ok (some (rule1, false)))
    (hinv : held_inv rule) (hw : rule.waiting = true → 0 < rule.pending_events) :
    rule1.waiting = true → 0 < rule1.pending_events := by
  obtain ⟨⟨-, -, hnn⟩, hwait, -, -⟩ := held_state_inv rule rule1 newtype par1 par2 false h hinv
  have h0 := hinv.2.2
  intro hw1
  rw [hwait] at hw1
  have hpos := hw hw1
  unfold held_state at h
  split at h
  · split at h
    · simp at h
    · split at h
      · simp only [Except.ok.injEq, Option.some.injEq, Prod.mk.injEq, and_true] at h
        subst h
        simp only
        omega
      · simp only [Except.ok.injEq, Option.some.injEq, Prod.mk.injEq, and_true] at h
        subst h
        exact hpos
  · split at h
    · split at h
      · simp at h
      · split at h
        · split at h
          · simp at h
          · rename_i hc
            simp only [Except.ok.injEq, Option.some.injEq, Prod.mk.injEq, and_true] at h
            subst h
            simp only at hnn ⊢
            have : rule.pending_events - 1 ≠ 0 := fun he => hc ⟨hw1, he⟩
            omega
        · simp only [Except.ok.injEq, Option.some.injEq, Prod.mk.injEq, and_true] at h
          subst h
          exact hpos
    · simp [hw1] at h

/-- The invariant `waiting_inv` holds of every live rule of a reachable state. -/
theorem reachable_waiting_inv (router : sbmidi_router) (h : reachable router) :
    ∀ r ∈ router.rules, waiting_inv r := by
  induction h with
  | new mem mem_rule router hnew =>
    cases mem <;> cases mem_rule <;>
      simp [new_sbmidi_router, new_sbmidi_router_rule] at hnew
    subst hnew
    intro r hr
    simp only [List.mem_singleton] at hr
    subst hr
    exact ⟨held_inv_unity, by simp [unity_rule], by simp [unity_rule]⟩
  | set_midi_device router midi_device _ ih =>
    cases midi_device with
    | none => exact ih
    | some channels => exact ih
  | add_rule router rule _ hb ih =>
    obtain ⟨hk, hp, hw⟩ := built_rule_fresh rule hb
    intro r hr
    simp only [sbmidi_router_add_rule, List.mem_cons] at hr
    rcases hr with rfl | hr
    · exact ⟨held_inv_congr unity_rule r hk hp held_inv_unity, by simp [hw],
        fun _ => ⟨hp, hw⟩⟩
    · exact ih r hr
  | default_rules mem router _ ih =>
    cases mem with
    | false => exact ih
    | true =>
      intro r hr
      simp only [sbmidi_router_default_rules, new_sbmidi_router_rule, if_true,
        default_rules_loop_fst, List.mem_cons, List.mem_map, List.mem_filter] at hr
      rcases hr with rfl | ⟨r0, ⟨hr0, hne⟩, rfl⟩
      · exact ⟨held_inv_unity, by simp [unity_rule], by simp [unity_rule]⟩
      · obtain ⟨hinv, -, hcus⟩ := ih r0 hr0
        have hne2 : r0.pending_events ≠ 0 := by simpa using hne
        have hnn := hinv.2.2
        refine ⟨held_inv_congr r0 _ rfl rfl hinv, fun _ => ?_, fun hc => ?_⟩
        · simp only
          omega
        · exact absurd (hcus hc).1 hne2
  | clear_rules router _ ih =>
    intro r hr
    simp only [sbmidi_router_clear_rules, clear_rules_loop_fst, List.mem_map,
      List.mem_filter] at hr
    obtain ⟨r0, ⟨hr0, hne⟩, rfl⟩ := hr
    obtain ⟨hinv, -, hcus⟩ := ih r0 hr0
    have hne2 : r0.pending_events ≠ 0 := by simpa using hne
    have hnn := hinv.2.2
    refine ⟨held_inv_congr r0 _ rfl rfl hinv, fun _ => ?_, fun hc => ?_⟩
    · simp only
      omega
    · exact absurd (hcus hc).1 hne2
  | handle_midi_event router event result _ hres ih =>
    unfold sbmidi_router_handle_midi_event at hres
    simp only at hres
    split at hres
    · simp only [Except.ok.injEq] at hres
      subst hres
      exact ih
    · split at hres
      · simp at hres
      · rename_i hloop
        simp only [Except.ok.injEq] at hres
        subst hres
        exact (loop_inv waiting_inv (fun _ => True) _ _ _
          (fun rule rule1 unlink ev hP hb => by
            refine ⟨fun hu => ?_, fun _ => trivial⟩
            subst hu
            obtain ⟨hinv, hw, -⟩ := hP
            obtain ⟨h1, -, h3, -⟩ := rule_step_inv _ _ _ rule rule1 false ev hb hinv
            obtain ⟨newtype, par1, par2, hs⟩ :=
              rule_send_held_state _ _ _ rule rule1 false ev hb
            obtain ⟨-, -, -, -, hcus, -⟩ := rule_body_send_inv _ _ _ rule rule1 false ev hb
            refine ⟨h1, held_state_waiting rule rule1 newtype par1 par2 hs hinv hw, ?_⟩
            intro hc
            rw [h3] at hc
            omega)
          _ _ _ _ _ ih (fun _ _ => trivial) hloop).1

/-- C34: waiting implies pending.  In every router state reachable from `new_sbmidi_router` by
`sbmidi_router_set_midi_device`, `sbmidi_router_add_rule` (of a rule built by
`new_sbmidi_router_rule` and the setters), `sbmidi_router_default_rules`,
`sbmidi_router_clear_rules` and `sbmidi_router_handle_midi_event`, every rule of the live list
that is waiting has `pending_events > 0`, and every custom rule (`custom_id >= 0`) of the live
list has `pending_events == 0` and is not waiting. -/
theorem waiting_implies_pending (router : sbmidi_router) (h : reachable router) :
    ∀ r ∈ router.rules,
      (r.waiting = true → 0 < r.pending_events) ∧
        (0 ≤ r.custom_id → r.pending_events = 0 ∧ r.waiting = false) := by
  intro r hr
  exact (reachable_waiting_inv router h r hr).2

theorem waiting_implies_pending_witness :
    reachable
        (sbmidi_router_clear_rules
          ⟨[{ unity_rule with
              keys_cc := Function.update (fun _ => 0) 72 1, pending_events := 1 }],
            [], some 16⟩).router ∧
      ∀ r ∈ (sbmidi_router_clear_rules
          ⟨[{ unity_rule with
              keys_cc := Function.update (fun _ => 0) 72 1, pending_events := 1 }],
            [], some 16⟩).router.rules,
        (r.waiting = true → 0 < r.pending_events) ∧
          (0 ≤ r.custom_id → r.pending_events = 0 ∧ r.waiting = false) :=
  ⟨reachable.clear_rules _ reachable_note_held,
    waiting_implies_pending _ (reachable.clear_rules _ reachable_note_held)⟩

/-! ## Rules that match `NOTE_OFF` -/

/-- The event that reaches the rule loop is never a `NOTE_OFF`. -/
theorem note_off_rewrite_type (event : sbmidi_event) :
    (note_off_rewrite event).type ≠ NOTE_OFF := by
  unfold note_off_rewrite
  split_ifs with h
  · show NOTE_ON ≠ NOTE_OFF
    decide
  · exact h

/-- C35: a rule whose match type is `NOTE_OFF` never matches.  For every event, as the note-off
rewrite leaves it, and every device state, the loop body skips such a rule at the type check;
so wherever the rule stands in the live list, the rule loop makes the calls it makes without the
rule, frees what it frees without it, and leaves the rule in its place as it was.  A `NOTE_OFF`
event sent to a router whose only rule matches `NOTE_OFF` causes no handler call. -/
theorem note_off_rule_never_matches (rule : sbmidi_router_rule) (event : sbmidi_event)
    (dev : Option Int) (hp2 : Bool) (hrule : rule.type = NOTE_OFF) :
    handle_midi_event_rule dev (note_off_rewrite event) hp2 rule = .ok .skip ∧
      (∀ before after free,
        handle_midi_event_loop dev (note_off_rewrite event) hp2 (before ++ rule :: after) free =
          match handle_midi_event_loop dev (note_off_rewrite event) hp2 before free with
          | .error f => .error f
          | .ok (live1, free1, calls1) =>
            match handle_midi_event_loop dev (note_off_rewrite event) hp2 after free1 with
            | .error f => .error f
            | .ok (live2, free2, calls2) =>
              .ok (live1 ++ rule :: live2, free2, calls1 ++ calls2)) ∧
      sbmidi_router_handle_midi_event
          ⟨[sbmidi_router_rule_set_type unity_rule NOTE_OFF], [], some 16⟩
          ⟨NOTE_OFF, 0, 60, 64⟩ =
        .ok { ret := SUCCESS
              router := ⟨[sbmidi_router_rule_set_type unity_rule NOTE_OFF], [], some 16⟩
              calls := []
              event := ⟨NOTE_ON, 0, 60, 0⟩ } := by
  have hbody : handle_midi_event_rule dev (note_off_rewrite event) hp2 rule = .ok .skip := by
    unfold handle_midi_event_rule
    rw [if_pos]
    rw [hrule]
    exact ⟨by decide, fun h => note_off_rewrite_type event h.symm⟩
  refine ⟨hbody, ?_, by rfl⟩
  intro before after free
  rw [loop_append]
  cases h1 : handle_midi_event_loop dev (note_off_rewrite event) hp2 before free with
  | error f => rfl
  | ok res1 =>
    obtain ⟨live1, free1, calls1⟩ := res1
    simp only
    rw [loop_cons, hbody]
    simp only [step_free, step_rules, step_calls, List.nil_append]
    cases handle_midi_event_loop dev (note_off_rewrite event) hp2 after free1 with
    | error f => rfl
    | ok res2 => rfl

theorem note_off_rule_never_matches_witness :
    handle_midi_event_rule (some 16) (note_off_rewrite ⟨NOTE_OFF, 0, 60, 64⟩) true
        (sbmidi_router_rule_set_type unity_rule NOTE_OFF) = .ok .skip :=
  (note_off_rule_never_matches (sbmidi_router_rule_set_type unity_rule NOTE_OFF)
    ⟨NOTE_OFF, 0, 60, 64⟩ (some 16) true rfl).1

/-! ## Events with one parameter do not depend on `param2` -/

/-- With `event_haspar2` unset the loop body does not read `param2`. -/
theorem rule_body_param2 (dev : Option Int) (event : sbmidi_event) (param2 : Nat)
    (rule : sbmidi_router_rule) :
    handle_midi_event_rule dev { event with param2 := param2 } false rule =
      handle_midi_event_rule dev event false rule := by
  rfl

/-- With `event_haspar2` unset the rule loop does not read `param2`: the event only shows in
the calls of the custom handler, which is handed the event as it came. -/
theorem loop_param2 (dev : Option Int) (event : sbmidi_event) (param2 : Nat)
    (rules free : List sbmidi_router_rule) :
    handle_midi_event_loop dev { event with param2 := param2 } false rules free =
      (handle_midi_event_loop dev event false rules free).map
        (fun res => (res.1, res.2.1, res.2.2.map (fun c =>
          match c with
          | .custom_handler _ custom_id =>
            .custom_handler { event with param2 := param2 } custom_id
          | .fluid_handler ev => .fluid_handler ev))) := by
  induction rules generalizing free with
  | nil => rfl
  | cons rule next ih =>
    rw [loop_cons, loop_cons, rule_body_param2]
    cases hs : handle_midi_event_rule dev event false rule with
    | error f => rfl
    | ok step =>
      simp only
      rw [ih]
      cases handle_midi_event_loop dev event false next (step_free step ++ free) with
      | error f => rfl
      | ok res =>
        obtain ⟨live, free1, calls⟩ := res
        cases step <;> simp [Except.map, step_calls]

/-- C36: events with one parameter do not depend on `param2`.  For every router state, with a
device set or not, and every event of type `PROGRAM_CHANGE`, `CHANNEL_PRESSURE` or
`PITCH_BEND`, `sbmidi_router_handle_midi_event` on the event with another `param2` comes to the
same result: the same status, the same rules and free list, and the same handler calls in the
same order, the fluid handler with the same events and the custom handler with the same ids, the
event handed to the custom handler being the incoming one with its own `param2`.  The second
window of a rule is not applied: a rule with the second window `50 .. 60` sends
`PROGRAM_CHANGE(0, 5)` whose `param2` field holds 0. -/
theorem param2_independence (router : sbmidi_router) (event : sbmidi_event) (param2 : Nat)
    (htype : event.type = PROGRAM_CHANGE ∨ event.type = CHANNEL_PRESSURE ∨
      event.type = PITCH_BEND) :
    sbmidi_router_handle_midi_event router { event with param2 := param2 } =
        (sbmidi_router_handle_midi_event router event).map
          (fun r =>
            { r with
              calls := r.calls.map (fun c =>
                match c with
                | .custom_handler _ custom_id =>
                  .custom_handler { event with param2 := param2 } custom_id
                | .fluid_handler ev => .fluid_handler ev)
              event := { event with param2 := param2 } }) ∧
      (sbmidi_router_handle_midi_event
          ⟨[sbmidi_router_rule_set_param2 unity_rule 50 60 ⟨1, 0⟩ 0], [], some 16⟩
          ⟨PROGRAM_CHANGE, 0, 5, 0⟩).map (fun r => r.calls) =
        .ok [.fluid_handler ⟨PROGRAM_CHANGE, 0, 5, 0⟩] := by
  refine ⟨?_, by decide⟩
  have hoff : event.type ≠ NOTE_OFF := by
    rcases htype with h | h | h <;> rw [h] <;> decide
  have hrw : note_off_rewrite event = event := by simp [note_off_rewrite, hoff]
  have hrw2 : note_off_rewrite { event with param2 := param2 } =
      { event with param2 := param2 } := by simp [note_off_rewrite, hoff]
  have hhas : event_haspar2 event.type = some false := by
    rcases htype with h | h | h <;> rw [h] <;> decide
  unfold sbmidi_router_handle_midi_event
  simp only [hrw, hrw2, hhas, loop_param2]
  cases handle_midi_event_loop router.midi_device event false router.rules
      router.free_rules with
  | error f => rfl
  | ok res =>
    obtain ⟨live, free1, calls⟩ := res
    rfl

theorem param2_independence_witness :
    sbmidi_router_handle_midi_event
        ⟨[sbmidi_router_rule_set_custom unity_rule 3, unity_rule], [], some 16⟩
        { sbmidi_event.mk PITCH_BEND 0 8192 0 with param2 := 99 } =
      (sbmidi_router_handle_midi_event
          ⟨[sbmidi_router_rule_set_custom unity_rule 3, unity_rule], [], some 16⟩
          ⟨PITCH_BEND, 0, 8192, 0⟩).map
        (fun r =>
          { r with
            calls := r.calls.map (fun c =>
              match c with
              | .custom_handler _ custom_id =>
                .custom_handler { sbmidi_event.mk PITCH_BEND 0 8192 0 with param2 := 99 }
                  custom_id
              | .fluid_handler ev => .fluid_handler ev)
            event := { sbmidi_event.mk PITCH_BEND 0 8192 0 with param2 := 99 } }) :=
  (param2_independence
    ⟨[sbmidi_router_rule_set_custom unity_rule 3, unity_rule], [], some 16⟩
    ⟨PITCH_BEND, 0, 8192, 0⟩ 99 (by decide)).1

end sbmidi
